import Mathlib

/-!
The test-case lifecycle engine of atf-lua.

A shallow embedding of `src/atf-lua/latf.c` and `src/atf-lua/latf_tc.c`.

* The C globals (`latf_tc_expected`, `latf_tc_expected_reason`, `tc_resfile_fd`,
  `tc_executing`, `tc_method_executing`) and the two Lua registry tables
  (`registry["_atf_tcs"]`, `registry["_atf_vars"]`) are the fields of `State`.
* `dprintf(tc_resfile_fd, ...)` and `close(tc_resfile_fd)` are recorded as traces of
  the system calls made (`State.written`, `State.closed`).
* A function that leaves through `lua_error` does not return: its result is an
  `Outcome` that is either a normal return or the error in flight, which the
  panic handler of `atf-lua.c` turns into the exit status of the process.
* Arguments that the C code obtains with `luaL_checkstring` are given as the C
  string that the call hands back (a `String`); a `lua_Number` from
  `luaL_checknumber` is given as an `Int` when its value is an integer (numbers
  with a fractional part are not in the model), and its assignment to a C `int`
  is `lua_Number_to_int`.  A call whose arguments those checks reject is outside
  the model.  Allocation failure (`strdup`, `vasprintf` returning `NULL`) is
  outside the model as well.
* A Lua table is a reference.  A test case table is given as its content
  together with its identity (`TestCase.addr`); the registry shows each entry
  with the content the table has at that moment, and `latf_tc_new`, which
  writes into the table it is given, changes a registry entry that is this very
  table.  The syntax `atf.TestCase "ident" { ... }` gives each builder a new
  table; a script may also hand a table to a builder a second time.
-/

namespace Latf

/-! ## Data model -/

/-- The `enum latf_tc_expect` of latf.c. -/
inductive latf_tc_expect where
  | TCE_PASS
  | TCE_DEATH
  | TCE_EXIT
  | TCE_FAIL
  | TCE_SIGNAL
  | TCE_TIMEOUT
  deriving DecidableEq, Repr

/-- Lua values that scripts hand to the native procedures (floats, tables,
functions and userdata are not used as arguments in this model). -/
inductive LuaVal where
  | nil
  | boolean (b : Bool)
  | integer (n : Int)
  | string (str : String)
  deriving DecidableEq, Repr

/-- One call of a native procedure of the `atf` library (the table `latf[]` of
latf.c), with its arguments.  `short_src` and `currentline` are what
`lua_getinfo` reports for the caller of `check_equal`; `arg2` is the number
that `luaL_checknumber(L, 2)` hands back, present when the call has a second
argument. -/
inductive Call where
  | get (key : String)
  | set (args : List LuaVal)
  | check_equal (args : List LuaVal) (short_src : String) (currentline : Int)
  | config_get (key : String) (rest : List LuaVal)
  | config_has (key : String)
  | get_srcdir
  | expect_death (reason : String)
  | expect_exit (reason : String) (arg2 : Option Int)
  | expect_fail (reason : String)
  | expect_pass
  | expect_signal (reason : String) (arg2 : Option Int)
  | expect_timeout (reason : String)
  | fail (reason : String)
  | pass
  | skip (reason : String)
  | require_prog (prog : String)
  deriving DecidableEq, Repr

/-- A Lua function stored in a test case: one of the two C stubs of latf_tc.c,
or a script function, modelled as the sequence of native calls it makes. -/
inductive LuaFn where
  | latf_tc_stub_head
  | latf_tc_stub_body
  | script (calls : List Call)
  deriving DecidableEq, Repr

/-- The value found under `head`, `body` or `cleanup` of a definition table:
`nil`, a function, or some other value (which is neither nil nor callable). -/
inductive LuaField where
  | nil
  | fn (f : LuaFn)
  | other
  deriving DecidableEq, Repr

/-- A test case table: the fields of the Lua table that latf_tc.c reads and
writes, and the identity `addr` of the table (what `lua_topointer` gives): two
values with the same `addr` are the same table, seen at different times.  Any
other key of the table reads as nil. -/
structure TestCase where
  addr : Nat
  _atf_ident : String
  head : LuaField
  body : LuaField
  cleanup : LuaField
  atf_auto : LuaVal
  _atf_vars : List (LuaVal × LuaVal)
  deriving DecidableEq, Repr

/-- What `access(2)` and `stat(2)` report for one path of the file system. -/
structure FileInfo where
  path : String
  access_X_OK : Bool
  S_ISREG : Bool
  any_exec_bit : Bool
  deriving DecidableEq, Repr

/-- The state of the process. -/
structure State where
  latf_tc_expected : latf_tc_expect
  latf_tc_expected_reason : Option String
  tc_resfile_fd : Int
  tc_executing : Option String
  tc_method_executing : Option String
  /-- The table `registry["_atf_tcs"]`: the registered test cases, keys 1..n. -/
  atf_tcs : List TestCase
  /-- The table `registry["_atf_vars"]`: the configuration variables. -/
  atf_vars : List (String × String)
  /-- The successful `dprintf` calls so far: descriptor and bytes. -/
  written : List (Int × String)
  /-- The `close` calls so far. -/
  closed : List Int
  /-- The bytes given to `printf`. -/
  stdout : String
  /-- The value of `getenv("PATH")`. -/
  env_PATH : Option String
  /-- The value of `getuid()`. -/
  uid : Nat
  /-- The files that exist. -/
  files : List FileInfo
  deriving DecidableEq, Repr

/-- How a C function of the harness ends: it returns `v`, or it leaves through
`_latf_bail` (a `struct latf_error` with exit code and optional message is in
flight to the panic handler), or through a plain Lua error (`luaL_error`, a
call of a value that is not a function), or it has undefined behaviour. -/
inductive Outcome (α : Type) where
  | ret (v : α) (s : State)
  | bail (err_exitcode : Int) (err_msg : Option String) (s : State)
  | lua_error (msg : String) (s : State)
  | undefined
  deriving DecidableEq, Repr

/-- Sequencing of C statements: continue with `f` after a normal return. -/
def Outcome.bind {α β : Type} (o : Outcome α) (f : α → State → Outcome β) : Outcome β :=
  match o with
  | .ret v s => f v s
  | .bail e m s => .bail e m s
  | .lua_error m s => .lua_error m s
  | .undefined => .undefined

/-- Whether `vfprintf(stderr, fmt, ap)` is defined for the format `fmt` and an
empty argument list, as `runtime_error(exitcode, fmt)` calls it: every `%` of
the format must start the directive `%%`.  Any other directive is invalid or
takes an argument that was not passed. -/
def format_without_arguments : List Char → Bool
  | [] => true
  | [c] => decide (c ≠ '%')
  | c :: d :: rest =>
      if c = '%' then decide (d = '%') && format_without_arguments rest
      else format_without_arguments (d :: rest)

/-- The exit status that `atf_lua_panic` of atf-lua.c gives the process for an
error in flight.  A foreign error is printed with `"Lua error: %s\n"` and gives
1.  An error of ours without message gives `err_exitcode`; one with a message
goes to `runtime_error(err_exitcode, err_msg)`, which uses `err_msg` as the
format of `vfprintf` with no arguments and then exits with `err_exitcode`: for
a message that holds a conversion the behaviour is undefined (`none`). -/
def atf_lua_panic {α : Type} : Outcome α → Option Int
  | .ret _ _ => none
  | .bail e none _ => some e
  | .bail e (some err_msg) _ =>
      if format_without_arguments err_msg.data then some e else none
  | .lua_error _ _ => some 1
  | .undefined => none

def STDIN_FILENO : Int := 0
def STDOUT_FILENO : Int := 1
def STDERR_FILENO : Int := 2
def ENOENT : Int := 2

/-- What `printf("%s", p)` prints: the string, or `(null)` for a NULL pointer. -/
def fmt_s : Option String → String
  | some str => str
  | none => "(null)"

/-- The table `latf_tc_expected_msg[]`; it has no entry for `TCE_PASS`. -/
def latf_tc_expected_msg : latf_tc_expect → Option String
  | .TCE_PASS => none
  | .TCE_DEATH => some "Test case was expected to terminate abruptly but it continued execution"
  | .TCE_EXIT => some "Test case was expected to exit cleanly but it continued execution"
  | .TCE_FAIL => some "Test case was expecting a failure but none were raised"
  | .TCE_SIGNAL =>
      some "Test case was expected to receive a termination signal but it continued execution"
  | .TCE_TIMEOUT => some "Test case was expected to hang but it continued execution"

/-! ## The result sink -/

/-- The macro `_latf_write_result(...)`: `dprintf(tc_resfile_fd, ...)` with the
formatted text.  The descriptor held in `tc_resfile_fd` is open whenever it is
not negative; with a negative descriptor `dprintf` fails and writes nothing. -/
def _latf_write_result (text : String) (s : State) : State :=
  if 0 ≤ s.tc_resfile_fd then
    { s with written := s.written ++ [(s.tc_resfile_fd, text)] }
  else s

/-- The bytes that the writes of a trace delivered to descriptor `fd`, in order. -/
def bytes_of (fd : Int) : List (Int × String) → String
  | [] => ""
  | w :: ws => if w.1 = fd then w.2 ++ bytes_of fd ws else bytes_of fd ws

/-- The bytes delivered so far to descriptor `fd`. -/
def State.sink (s : State) (fd : Int) : String := bytes_of fd s.written

/-- Between `s` and `s'` exactly `text` was appended to the result sink of `s`
(the stream behind `s.tc_resfile_fd`), and nothing to any other descriptor. -/
def appended (s s' : State) (text : String) : Prop :=
  ∀ fd : Int, s'.sink fd = if fd = s.tc_resfile_fd then s.sink fd ++ text else s.sink fd

/-! ## latf.c: leaving the interpreter -/

/-- The function `_latf_bail`: fills `atferr` and raises it with `lua_error`. -/
def _latf_bail {α : Type} (exitcode : Int) (msg : Option String) (s : State) : Outcome α :=
  .bail exitcode msg s

/-- The function `_latf_error`, given the formatted message. -/
def _latf_error {α : Type} (exitcode : Int) (msg : String) (s : State) : Outcome α :=
  _latf_bail exitcode (some msg) s

/-- The function `_latf_finish`. -/
def _latf_finish {α : Type} (exitcode : Int) (s : State) : Outcome α :=
  if 0 ≤ s.tc_resfile_fd ∧ s.tc_resfile_fd ≠ STDOUT_FILENO ∧
      s.tc_resfile_fd ≠ STDIN_FILENO then
    _latf_bail exitcode none
      { s with closed := s.closed ++ [s.tc_resfile_fd], tc_resfile_fd := -1 }
  else
    _latf_bail exitcode none s

/-- The function `_latf_skip`, given the formatted message. -/
def _latf_skip {α : Type} (msg : String) (s : State) : Outcome α :=
  _latf_finish 0 (_latf_write_result msg (_latf_write_result "skipped: " s))

/-- The function `_latf_fail`, given the formatted message. -/
def _latf_fail {α : Type} (msg : String) (s : State) : Outcome α :=
  match s.latf_tc_expected with
  | .TCE_FAIL =>
      _latf_finish 0
        (_latf_write_result "\n"
          (_latf_write_result msg
            (_latf_write_result
              ("expected_failure: " ++ fmt_s s.latf_tc_expected_reason ++ ": ") s)))
  | .TCE_PASS =>
      _latf_finish 1
        (_latf_write_result "\n" (_latf_write_result msg (_latf_write_result "failed: " s)))
  | _ => _latf_error 128 "Unreachable" s

/-- The function `_latf_pass`. -/
def _latf_pass {α : Type} (s : State) : Outcome α :=
  match s.latf_tc_expected with
  | .TCE_FAIL =>
      _latf_fail "Test case was expecting a failure but got a pass instead"
        { s with latf_tc_expected := .TCE_PASS }
  | .TCE_PASS => _latf_finish 0 (_latf_write_result "passed\n" s)
  | _ => _latf_error 128 "Unreachable" s

/-- The function `_latf_validate_expect`. -/
def _latf_validate_expect (s : State) : Outcome Unit :=
  if s.latf_tc_expected = .TCE_PASS then .ret () s
  else
    _latf_fail (fmt_s (latf_tc_expected_msg s.latf_tc_expected))
      { s with latf_tc_expected := .TCE_PASS }

/-! ## latf.c: the expectation procedures -/

/-- The function `latf_expect_death`. -/
def latf_expect_death (reason : String) (s : State) : Outcome (List LuaVal) :=
  (_latf_validate_expect s).bind fun _ s1 =>
    .ret [] (_latf_write_result ("expected_death: " ++ reason ++ "\n")
      { s1 with latf_tc_expected := .TCE_DEATH })

/-- The assignment of a `lua_Number` (a double) of integer value `n` to a C
`int`, as in `exitcode = luaL_checknumber(L, 2)`: the value is kept when an
`int` holds it; otherwise the conversion has undefined behaviour (`none`). -/
def lua_Number_to_int (n : Int) : Option Int :=
  if -2147483648 ≤ n ∧ n ≤ 2147483647 then some n else none

/-- The function `latf_expect_exit`; `arg2` is the number given as second
argument, when `nargs >= 2`, and `exitcode` the C variable it is assigned to. -/
def latf_expect_exit (reason : String) (arg2 : Option Int) (s : State) :
    Outcome (List LuaVal) :=
  (_latf_validate_expect s).bind fun _ s1 =>
    let s2 := { s1 with latf_tc_expected := .TCE_EXIT }
    match arg2 with
    | some n =>
        match lua_Number_to_int n with
        | some exitcode =>
            .ret [] (_latf_write_result
              ("expected_exit(" ++ toString exitcode ++ "): " ++ reason ++ "\n") s2)
        | none => .undefined
    | none => .ret [] (_latf_write_result ("expected_exit: " ++ reason ++ "\n") s2)

/-- The function `latf_expect_fail`. -/
def latf_expect_fail (reason : String) (s : State) : Outcome (List LuaVal) :=
  (_latf_validate_expect s).bind fun _ s1 =>
    .ret [] { s1 with latf_tc_expected := .TCE_FAIL, latf_tc_expected_reason := some reason }

/-- The function `latf_expect_pass`. -/
def latf_expect_pass (s : State) : Outcome (List LuaVal) :=
  (_latf_validate_expect s).bind fun _ s1 =>
    .ret [] { s1 with latf_tc_expected := .TCE_PASS, latf_tc_expected_reason := none }

/-- The function `latf_expect_signal`; `arg2` is the number given as second
argument, when `nargs >= 2`, and `signo` the C variable it is assigned to. -/
def latf_expect_signal (reason : String) (arg2 : Option Int) (s : State) :
    Outcome (List LuaVal) :=
  (_latf_validate_expect s).bind fun _ s1 =>
    let s2 := { s1 with latf_tc_expected := .TCE_SIGNAL }
    match arg2 with
    | some n =>
        match lua_Number_to_int n with
        | some signo =>
            .ret [] (_latf_write_result
              ("expected_signal(" ++ toString signo ++ "): " ++ reason ++ "\n") s2)
        | none => .undefined
    | none => .ret [] (_latf_write_result ("expected_signal: " ++ reason ++ "\n") s2)

/-- The function `latf_expect_timeout`. -/
def latf_expect_timeout (reason : String) (s : State) : Outcome (List LuaVal) :=
  (_latf_validate_expect s).bind fun _ s1 =>
    .ret [] (_latf_write_result ("expected_timeout: " ++ reason ++ "\n")
      { s1 with latf_tc_expected := .TCE_TIMEOUT })

/-- The function `latf_fail`. -/
def latf_fail (reason : String) (s : State) : Outcome (List LuaVal) :=
  _latf_fail reason s

/-- The function `latf_pass`. -/
def latf_pass (s : State) : Outcome (List LuaVal) :=
  _latf_pass s

/-- The function `latf_skip`. -/
def latf_skip (reason : String) (s : State) : Outcome (List LuaVal) :=
  _latf_skip reason s

/-! ## latf_tc.c: the registry -/

/-- The callback `latf_tc_get_cb`: `strcmp(tc_name, check_name) == 0`. -/
def latf_tc_get_cb (check_name : String) (tc : TestCase) : Bool :=
  tc._atf_ident = check_name

/-- The function `latf_tc_get`: `latf_tc_foreach` with `latf_tc_get_cb` visits
the entries in key order and stops at the first one whose ident is `name`.
The result is that entry (the table left on the Lua stack) with its position,
or `none` when the C function returns false. -/
def latf_tc_get (name : String) : List TestCase → Option (Nat × TestCase)
  | [] => none
  | tc :: rest =>
      if latf_tc_get_cb name tc then some (0, tc)
      else (latf_tc_get name rest).map fun p => (p.1 + 1, p.2)

/-- The array `latf_tc_inherited[]`. -/
def latf_tc_inherited : List String := ["head", "body", "cleanup"]

/-- Reading a key of a test case table with `lua_gettable`. -/
def TestCase.gettable (tc : TestCase) (key : String) : LuaField :=
  if key = "head" then tc.head
  else if key = "body" then tc.body
  else if key = "cleanup" then tc.cleanup
  else if key = "_atf_ident" ∨ key = "_atf_tc" ∨ key = "_atf_vars" then .other
  else if key = "atf_auto" then (if tc.atf_auto = .nil then .nil else .other)
  else .nil

/-- Writing one of the keys `head`, `body`, `cleanup` with `lua_setfield`. -/
def TestCase.setfield (tc : TestCase) (key : String) (v : LuaField) : TestCase :=
  if key = "head" then { tc with head := v }
  else if key = "body" then { tc with body := v }
  else if key = "cleanup" then { tc with cleanup := v }
  else tc

/-- The predicate `lua_isfunction`. -/
def lua_isfunction : LuaField → Bool
  | .fn _ => true
  | _ => false

/-- The function `lua_toboolean`: false for nil and false, true otherwise. -/
def lua_toboolean : LuaVal → Bool
  | .nil => false
  | .boolean b => b
  | _ => true

/-- The function `luaL_error` called from a C function: the message carries no
position prefix. -/
def luaL_error {α : Type} (msg : String) (s : State) : Outcome α :=
  .lua_error msg s

/-- The inheritance loop of `latf_tc_new`: a field of `latf_tc_inherited` that
is nil in the new table is copied from the table to inherit from. -/
def inherit_fields (inherit : TestCase) (t : TestCase) : TestCase :=
  latf_tc_inherited.foldl
    (fun acc field =>
      if acc.gettable field = .nil then acc.setfield field (inherit.gettable field) else acc)
    t

/-- The table that `latf_tc_new` has built when it reaches the registration
step, and the value of its local `doreg`. -/
def latf_tc_new_table (ident : String) (inherit : Option TestCase) (t : TestCase) :
    TestCase × Bool :=
  let t1 := { t with _atf_ident := ident }
  let t2 := match inherit with
    | some p => inherit_fields p t1
    | none => t1
  let t3 := { t2 with
    _atf_vars :=
      if lua_isfunction t2.cleanup then [(LuaVal.string "has.cleanup", LuaVal.string "true")]
      else [] }
  if t3.atf_auto = .nil then ({ t3 with atf_auto := .boolean true }, true)
  else (t3, lua_toboolean t3.atf_auto)

/-- What the registry shows once the table `built` has been written: every
entry that is this very table has the new content. -/
def store_table (built : TestCase) (tcs : List TestCase) : List TestCase :=
  tcs.map fun e => if e.addr = built.addr then built else e

/-- The function `latf_tc_new`: `ident` and `inherit` are its two upvalues, `t`
is the definition table given as argument 1.  All its writes (`lua_setfield`
of the ident first, then the inherited fields, `_atf_vars`, `atf_auto`) go to
that table, in place and before the registration step, so they show in the
registry when it holds the table.  It returns the table. -/
def latf_tc_new (ident : String) (inherit : Option TestCase) (t : TestCase) (s : State) :
    Outcome TestCase :=
  let built := latf_tc_new_table ident inherit t
  let s1 := { s with atf_tcs := store_table built.1 s.atf_tcs }
  if built.2 then
    if (latf_tc_get ident s1.atf_tcs).isSome then
      luaL_error ("double registered '" ++ ident ++ "'") s1
    else
      .ret built.1 { s1 with atf_tcs := s1.atf_tcs ++ [built.1] }
  else
    .ret built.1 s1

/-- The table `atf.TestCase` that `latf_tc_obj` constructs. -/
def latf_tc_obj : TestCase :=
  { addr := 0
    _atf_ident := "TestCase"
    head := .fn .latf_tc_stub_head
    body := .fn .latf_tc_stub_body
    cleanup := .nil
    atf_auto := .boolean true
    _atf_vars := [] }

/-- The function `luaopen_atf`: both registry tables start out empty. -/
def luaopen_atf (s : State) : State :=
  { s with atf_tcs := [], atf_vars := [] }

/-! ## latf.c: variables and configuration -/

/-- Assignment `t[k] = v` on a table kept in insertion order: nil as value
removes the key, an existing key keeps its place, a new key goes last. -/
def table_set (t : List (LuaVal × LuaVal)) (k v : LuaVal) : List (LuaVal × LuaVal) :=
  if v = .nil then t.filter fun e => e.1 ≠ k
  else if t.any (fun e => e.1 = k) then t.map fun e => if e.1 = k then (k, v) else e
  else t ++ [(k, v)]

/-- Reading `t[k]`; an absent key reads as nil. -/
def table_get (t : List (LuaVal × LuaVal)) (k : LuaVal) : LuaVal :=
  match t.find? fun e => e.1 = k with
  | some e => e.2
  | none => .nil

/-- Replaces the `_atf_vars` of the entry at position `i` of the registry. -/
def set_vars_at (tcs : List TestCase) (i : Nat) (vars : List (LuaVal × LuaVal)) :
    List TestCase :=
  tcs.modify (fun tc => { tc with _atf_vars := vars }) i

/-- The function `latf_get`. -/
def latf_get (key : String) (s : State) : Outcome (List LuaVal) :=
  match s.tc_executing with
  | none =>
      if s.atf_tcs = [] then _latf_error 128 "atf.set called in invalid test" s
      else .undefined
  | some name =>
      match latf_tc_get name s.atf_tcs with
      | none => _latf_error 128 "atf.set called in invalid test" s
      | some (_, tc) => .ret [table_get tc._atf_vars (.string key)] s

/-- The function `latf_set`. -/
def latf_set (args : List LuaVal) (s : State) : Outcome (List LuaVal) :=
  match s.tc_method_executing with
  | none => .undefined
  | some method =>
      if method ≠ "head" then
        _latf_error 128 "atf.set called from the test case's body" s
      else
        match args with
        | [k, v] =>
            match s.tc_executing with
            | none =>
                if s.atf_tcs = [] then _latf_error 128 "atf.set called in invalid test" s
                else .undefined
            | some name =>
                match latf_tc_get name s.atf_tcs with
                | none => _latf_error 128 "atf.set called in invalid test" s
                | some (i, tc) =>
                    if k = .nil then luaL_error "table index is nil" s
                    else
                      .ret [] { s with
                        atf_tcs := set_vars_at s.atf_tcs i (table_set tc._atf_vars k v) }
        | _ => _latf_error 128 "atf.set takes two args: key, value strings" s

/-- The function `luaL_tolstring` on the values of the model. -/
def luaL_tolstring : LuaVal → String
  | .nil => "nil"
  | .boolean true => "true"
  | .boolean false => "false"
  | .integer n => toString n
  | .string str => str

/-- The function `latf_check_equal`. -/
def latf_check_equal (args : List LuaVal) (short_src : String) (currentline : Int)
    (s : State) : Outcome (List LuaVal) :=
  match args with
  | expected :: actual :: _ =>
      if expected ≠ actual then
        _latf_fail
          (luaL_tolstring expected ++ " != " ++ luaL_tolstring actual ++
            " [" ++ short_src ++ ":" ++ toString currentline ++ "]") s
      else .ret [] s
  | _ => _latf_error 128 "wrong number of arguments for atf.check_equal (need 2)" s

/-- The function `_latf_config_get`: the value of the key in
`registry["_atf_vars"]`, when it is set. -/
def _latf_config_get (key : String) (s : State) : Option String :=
  (s.atf_vars.find? fun e => e.1 = key).map Prod.snd

/-- The function `latf_config_get`: `key` is argument 1, `rest` the further
arguments.  Without a stored value the function returns the value on top of
the stack, which is the last argument. -/
def latf_config_get (key : String) (rest : List LuaVal) (s : State) :
    Outcome (List LuaVal) :=
  match _latf_config_get key s with
  | some v => .ret [.string v] s
  | none =>
      match rest.getLast? with
      | none => _latf_error 1 ("Could not find configuration variable `" ++ key ++ "'") s
      | some d => .ret [d] s

/-- The function `latf_config_has`. -/
def latf_config_has (key : String) (s : State) : Outcome (List LuaVal) :=
  .ret [.boolean (_latf_config_get key s).isSome] s

/-- The function `latf_get_srcdir`, called without arguments. -/
def latf_get_srcdir (s : State) : Outcome (List LuaVal) :=
  latf_config_get "srcdir" [] s

/-- The function `latf_config_set`. -/
def latf_config_set (name value : String) (s : State) : State :=
  { s with
    atf_vars :=
      if s.atf_vars.any (fun e => e.1 = name) then
        s.atf_vars.map fun e => if e.1 = name then (name, value) else e
      else s.atf_vars ++ [(name, value)] }

/-- The function `latf_add_var`: splits `key=value` at the first `=`. -/
def latf_add_var (arg : String) (s : State) : Bool × State :=
  if arg.data = [] then (false, s)
  else if '=' ∉ arg.data then (false, s)
  else
    (true, latf_config_set (String.mk (arg.data.takeWhile fun c => c ≠ '='))
      (String.mk ((arg.data.dropWhile fun c => c ≠ '=').drop 1)) s)

/-! ## latf.c: require_prog -/

/-- The function `sane_xaccess`: `stat` succeeds for the paths that exist. -/
def sane_xaccess (candidate : String) (s : State) : Bool :=
  match s.files.find? fun f => f.path = candidate with
  | none => false
  | some f => f.access_X_OK && f.S_ISREG && (decide (s.uid ≠ 0) || f.any_exec_bit)

/-- The constant `PATH_MAX` of the platform, the size of `candidate`. -/
def PATH_MAX : Nat := 1024

/-- The fields of a string between its colons, as the successive calls of
`strsep(&path, ":")` return them: a string without colon is one field, and two
colons in a row, or a colon at either end, give an empty field. -/
def colon_fields : List Char → List (List Char)
  | [] => [[]]
  | c :: cs =>
      if c = ':' then [] :: colon_fields cs
      else
        match colon_fields cs with
        | [] => [[c]]
        | f :: fs => (c :: f) :: fs

/-- The components of a `PATH` value. -/
def path_components (envpath : String) : List String :=
  (colon_fields envpath.data).map String.mk

/-- The function `path_search`. -/
def path_search (prog : String) (s : State) : Bool :=
  match s.env_PATH with
  | none => false
  | some envpath =>
      (path_components envpath).any fun d =>
        let candidate := (if d = "" then "." else d) ++ "/" ++ prog
        decide (candidate.utf8ByteSize < PATH_MAX) && sane_xaccess candidate s

/-- The function `latf_require_prog`. -/
def latf_require_prog (prog : String) (s : State) : Outcome (List LuaVal) :=
  if prog.data.head? ≠ some '/' ∧ '/' ∈ prog.data then
    _latf_fail ("atf_require_prog does not accept relative path name `" ++ prog ++ "'") s
  else if prog.data.head? = some '/' then
    if !sane_xaccess prog s then
      _latf_skip ("The required program " ++ prog ++ " could not be found") s
    else .ret [] s
  else if !path_search prog s then
    _latf_skip ("The required program " ++ prog ++ " could not be found in PATH") s
  else .ret [] s

/-- The function `latf_set_resultfile`; `open_result` is what `open(2)` returns
when the function calls it. -/
def latf_set_resultfile (resfile : String) (open_result : Int) (s : State) : Outcome Unit :=
  let s1 :=
    if 0 ≤ s.tc_resfile_fd ∧ s.tc_resfile_fd ≠ STDOUT_FILENO ∧
        s.tc_resfile_fd ≠ STDERR_FILENO then
      { s with closed := s.closed ++ [s.tc_resfile_fd] }
    else s
  if resfile = "/dev/stdout" then .ret () { s1 with tc_resfile_fd := STDOUT_FILENO }
  else if resfile = "/dev/stderr" then .ret () { s1 with tc_resfile_fd := STDERR_FILENO }
  else if open_result = -1 then
    _latf_error 128 ("Cannot create results file '" ++ resfile ++ "'")
      { s1 with tc_resfile_fd := open_result }
  else .ret () { s1 with tc_resfile_fd := open_result }

/-! ## Running the methods of a test case -/

/-- Dispatch of one native call through the table `latf[]`. -/
def run_call (c : Call) (s : State) : Outcome (List LuaVal) :=
  match c with
  | .get key => latf_get key s
  | .set args => latf_set args s
  | .check_equal args short_src currentline => latf_check_equal args short_src currentline s
  | .config_get key rest => latf_config_get key rest s
  | .config_has key => latf_config_has key s
  | .get_srcdir => latf_get_srcdir s
  | .expect_death reason => latf_expect_death reason s
  | .expect_exit reason exitcode => latf_expect_exit reason exitcode s
  | .expect_fail reason => latf_expect_fail reason s
  | .expect_pass => latf_expect_pass s
  | .expect_signal reason signo => latf_expect_signal reason signo s
  | .expect_timeout reason => latf_expect_timeout reason s
  | .fail reason => latf_fail reason s
  | .pass => latf_pass s
  | .skip reason => latf_skip reason s
  | .require_prog prog => latf_require_prog prog s

/-- A script function makes its calls in order; an error ends it. -/
def run_calls : List Call → State → Outcome Unit
  | [], s => .ret () s
  | c :: cs, s => (run_call c s).bind fun _ s1 => run_calls cs s1

/-- The function `latf_tc_stub_head`. -/
def latf_tc_stub_head (s : State) : Outcome Unit :=
  .ret () s

/-- The function `latf_tc_stub_body`. -/
def latf_tc_stub_body (s : State) : Outcome Unit :=
  (_latf_fail "Test case not implemented" s).bind fun (_ : Unit) s1 => .ret () s1

/-- The call `lua_call(L, 0, 0)` of the value on top of the stack. -/
def lua_call (f : LuaField) (s : State) : Outcome Unit :=
  match f with
  | .fn .latf_tc_stub_head => latf_tc_stub_head s
  | .fn .latf_tc_stub_body => latf_tc_stub_body s
  | .fn (.script calls) => run_calls calls s
  | .nil => luaL_error "attempt to call a nil value" s
  | .other => luaL_error "attempt to call a value that is not a function" s

/-- The function `latf_tc_method`; `tc` is the test case table on top of the
Lua stack. -/
def latf_tc_method (tc : TestCase) (tc_ident : String) (method : String) (s : State) :
    Outcome Unit :=
  let s1 := { s with tc_executing := some tc_ident, tc_method_executing := some method }
  if tc.gettable method = .nil then
    let s2 := { s1 with tc_executing := none, tc_method_executing := none }
    if method = "cleanup" then .ret () s2
    else
      (latf_tc_stub_body s2).bind fun _ s3 =>
        (lua_call .nil s3).bind fun _ s4 =>
          .ret () { s4 with tc_executing := none, tc_method_executing := none }
  else
    (lua_call (tc.gettable method) s1).bind fun _ s2 =>
      .ret () { s2 with tc_executing := none, tc_method_executing := none }

/-- The function `latf_tc_execute`. -/
def latf_tc_execute (test method : String) (s : State) : Outcome Int :=
  match latf_tc_get test s.atf_tcs with
  | none => .ret ENOENT s
  | some (_, tc) =>
      (latf_tc_method tc test "head" s).bind fun _ s1 =>
        (latf_tc_method tc test method s1).bind fun _ s2 => .ret 0 s2

/-- The function `latf_execute`. -/
def latf_execute (test method : String) (s : State) : Outcome Int :=
  (latf_tc_execute test method s).bind fun error s1 =>
    if error ≠ 0 then .ret error s1
    else
      (_latf_validate_expect s1).bind fun _ s2 =>
        .ret 0 (_latf_write_result "passed\n" s2)

/-- The function `latf_tc_ident`: calling a test case table with an ident gives
the builder `latf_tc_new` with that ident and the table as its upvalues. -/
def latf_tc_ident (self : TestCase) (ident : String) : TestCase → State → Outcome TestCase :=
  latf_tc_new ident (some self)

/-! ## latf_tc.c: the listing -/

/-- The call `printf(...)` with the formatted text. -/
def printf (text : String) (s : State) : State :=
  { s with stdout := s.stdout ++ text }

/-- The function `lua_tostring`: NULL for a value that is neither a string nor
a number. -/
def lua_tostring : LuaVal → Option String
  | .string str => some str
  | .integer n => some (toString n)
  | _ => none

/-- The inner loop of `latf_tc_list_cb` over the vars of a test case.  For a
key that is a number `lua_tostring` rewrites the key on the stack, after which
what the following `lua_next` does is not specified. -/
def list_vars : List (LuaVal × LuaVal) → State → Outcome Unit
  | [], s => .ret () s
  | (k, v) :: rest, s =>
      let s1 := printf (fmt_s (lua_tostring k) ++ ": " ++ fmt_s (lua_tostring v) ++ "\n") s
      match k with
      | .integer _ => .undefined
      | _ => list_vars rest s1

/-- The callback `latf_tc_list_cb` for the entry at position `i`; `counter` is
the integer that `data` points to. -/
def latf_tc_list_cb (i : Nat) (counter : Nat) (s : State) : Outcome (Int × Nat) :=
  match s.atf_tcs[i]? with
  | none => .undefined
  | some tc =>
      (latf_tc_method tc tc._atf_ident "head" s).bind fun _ s1 =>
        let s2 := printf ("ident: " ++ tc._atf_ident ++ "\n") (printf "\n" s1)
        let vars := match s2.atf_tcs[i]? with
          | some tc1 => tc1._atf_vars
          | none => []
        (list_vars vars s2).bind fun _ s3 => .ret (0, counter + 1) s3

/-- The function `latf_tc_foreach` with `latf_tc_list_cb`, for the `remaining`
entries from position `i` on. -/
def latf_tc_foreach_list : Nat → Nat → Nat → State → Outcome Nat
  | 0, _, counter, s => .ret counter s
  | remaining + 1, i, counter, s =>
      (latf_tc_list_cb i counter s).bind fun r s1 =>
        if r.1 ≠ 0 then .ret r.2 s1
        else latf_tc_foreach_list remaining (i + 1) r.2 s1

/-- The function `latf_tc_list`. -/
def latf_tc_list (s : State) : Outcome Unit :=
  let s1 := printf "Content-Type: application/X-atf-tp; version=\"1\"\n" s
  (latf_tc_foreach_list s1.atf_tcs.length 0 0 s1).bind fun counter s2 =>
    if counter = 0 then .ret () (printf "\n" s2) else .ret () s2

/-- The function `latf_list`. -/
def latf_list (s : State) : Outcome Unit :=
  latf_tc_list s

/-- The process as `main` of atf-lua.c has it before it opens the result file
and loads the script: the C globals hold their initialisers and `luaopen_atf`
has run. -/
def initial_state (env_PATH : Option String) (uid : Nat) (files : List FileInfo) : State :=
  luaopen_atf
    { latf_tc_expected := .TCE_PASS
      latf_tc_expected_reason := none
      tc_resfile_fd := -1
      tc_executing := none
      tc_method_executing := none
      atf_tcs := []
      atf_vars := []
      written := []
      closed := []
      stdout := ""
      env_PATH := env_PATH
      uid := uid
      files := files }


/-! ## Sample states -/

/-- A process whose result sink is descriptor `fd` and whose expectation is `e`
with stored reason `reason`; nothing is registered. -/
def sample_state (e : latf_tc_expect) (reason : Option String) (fd : Int) : State :=
  { initial_state none 0 [] with
    latf_tc_expected := e
    latf_tc_expected_reason := reason
    tc_resfile_fd := fd }

/-- The calls that declare an expectation: the `expect_*` procedures. -/
def Call.is_expect : Call → Bool
  | .expect_death _ => true
  | .expect_exit _ _ => true
  | .expect_fail _ => true
  | .expect_pass => true
  | .expect_signal _ _ => true
  | .expect_timeout _ => true
  | _ => false

/-- Between `s` and `s'` nothing but the expectation, its stored reason and the
trace of writes has changed. -/
def same_but_expectation_and_sink (s s' : State) : Prop :=
  s' = { s with
    latf_tc_expected := s'.latf_tc_expected
    latf_tc_expected_reason := s'.latf_tc_expected_reason
    written := s'.written }

/-- One use of a builder by the script: `latf_tc_new` with upvalues `ident`
and `inherit`, called on the definition table `t`. -/
structure Build where
  ident : String
  inherit : Option TestCase
  t : TestCase
  deriving DecidableEq, Repr

/-- The state in which a C function leaves the process, however it ends. -/
def Outcome.final_state {α : Type} (o : Outcome α) (s : State) : State :=
  match o with
  | .ret _ s' => s'
  | .bail _ _ s' => s'
  | .lua_error _ s' => s'
  | .undefined => s

/-- The state after one build, whether it succeeded or raised its error. -/
def run_build (s : State) (b : Build) : State :=
  (latf_tc_new b.ident b.inherit b.t s).final_state s

/-- The state after a sequence of builds, each one made whether or not the
ones before it succeeded. -/
def run_builds (bs : List Build) (s : State) : State :=
  bs.foldl run_build s

/-- The idents of the registered test cases, in registry order. -/
def State.idents (s : State) : List String :=
  s.atf_tcs.map fun tc => tc._atf_ident

/-- A definition table whose head sets `descr` and whose body declares an
expected exit and returns. -/
def sample_case : TestCase :=
  { latf_tc_obj with
    addr := 1
    head := .fn (.script [.set [.string "descr", .string "x"]])
    body := .fn (.script [.expect_exit "r" none]) }

/-- The process after the script has registered `sample_case` as `case`, with
standard output as result sink. -/
def sample_registered : State :=
  run_builds [⟨"case", some latf_tc_obj, sample_case⟩] (sample_state .TCE_PASS none 1)

/-- The table that the build of `sample_case` has put into the registry. -/
def sample_built : TestCase :=
  (latf_tc_new_table "case" (some latf_tc_obj) sample_case).1

/-- The state that the head of `case` leaves. -/
def sample_after_head : State :=
  (latf_tc_method sample_built "case" "head" sample_registered).final_state sample_registered

/-- The state that the body of `case` leaves. -/
def sample_after_body : State :=
  (latf_tc_method sample_built "case" "body" sample_after_head).final_state sample_after_head

/-- A process with `PATH=/bin:` in which `/bin/true` is an executable regular
file; standard output is the result sink. -/
def sample_fs_state : State :=
  { sample_state .TCE_PASS none 1 with
    env_PATH := some "/bin:"
    uid := 1001
    files := [⟨"/bin/true", true, true, true⟩] }

/-- A definition table whose head calls `fail("x")` at once, which shows the
expectation state that the head finds. -/
def probe_case : TestCase :=
  { latf_tc_obj with addr := 1, head := .fn (.script [.fail "x"]) }

/-- The process after the script has registered `probe_case` as `probe`, with
standard output as result sink and expectation `e` with reason `r` in force
when `execute` is called. -/
def probe_registered (e : latf_tc_expect) (r : Option String) : State :=
  run_builds [⟨"probe", some latf_tc_obj, probe_case⟩] (sample_state e r 1)

/-- A lineage of test cases: starting with `parent`, each definition table of
the list is built under its ident by calling the table built before it (the
`__call` closure `latf_tc_ident`).  The result is the table built last. -/
def build_lineage : TestCase → List (String × TestCase) → State → Outcome TestCase
  | parent, [], s => .ret parent s
  | parent, (ident, t) :: rest, s =>
      (latf_tc_ident parent ident t s).bind fun d s1 => build_lineage d rest s1

/-- A definition table that supplies nothing. -/
def empty_table : TestCase :=
  { addr := 1
    _atf_ident := ""
    head := .nil
    body := .nil
    cleanup := .nil
    atf_auto := .nil
    _atf_vars := [] }

/-- The concatenation of a list of texts. -/
def concat_lines : List String → String
  | [] => ""
  | t :: ts => t ++ concat_lines ts

/-- The text is an expectation-declaration line of the result protocol. -/
def is_declaration (line : String) : Prop :=
  ∃ r : String,
    line = "expected_death: " ++ r ++ "\n" ∨
    line = "expected_exit: " ++ r ++ "\n" ∨
    (∃ c : Int, line = "expected_exit(" ++ toString c ++ "): " ++ r ++ "\n") ∨
    line = "expected_signal: " ++ r ++ "\n" ∨
    (∃ n : Int, line = "expected_signal(" ++ toString n ++ "): " ++ r ++ "\n") ∨
    line = "expected_timeout: " ++ r ++ "\n"

/-- The text is a terminal output of the result protocol as the code writes
it: `passed`, `failed: ...` or `expected_failure: ...: ...` with a newline,
or `skipped: ...`. -/
def is_terminal_output (text : String) : Prop :=
  text = "passed\n" ∨
  (∃ m : String, text = "failed: " ++ m ++ "\n") ∨
  (∃ r m : String, text = "expected_failure: " ++ r ++ ": " ++ m ++ "\n") ∨
  (∃ m : String, text = "skipped: " ++ m)

/-- Between `s` and `s'` declaration lines, and nothing else, were appended to
the result sink; the descriptor of the sink, the closed descriptors and the
standard output are as before. -/
def only_declared (s s' : State) : Prop :=
  s'.tc_resfile_fd = s.tc_resfile_fd ∧ s'.stdout = s.stdout ∧ s'.closed = s.closed ∧
    ∃ decls : List String, appended s s' (concat_lines decls) ∧
      ∀ d ∈ decls, is_declaration d

/-- The outcome is a test outcome that leaves the process in state `s'`: a
normal return with result 0, or an error in flight that carries no message
(the one `_latf_finish` raises); an error with a message, a Lua error and
undefined behaviour are fatal errors. -/
def is_test_outcome (o : Outcome Int) (s' : State) : Prop :=
  o = .ret 0 s' ∨ ∃ e : Int, o = .bail e none s'

/-- The header line of the listing protocol. -/
def listing_header : String := "Content-Type: application/X-atf-tp; version=\"1\"\n"

/-- Every key of the vars is a string and every value a string or a number. -/
def printable_vars : List (LuaVal × LuaVal) → Bool
  | [] => true
  | (.string _, .string _) :: rest => printable_vars rest
  | (.string _, .integer _) :: rest => printable_vars rest
  | _ :: _ => false

/-- The lines of the listing protocol for the vars of a test case: one line
`<key>: <value>` per entry, in the order of the vars, a number in decimal. -/
def vars_lines : List (LuaVal × LuaVal) → String
  | [] => ""
  | (.string k, .string v) :: rest => k ++ ": " ++ v ++ "\n" ++ vars_lines rest
  | (.string k, .integer n) :: rest => k ++ ": " ++ toString n ++ "\n" ++ vars_lines rest
  | _ :: rest => vars_lines rest

/-- The part of the listing protocol for one test case: a blank line, the line
`ident: <ident>` and the lines of its vars. -/
def listing_entry (ident : String) (vars : List (LuaVal × LuaVal)) : String :=
  "\n" ++ "ident: " ++ ident ++ "\n" ++ vars_lines vars

/-- The run of the heads that a listing makes, for the `remaining` entries of
the registry from position `i` on, each head started in the state that the
entry before it left (its head run and its part of the listing printed): when
every head returns normally and leaves vars that can be printed, the result is the vars of each entry as they stand right after
its head has run, and the final state; otherwise there is no result. -/
def heads_run : Nat → Nat → State → Option (List (List (LuaVal × LuaVal)) × State)
  | 0, _, s => some ([], s)
  | remaining + 1, i, s =>
      match s.atf_tcs[i]? with
      | none => none
      | some tc =>
          match latf_tc_method tc tc._atf_ident "head" s with
          | .ret _ s1 =>
              match s1.atf_tcs[i]? with
              | none => none
              | some tc1 =>
                  if printable_vars tc1._atf_vars then
                    match heads_run remaining (i + 1)
                        (printf (listing_entry tc._atf_ident tc1._atf_vars) s1) with
                    | some (vs, s2) => some (tc1._atf_vars :: vs, s2)
                    | none => none
                  else none
          | _ => none

/-- What releasing the sink means: the descriptor that was the sink in `s` has
been closed, by one more call of `close`, and the descriptor variable is -1. -/
def released (s s' : State) : Prop :=
  s'.closed = s.closed ++ [s.tc_resfile_fd] ∧ s'.tc_resfile_fd = -1

/-- A definition table whose body is the script `calls`; the head is the stub. -/
def scripted_case (calls : List Call) : TestCase :=
  { latf_tc_obj with addr := 1, body := .fn (.script calls) }

/-- The process after the script has registered `scripted_case calls` as `case`,
with a dedicated file, open on descriptor 3, as result sink. -/
def scripted_registered (calls : List Call) : State :=
  run_builds [⟨"case", some latf_tc_obj, scripted_case calls⟩] (sample_state .TCE_PASS none 3)

/-- The message of the error object that reaches `atf_lua_panic`, which hands it
to `runtime_error`; none when the process ends otherwise. -/
def Outcome.err_msg {α : Type} : Outcome α → Option String
  | .bail _ msg _ => msg
  | _ => none

/-- The outcome of `execute` on the body of `case` whose script is `calls`,
called in the state after registration: expectation `Pass`, nothing written. -/
def run_scripted (calls : List Call) : Outcome Int :=
  latf_execute "case" "body" (scripted_registered calls)

/-- The `dprintf` calls made between `s` and `s'` are the writes of the texts
`ws`, in this order, to the result sink of `s`; there was no other write. -/
def wrote (s s' : State) (ws : List String) : Prop :=
  s'.written = s.written ++ ws.map fun t => (s.tc_resfile_fd, t)

/-- The writes that make up one terminal output, as `_latf_pass`, `_latf_fail`,
`_latf_skip` and `latf_execute` make them: the one write of `passed`, the three
writes of a `failed` or of an `expected_failure` line (prefix, message,
newline), or the two writes of `skipped` (prefix, message). -/
def terminal_writes (ws : List String) : Prop :=
  ws = ["passed\n"] ∨
  (∃ m : String, ws = ["failed: ", m, "\n"]) ∨
  (∃ r m : String, ws = ["expected_failure: " ++ r ++ ": ", m, "\n"]) ∨
  (∃ m : String, ws = ["skipped: ", m])

/-- The write is the first one of a terminal output. -/
def opens_terminal (w : String) : Prop :=
  w = "passed\n" ∨ w = "failed: " ∨ w = "skipped: " ∨
  ∃ r : String, w = "expected_failure: " ++ r ++ ": "

/-- Between `s` and `s'` every write to the result sink was the write of one
declaration line, and the descriptor of the sink is as before. -/
def declared_writes (s s' : State) : Prop :=
  s'.tc_resfile_fd = s.tc_resfile_fd ∧
    ∃ decls : List String, wrote s s' decls ∧ ∀ d ∈ decls, is_declaration d

/-- Between `s` and `s'` the writes to the result sink were writes of one
declaration line each, followed by the writes of one terminal output, and no
write after these. -/
def terminal_after_declarations (s s' : State) : Prop :=
  ∃ decls tw : List String, wrote s s' (decls ++ tw) ∧
    (∀ d ∈ decls, is_declaration d) ∧ terminal_writes tw

/-- A definition table of its own, at address `n`, that supplies nothing. -/
def own_table (n : Nat) : TestCase :=
  { empty_table with addr := n }

/-- The process after the script has built `own_table 1` as `a`, which
registers it; standard output is the result sink. -/
def registered_a : State :=
  run_builds [⟨"a", some latf_tc_obj, own_table 1⟩] (sample_state .TCE_PASS none 1)

/-- The table at address 1 as that build has left it; the script still holds
it and can hand it to a builder again. -/
def table_a : TestCase :=
  (latf_tc_new_table "a" (some latf_tc_obj) (own_table 1)).1

/-- The table at address 1 after the script has then assigned
`atf_auto = false` to it. -/
def table_a_opted_out : TestCase :=
  { table_a with atf_auto := .boolean false }

/-- The process after that assignment: the registry, which holds the table,
shows it. -/
def registered_a_opted_out : State :=
  { registered_a with atf_tcs := store_table table_a_opted_out registered_a.atf_tcs }

/-- A table at address `n` that supplies neither `head` nor `body` and opts
out of registration with `atf_auto = false`. -/
def unregistered_table (n : Nat) : TestCase :=
  { own_table n with atf_auto := .boolean false }

/-- The lineage `a`, `b` of two tables of their own that supply nothing, built
from the default `TestCase` in the sample state. -/
def sample_lineage : Outcome TestCase :=
  build_lineage latf_tc_obj [("a", own_table 1), ("b", own_table 2)]
    (sample_state .TCE_PASS none 1)

/-! ## Lemmas on the result sink -/

theorem bytes_of_append (fd : Int) (l1 l2 : List (Int × String)) :
    bytes_of fd (l1 ++ l2) = bytes_of fd l1 ++ bytes_of fd l2 := by
  induction l1 with
  | nil => simp [bytes_of]
  | cons w ws ih =>
      by_cases h : w.1 = fd
      · simp [bytes_of, h, ih, String.append_assoc]
      · simp [bytes_of, h, ih]

theorem bytes_of_same (fd : Int) (ts : List String) :
    bytes_of fd (ts.map fun t => (fd, t)) = ts.foldr (fun t acc => t ++ acc) "" := by
  induction ts with
  | nil => simp [bytes_of]
  | cons t ts ih => simp [bytes_of, ih]

theorem bytes_of_other (fd d : Int) (h : ¬ d = fd) (ts : List String) :
    bytes_of fd (ts.map fun t => (d, t)) = "" := by
  induction ts with
  | nil => simp [bytes_of]
  | cons t ts ih => simp [bytes_of, ih, h]

/-- A state whose trace is the old trace followed by writes of the texts `ts`
to the old sink descriptor has had their concatenation appended. -/
theorem appended_of_written {s s' : State} (ts : List String)
    (h : s'.written = s.written ++ ts.map fun t => (s.tc_resfile_fd, t)) :
    appended s s' (ts.foldr (fun t acc => t ++ acc) "") := by
  intro fd
  unfold State.sink
  rw [h, bytes_of_append]
  by_cases hfd : fd = s.tc_resfile_fd
  · subst hfd
    simp [bytes_of_same]
  · have hne : ¬ s.tc_resfile_fd = fd := fun e => hfd e.symm
    simp [hfd, bytes_of_other fd s.tc_resfile_fd hne]

theorem appended_nothing {s s' : State} (h : s'.written = s.written) : appended s s' "" := by
  have := @appended_of_written s s' [] (by simp [h])
  simpa using this

theorem write_fd (t : String) (s : State) :
    (_latf_write_result t s).tc_resfile_fd = s.tc_resfile_fd := by
  unfold _latf_write_result; split <;> rfl

theorem write_expected (t : String) (s : State) :
    (_latf_write_result t s).latf_tc_expected = s.latf_tc_expected := by
  unfold _latf_write_result; split <;> rfl

theorem write_reason (t : String) (s : State) :
    (_latf_write_result t s).latf_tc_expected_reason = s.latf_tc_expected_reason := by
  unfold _latf_write_result; split <;> rfl

theorem write_tcs (t : String) (s : State) :
    (_latf_write_result t s).atf_tcs = s.atf_tcs := by
  unfold _latf_write_result; split <;> rfl

theorem write_closed (t : String) (s : State) :
    (_latf_write_result t s).closed = s.closed := by
  unfold _latf_write_result; split <;> rfl

theorem write_written (t : String) (s : State) (h : 0 ≤ s.tc_resfile_fd) :
    (_latf_write_result t s).written = s.written ++ [(s.tc_resfile_fd, t)] := by
  simp [_latf_write_result, h]

/-- Finishing keeps the trace of writes, the expectation and the registry. -/
theorem finish_spec {α : Type} (exitcode : Int) (s : State) :
    ∃ s', (_latf_finish exitcode s : Outcome α) = .bail exitcode none s' ∧
      s'.written = s.written ∧ s'.latf_tc_expected = s.latf_tc_expected ∧
      s'.latf_tc_expected_reason = s.latf_tc_expected_reason ∧
      s'.atf_tcs = s.atf_tcs := by
  unfold _latf_finish _latf_bail
  split
  · exact ⟨_, rfl, rfl, rfl, rfl, rfl⟩
  · exact ⟨_, rfl, rfl, rfl, rfl, rfl⟩

/-- What `_latf_fail` does when nothing is expected. -/
theorem fail_in_pass {α : Type} (m : String) (s : State) (hopen : 0 ≤ s.tc_resfile_fd)
    (h : s.latf_tc_expected = .TCE_PASS) :
    ∃ s', (_latf_fail m s : Outcome α) = .bail 1 none s' ∧
      appended s s' ("failed: " ++ m ++ "\n") ∧ s'.latf_tc_expected = .TCE_PASS ∧
      s'.latf_tc_expected_reason = s.latf_tc_expected_reason ∧ s'.atf_tcs = s.atf_tcs := by
  obtain ⟨s', h1, h2, h3, h4, h5⟩ := @finish_spec α 1
    (_latf_write_result "\n" (_latf_write_result m (_latf_write_result "failed: " s)))
  refine ⟨s', ?_, ?_, ?_, ?_, ?_⟩
  · unfold _latf_fail
    rw [h]
    exact h1
  · have := @appended_of_written s s' ["failed: ", m, "\n"]
      (by simp [h2, write_written, write_fd, hopen])
    simpa [String.append_assoc] using this
  · simpa [write_expected, h] using h3
  · simpa [write_reason] using h4
  · simpa [write_tcs] using h5

/-- What `_latf_fail` does when a failure is expected. -/
theorem fail_in_fail {α : Type} (m r : String) (s : State) (hopen : 0 ≤ s.tc_resfile_fd)
    (h : s.latf_tc_expected = .TCE_FAIL) (hr : s.latf_tc_expected_reason = some r) :
    ∃ s', (_latf_fail m s : Outcome α) = .bail 0 none s' ∧
      appended s s' ("expected_failure: " ++ r ++ ": " ++ m ++ "\n") := by
  obtain ⟨s', h1, h2, -, -, -⟩ := @finish_spec α 0
    (_latf_write_result "\n" (_latf_write_result m
      (_latf_write_result ("expected_failure: " ++ fmt_s s.latf_tc_expected_reason ++ ": ") s)))
  refine ⟨s', ?_, ?_⟩
  · unfold _latf_fail
    rw [h]
    exact h1
  · have := @appended_of_written s s' ["expected_failure: " ++ r ++ ": ", m, "\n"]
      (by simp [h2, write_written, write_fd, hopen, hr, fmt_s])
    simpa [String.append_assoc] using this

/-- C1: `Fail(m)` (`atf.fail`, `_latf_fail`) is decided by the expectation state
alone.  In state Fail with stored reason `r` it appends exactly
`expected_failure: r: m` and a newline to the result sink and leaves with exit
code 0; in state Pass it appends exactly `failed: m` and a newline and leaves
with exit code 1; in each of Death, Exit, Signal and Timeout it writes nothing
(the state is untouched) and leaves with the fatal exit code 128. -/
theorem fail_decided_by_expectation (m r : String) (s : State)
    (hopen : 0 ≤ s.tc_resfile_fd) :
    latf_fail m s = _latf_fail m s ∧
    (s.latf_tc_expected = .TCE_FAIL → s.latf_tc_expected_reason = some r →
      ∃ s', latf_fail m s = .bail 0 none s' ∧
        atf_lua_panic (latf_fail m s) = some 0 ∧
        appended s s' ("expected_failure: " ++ r ++ ": " ++ m ++ "\n")) ∧
    (s.latf_tc_expected = .TCE_PASS →
      ∃ s', latf_fail m s = .bail 1 none s' ∧
        atf_lua_panic (latf_fail m s) = some 1 ∧
        appended s s' ("failed: " ++ m ++ "\n")) ∧
    (s.latf_tc_expected ∈
        [latf_tc_expect.TCE_DEATH, latf_tc_expect.TCE_EXIT, latf_tc_expect.TCE_SIGNAL,
          latf_tc_expect.TCE_TIMEOUT] →
      latf_fail m s = .bail 128 (some "Unreachable") s ∧
        atf_lua_panic (latf_fail m s) = some 128 ∧ appended s s "") := by
  refine ⟨rfl, ?_, ?_, ?_⟩
  · intro h hr
    obtain ⟨s', h1, h2⟩ := @fail_in_fail (List LuaVal) m r s hopen h hr
    exact ⟨s', h1, by simp [latf_fail, h1, atf_lua_panic], h2⟩
  · intro h
    obtain ⟨s', h1, h2, -⟩ := @fail_in_pass (List LuaVal) m s hopen h
    exact ⟨s', h1, by simp [latf_fail, h1, atf_lua_panic], h2⟩
  · intro h
    have hb : latf_fail m s = .bail 128 (some "Unreachable") s := by
      simp only [List.mem_cons, List.mem_singleton, List.not_mem_nil, or_false] at h
      rcases h with h | h | h | h <;> simp [latf_fail, _latf_fail, h, _latf_error, _latf_bail]
    exact ⟨hb, by rw [hb]; rfl, appended_nothing rfl⟩

theorem fail_decided_by_expectation_witness :
    (0 : Int) ≤ (sample_state .TCE_FAIL (some "r") 3).tc_resfile_fd ∧
    ∃ s', latf_fail "x" (sample_state .TCE_FAIL (some "r") 3) = .bail 0 none s' ∧
      atf_lua_panic (latf_fail "x" (sample_state .TCE_FAIL (some "r") 3)) = some 0 ∧
      appended (sample_state .TCE_FAIL (some "r") 3) s'
        ("expected_failure: " ++ "r" ++ ": " ++ "x" ++ "\n") :=
  ⟨by decide,
    (fail_decided_by_expectation "x" "r" (sample_state .TCE_FAIL (some "r") 3)
      (by decide)).2.1 rfl rfl⟩

/-- C2: `Pass()` (`atf.pass`, `_latf_pass`) is decided by the expectation state
alone.  In state Pass it appends exactly `passed` and a newline and leaves with
exit code 0; in state Fail it resets the state to Pass and leaves as a genuine
failure, appending exactly the line `failed: Test case was expecting a failure
but got a pass instead` with exit code 1; in each of Death, Exit, Signal and
Timeout it writes nothing and leaves with the fatal exit code 128. -/
theorem pass_decided_by_expectation (s : State) (hopen : 0 ≤ s.tc_resfile_fd) :
    latf_pass s = _latf_pass s ∧
    (s.latf_tc_expected = .TCE_PASS →
      ∃ s', latf_pass s = .bail 0 none s' ∧
        atf_lua_panic (latf_pass s) = some 0 ∧
        appended s s' "passed\n") ∧
    (s.latf_tc_expected = .TCE_FAIL →
      ∃ s', latf_pass s = .bail 1 none s' ∧
        atf_lua_panic (latf_pass s) = some 1 ∧
        s'.latf_tc_expected = .TCE_PASS ∧
        appended s s'
          "failed: Test case was expecting a failure but got a pass instead\n") ∧
    (s.latf_tc_expected ∈
        [latf_tc_expect.TCE_DEATH, latf_tc_expect.TCE_EXIT, latf_tc_expect.TCE_SIGNAL,
          latf_tc_expect.TCE_TIMEOUT] →
      latf_pass s = .bail 128 (some "Unreachable") s ∧
        atf_lua_panic (latf_pass s) = some 128 ∧ appended s s "") := by
  refine ⟨rfl, ?_, ?_, ?_⟩
  · intro h
    obtain ⟨s', h1, h2, -, -, -⟩ := @finish_spec (List LuaVal) 0
      (_latf_write_result "passed\n" s)
    have hp : latf_pass s = .bail 0 none s' := by
      unfold latf_pass _latf_pass
      rw [h]
      exact h1
    refine ⟨s', hp, by simp [hp, atf_lua_panic], ?_⟩
    have := @appended_of_written s s' ["passed\n"] (by simp [h2, write_written, hopen])
    simpa using this
  · intro h
    obtain ⟨s', h1, h2, h3, -, -⟩ := @fail_in_pass (List LuaVal)
      "Test case was expecting a failure but got a pass instead"
      { s with latf_tc_expected := .TCE_PASS } hopen rfl
    have hp : latf_pass s = .bail 1 none s' := by
      unfold latf_pass _latf_pass
      rw [h]
      exact h1
    exact ⟨s', hp, by simp [hp, atf_lua_panic], h3, h2⟩
  · intro h
    have hb : latf_pass s = .bail 128 (some "Unreachable") s := by
      simp only [List.mem_cons, List.mem_singleton, List.not_mem_nil, or_false] at h
      rcases h with h | h | h | h <;> simp [latf_pass, _latf_pass, h, _latf_error, _latf_bail]
    exact ⟨hb, by rw [hb]; rfl, appended_nothing rfl⟩

theorem pass_decided_by_expectation_witness :
    (0 : Int) ≤ (sample_state .TCE_FAIL (some "r") 1).tc_resfile_fd ∧
    ∃ s', latf_pass (sample_state .TCE_FAIL (some "r") 1) = .bail 1 none s' ∧
      atf_lua_panic (latf_pass (sample_state .TCE_FAIL (some "r") 1)) = some 1 ∧
      s'.latf_tc_expected = .TCE_PASS ∧
      appended (sample_state .TCE_FAIL (some "r") 1) s'
        "failed: Test case was expecting a failure but got a pass instead\n" :=
  ⟨by decide,
    (pass_decided_by_expectation (sample_state .TCE_FAIL (some "r") 1) (by decide)).2.2.1 rfl⟩

/-- C3: for every expectation state and every reason, `Skip(reason)`
(`atf.skip`, `_latf_skip`) appends `skipped: ` followed by the reason to the
result sink and leaves with exit code 0, never with a failure and never on the
fatal path; the expectation state plays no part in it and is left as it was. -/
theorem skip_ignores_expectation (reason : String) (s : State)
    (hopen : 0 ≤ s.tc_resfile_fd) :
    latf_skip reason s = _latf_skip reason s ∧
    ∃ s', latf_skip reason s = .bail 0 none s' ∧
      atf_lua_panic (latf_skip reason s) = some 0 ∧
      appended s s' ("skipped: " ++ reason) ∧
      s'.latf_tc_expected = s.latf_tc_expected := by
  refine ⟨rfl, ?_⟩
  obtain ⟨s', h1, h2, h3, -, -⟩ := @finish_spec (List LuaVal) 0
    (_latf_write_result reason (_latf_write_result "skipped: " s))
  have hp : latf_skip reason s = .bail 0 none s' := h1
  refine ⟨s', hp, by simp [hp, atf_lua_panic], ?_, ?_⟩
  · have := @appended_of_written s s' ["skipped: ", reason]
      (by simp [h2, write_written, write_fd, hopen])
    simpa using this
  · simpa [write_expected] using h3

theorem skip_ignores_expectation_witness :
    (0 : Int) ≤ (sample_state .TCE_EXIT none 1).tc_resfile_fd ∧
    (latf_skip "no dep" (sample_state .TCE_EXIT none 1) =
        _latf_skip "no dep" (sample_state .TCE_EXIT none 1) ∧
      ∃ s', latf_skip "no dep" (sample_state .TCE_EXIT none 1) = .bail 0 none s' ∧
        atf_lua_panic (latf_skip "no dep" (sample_state .TCE_EXIT none 1)) = some 0 ∧
        appended (sample_state .TCE_EXIT none 1) s' ("skipped: " ++ "no dep") ∧
        s'.latf_tc_expected = (sample_state .TCE_EXIT none 1).latf_tc_expected) :=
  ⟨by decide, skip_ignores_expectation "no dep" (sample_state .TCE_EXIT none 1) (by decide)⟩

/-- With nothing expected, validation returns and changes nothing. -/
theorem validate_in_pass (s : State) (h : s.latf_tc_expected = .TCE_PASS) :
    _latf_validate_expect s = .ret () s := by
  simp [_latf_validate_expect, h]

/-- With an expectation pending, validation resets it and fails the test with
the message of the pending expectation. -/
theorem validate_violation (s : State) (hopen : 0 ≤ s.tc_resfile_fd)
    (h : s.latf_tc_expected ≠ .TCE_PASS) :
    ∃ s' msg, _latf_validate_expect s = .bail 1 none s' ∧
      latf_tc_expected_msg s.latf_tc_expected = some msg ∧
      appended s s' ("failed: " ++ msg ++ "\n") ∧ s'.latf_tc_expected = .TCE_PASS ∧
      s'.latf_tc_expected_reason = s.latf_tc_expected_reason ∧ s'.atf_tcs = s.atf_tcs := by
  obtain ⟨msg, hmsg⟩ : ∃ msg, latf_tc_expected_msg s.latf_tc_expected = some msg := by
    cases he : s.latf_tc_expected <;> simp [latf_tc_expected_msg]
    exact h he
  obtain ⟨s', h1, h2, h3, h4, h5⟩ := @fail_in_pass Unit msg
    { s with latf_tc_expected := .TCE_PASS } hopen rfl
  refine ⟨s', msg, ?_, hmsg, h2, h3, h4, h5⟩
  simp [_latf_validate_expect, h, hmsg, fmt_s, h1]

/-- C4: validate-before-declare.  In every state whose expectation is Death,
Exit, Fail, Signal or Timeout, each expectation call (`expect_death`,
`expect_exit`, `expect_fail`, `expect_signal`, `expect_timeout`, `expect_pass`)
leaves with exit code 1 after resetting the expectation to Pass and appending
exactly `failed: ` followed by the violation message of the old state and a
newline: the new expectation is not installed, its reason is not stored and no
declaration line is written.  In particular `expect_exit(r)` followed by
`expect_fail(r2)` fails with the violation message of Exit. -/
theorem validate_before_declare (c : Call) (s : State) (hopen : 0 ≤ s.tc_resfile_fd)
    (hc : c.is_expect = true) (hs : s.latf_tc_expected ≠ .TCE_PASS) :
    (∃ s' msg, run_call c s = .bail 1 none s' ∧
      atf_lua_panic (run_call c s) = some 1 ∧
      latf_tc_expected_msg s.latf_tc_expected = some msg ∧
      appended s s' ("failed: " ++ msg ++ "\n") ∧
      s'.latf_tc_expected = .TCE_PASS ∧
      s'.latf_tc_expected_reason = s.latf_tc_expected_reason) ∧
    (∀ (s0 : State) (r r2 : String), 0 ≤ s0.tc_resfile_fd →
      s0.latf_tc_expected = .TCE_PASS →
      ∃ s1 s', latf_expect_exit r none s0 = .ret [] s1 ∧
        latf_expect_fail r2 s1 = .bail 1 none s' ∧
        appended s1 s'
          "failed: Test case was expected to exit cleanly but it continued execution\n") := by
  constructor
  · obtain ⟨s', msg, h1, h2, h3, h4, h5, -⟩ := validate_violation s hopen hs
    have hrun : run_call c s = .bail 1 none s' := by
      cases c <;> first
        | (simp [Call.is_expect] at hc; done)
        | simp [run_call, latf_expect_death, latf_expect_exit, latf_expect_fail,
            latf_expect_pass, latf_expect_signal, latf_expect_timeout, h1, Outcome.bind]
    exact ⟨s', msg, hrun, by simp [hrun, atf_lua_panic], h2, h3, h4, h5⟩
  · intro s0 r r2 hopen0 hp
    obtain ⟨s1, hs1⟩ : ∃ s1, s1 = _latf_write_result ("expected_exit: " ++ r ++ "\n")
        { s0 with latf_tc_expected := .TCE_EXIT } := ⟨_, rfl⟩
    have hfd : s1.tc_resfile_fd = s0.tc_resfile_fd := by rw [hs1, write_fd]
    have hexp : s1.latf_tc_expected = .TCE_EXIT := by rw [hs1, write_expected]
    obtain ⟨s', msg, h1, h2, h3, -⟩ :=
      validate_violation s1 (by rw [hfd]; exact hopen0) (by rw [hexp]; simp)
    refine ⟨s1, s', ?_, ?_, ?_⟩
    · simp [latf_expect_exit, validate_in_pass s0 hp, Outcome.bind, hs1]
    · simp [latf_expect_fail, h1, Outcome.bind]
    · rw [hexp] at h2
      simp only [latf_tc_expected_msg, Option.some.injEq] at h2
      subst h2
      simpa [String.append_assoc] using h3

theorem validate_before_declare_witness :
    ((0 : Int) ≤ (sample_state .TCE_EXIT none 1).tc_resfile_fd ∧
      (Call.expect_fail "r2").is_expect = true ∧
      (sample_state .TCE_EXIT none 1).latf_tc_expected ≠ .TCE_PASS) ∧
    ∃ s' msg, run_call (.expect_fail "r2") (sample_state .TCE_EXIT none 1) = .bail 1 none s' ∧
      atf_lua_panic (run_call (.expect_fail "r2") (sample_state .TCE_EXIT none 1)) = some 1 ∧
      latf_tc_expected_msg (sample_state .TCE_EXIT none 1).latf_tc_expected = some msg ∧
      appended (sample_state .TCE_EXIT none 1) s' ("failed: " ++ msg ++ "\n") ∧
      s'.latf_tc_expected = .TCE_PASS ∧
      s'.latf_tc_expected_reason = (sample_state .TCE_EXIT none 1).latf_tc_expected_reason :=
  ⟨⟨by decide, by decide, by decide⟩,
    (validate_before_declare (.expect_fail "r2") (sample_state .TCE_EXIT none 1)
      (by decide) (by decide) (by decide)).1⟩

/-- Installing expectation `e` and writing its declaration line. -/
theorem declare_spec (e : latf_tc_expect) (line : String) (s : State)
    (hopen : 0 ≤ s.tc_resfile_fd) :
    (_latf_write_result line { s with latf_tc_expected := e }).latf_tc_expected = e ∧
      (_latf_write_result line { s with latf_tc_expected := e }).latf_tc_expected_reason =
        s.latf_tc_expected_reason ∧
      appended s (_latf_write_result line { s with latf_tc_expected := e }) line ∧
      same_but_expectation_and_sink s
        (_latf_write_result line { s with latf_tc_expected := e }) := by
  refine ⟨by rw [write_expected], by rw [write_reason], ?_, ?_⟩
  · have := @appended_of_written s (_latf_write_result line { s with latf_tc_expected := e })
      [line] (by simp [write_written, hopen])
    simpa using this
  · simp [same_but_expectation_and_sink, _latf_write_result, hopen]

/-- The assignment to a C `int` keeps a number that an `int` holds. -/
theorem lua_Number_to_int_fits (n : Int) (h : -2147483648 ≤ n ∧ n ≤ 2147483647) :
    lua_Number_to_int n = some n := by
  unfold lua_Number_to_int
  rw [if_pos h]

/-- C5: declaring an expectation from state Pass returns normally.
`expect_death(r)` sets Death and appends `expected_death: r`; `expect_timeout(r)`
sets Timeout and appends `expected_timeout: r`; `expect_exit(r)` sets Exit and
appends `expected_exit: r`, with an integer code `c` that a C `int` holds it
appends `expected_exit(c): r` with `c` in decimal; `expect_signal(r)` sets
Signal and appends `expected_signal: r`, with an integer `n` that a C `int`
holds it appends `expected_signal(n): r` (each line ends with a newline);
`expect_fail(r)` sets Fail, stores `r` as the reason that a later
`expected_failure` line shows, and appends nothing.  Nothing else of the state
changes. -/
theorem declare_from_pass (r : String) (c n : Int) (s : State)
    (hopen : 0 ≤ s.tc_resfile_fd) (hs : s.latf_tc_expected = .TCE_PASS)
    (hc : -2147483648 ≤ c ∧ c ≤ 2147483647) (hn : -2147483648 ≤ n ∧ n ≤ 2147483647) :
    (∃ s', latf_expect_death r s = .ret [] s' ∧ s'.latf_tc_expected = .TCE_DEATH ∧
      s'.latf_tc_expected_reason = s.latf_tc_expected_reason ∧
      appended s s' ("expected_death: " ++ r ++ "\n") ∧
      same_but_expectation_and_sink s s') ∧
    (∃ s', latf_expect_timeout r s = .ret [] s' ∧ s'.latf_tc_expected = .TCE_TIMEOUT ∧
      s'.latf_tc_expected_reason = s.latf_tc_expected_reason ∧
      appended s s' ("expected_timeout: " ++ r ++ "\n") ∧
      same_but_expectation_and_sink s s') ∧
    (∃ s', latf_expect_exit r none s = .ret [] s' ∧ s'.latf_tc_expected = .TCE_EXIT ∧
      s'.latf_tc_expected_reason = s.latf_tc_expected_reason ∧
      appended s s' ("expected_exit: " ++ r ++ "\n") ∧
      same_but_expectation_and_sink s s') ∧
    (∃ s', latf_expect_exit r (some c) s = .ret [] s' ∧ s'.latf_tc_expected = .TCE_EXIT ∧
      s'.latf_tc_expected_reason = s.latf_tc_expected_reason ∧
      appended s s' ("expected_exit(" ++ toString c ++ "): " ++ r ++ "\n") ∧
      same_but_expectation_and_sink s s') ∧
    (∃ s', latf_expect_signal r none s = .ret [] s' ∧ s'.latf_tc_expected = .TCE_SIGNAL ∧
      s'.latf_tc_expected_reason = s.latf_tc_expected_reason ∧
      appended s s' ("expected_signal: " ++ r ++ "\n") ∧
      same_but_expectation_and_sink s s') ∧
    (∃ s', latf_expect_signal r (some n) s = .ret [] s' ∧ s'.latf_tc_expected = .TCE_SIGNAL ∧
      s'.latf_tc_expected_reason = s.latf_tc_expected_reason ∧
      appended s s' ("expected_signal(" ++ toString n ++ "): " ++ r ++ "\n") ∧
      same_but_expectation_and_sink s s') ∧
    (∃ s', latf_expect_fail r s = .ret [] s' ∧ s'.latf_tc_expected = .TCE_FAIL ∧
      s'.latf_tc_expected_reason = some r ∧
      appended s s' "" ∧
      same_but_expectation_and_sink s s' ∧
      ∀ m : String, ∃ s'', latf_fail m s' = .bail 0 none s'' ∧
        appended s' s'' ("expected_failure: " ++ r ++ ": " ++ m ++ "\n")) := by
  have hv := validate_in_pass s hs
  refine ⟨?_, ?_, ?_, ?_, ?_, ?_, ?_⟩
  · obtain ⟨h1, h2, h3, h4⟩ := declare_spec .TCE_DEATH ("expected_death: " ++ r ++ "\n") s hopen
    exact ⟨_, by simp [latf_expect_death, hv, Outcome.bind], h1, h2, h3, h4⟩
  · obtain ⟨h1, h2, h3, h4⟩ :=
      declare_spec .TCE_TIMEOUT ("expected_timeout: " ++ r ++ "\n") s hopen
    exact ⟨_, by simp [latf_expect_timeout, hv, Outcome.bind], h1, h2, h3, h4⟩
  · obtain ⟨h1, h2, h3, h4⟩ := declare_spec .TCE_EXIT ("expected_exit: " ++ r ++ "\n") s hopen
    exact ⟨_, by simp [latf_expect_exit, hv, Outcome.bind], h1, h2, h3, h4⟩
  · obtain ⟨h1, h2, h3, h4⟩ :=
      declare_spec .TCE_EXIT ("expected_exit(" ++ toString c ++ "): " ++ r ++ "\n") s hopen
    exact ⟨_, by simp [latf_expect_exit, hv, Outcome.bind, lua_Number_to_int_fits c hc],
      h1, h2, h3, h4⟩
  · obtain ⟨h1, h2, h3, h4⟩ :=
      declare_spec .TCE_SIGNAL ("expected_signal: " ++ r ++ "\n") s hopen
    exact ⟨_, by simp [latf_expect_signal, hv, Outcome.bind], h1, h2, h3, h4⟩
  · obtain ⟨h1, h2, h3, h4⟩ :=
      declare_spec .TCE_SIGNAL ("expected_signal(" ++ toString n ++ "): " ++ r ++ "\n") s hopen
    exact ⟨_, by simp [latf_expect_signal, hv, Outcome.bind, lua_Number_to_int_fits n hn],
      h1, h2, h3, h4⟩
  · refine ⟨{ s with latf_tc_expected := .TCE_FAIL, latf_tc_expected_reason := some r },
      by simp [latf_expect_fail, hv, Outcome.bind], rfl, rfl, appended_nothing rfl,
      by simp [same_but_expectation_and_sink], ?_⟩
    intro m
    exact @fail_in_fail (List LuaVal) m r
      { s with latf_tc_expected := .TCE_FAIL, latf_tc_expected_reason := some r }
      hopen rfl rfl

theorem declare_from_pass_witness :
    ((0 : Int) ≤ (sample_state .TCE_PASS none 1).tc_resfile_fd ∧
      (sample_state .TCE_PASS none 1).latf_tc_expected = .TCE_PASS ∧
      ((-2147483648 : Int) ≤ 42 ∧ (42 : Int) ≤ 2147483647) ∧
      ((-2147483648 : Int) ≤ 9 ∧ (9 : Int) ≤ 2147483647)) ∧
    ∃ s', latf_expect_exit "r" (some 42) (sample_state .TCE_PASS none 1) = .ret [] s' ∧
      s'.latf_tc_expected = .TCE_EXIT ∧
      s'.latf_tc_expected_reason = (sample_state .TCE_PASS none 1).latf_tc_expected_reason ∧
      appended (sample_state .TCE_PASS none 1) s'
        ("expected_exit(" ++ toString (42 : Int) ++ "): " ++ "r" ++ "\n") ∧
      same_but_expectation_and_sink (sample_state .TCE_PASS none 1) s' :=
  ⟨⟨by decide, by decide, by decide, by decide⟩,
    (declare_from_pass "r" 42 9 (sample_state .TCE_PASS none 1)
      (by decide) (by decide) (by decide) (by decide)).2.2.2.1⟩

/-! ## Lemmas on the registry -/

theorem latf_tc_get_none_iff (name : String) (tcs : List TestCase) :
    latf_tc_get name tcs = none ↔ ∀ tc ∈ tcs, tc._atf_ident ≠ name := by
  induction tcs with
  | nil => simp [latf_tc_get]
  | cons tc rest ih =>
      by_cases h : tc._atf_ident = name
      · simp [latf_tc_get, latf_tc_get_cb, h]
      · simp [latf_tc_get, latf_tc_get_cb, h, ih]

theorem latf_tc_get_some (name : String) (tcs : List TestCase) (i : Nat) (tc : TestCase)
    (h : latf_tc_get name tcs = some (i, tc)) :
    tcs[i]? = some tc ∧ tc._atf_ident = name ∧
      ∀ j, j < i → ∀ tc', tcs[j]? = some tc' → tc'._atf_ident ≠ name := by
  induction tcs generalizing i with
  | nil => simp [latf_tc_get] at h
  | cons hd rest ih =>
      by_cases hc : hd._atf_ident = name
      · simp [latf_tc_get, latf_tc_get_cb, hc] at h
        obtain ⟨h1, h2⟩ := h
        subst h1 h2
        simp [hc]
      · simp only [latf_tc_get, latf_tc_get_cb, hc, decide_False, Bool.false_eq_true,
          ↓reduceIte, Option.map_eq_some'] at h
        obtain ⟨p, hp, hpe⟩ := h
        obtain ⟨pi, ptc⟩ := p
        simp only [Prod.mk.injEq] at hpe
        obtain ⟨h1, h2⟩ := hpe
        subst h1 h2
        obtain ⟨g1, g2, g3⟩ := ih pi hp
        refine ⟨by simpa using g1, g2, ?_⟩
        intro j hj tc' hget
        cases j with
        | zero =>
            simp at hget
            subst hget
            exact hc
        | succ j =>
            simp at hget
            exact g3 j (by omega) tc' hget

theorem gettable_head (tc : TestCase) : tc.gettable "head" = tc.head := by
  simp [TestCase.gettable]

theorem gettable_body (tc : TestCase) : tc.gettable "body" = tc.body := by
  simp [TestCase.gettable]

theorem gettable_cleanup (tc : TestCase) : tc.gettable "cleanup" = tc.cleanup := by
  simp [TestCase.gettable]

theorem setfield_head (tc : TestCase) (v : LuaField) :
    tc.setfield "head" v = { tc with head := v } := by
  simp [TestCase.setfield]

theorem setfield_body (tc : TestCase) (v : LuaField) :
    tc.setfield "body" v = { tc with body := v } := by
  simp [TestCase.setfield]

theorem setfield_cleanup (tc : TestCase) (v : LuaField) :
    tc.setfield "cleanup" v = { tc with cleanup := v } := by
  simp [TestCase.setfield]

/-- The inheritance loop, field by field. -/
theorem inherit_fields_eq (p t : TestCase) :
    inherit_fields p t =
      { t with
        head := if t.head = .nil then p.head else t.head
        body := if t.body = .nil then p.body else t.body
        cleanup := if t.cleanup = .nil then p.cleanup else t.cleanup } := by
  simp only [inherit_fields, latf_tc_inherited, List.foldl]
  by_cases h1 : t.head = .nil <;> by_cases h2 : t.body = .nil <;>
    by_cases h3 : t.cleanup = .nil <;>
    simp [gettable_head, gettable_body, gettable_cleanup, setfield_head, setfield_body,
      setfield_cleanup, h1, h2, h3]

theorem new_table_ident (ident : String) (inherit : Option TestCase) (t : TestCase) :
    (latf_tc_new_table ident inherit t).1._atf_ident = ident := by
  unfold latf_tc_new_table
  cases inherit <;> simp only [inherit_fields_eq] <;> split <;> rfl

theorem new_table_doreg (ident : String) (inherit : Option TestCase) (t : TestCase) :
    (latf_tc_new_table ident inherit t).2 =
      (if t.atf_auto = .nil then true else lua_toboolean t.atf_auto) := by
  unfold latf_tc_new_table
  cases inherit <;> simp only [inherit_fields_eq] <;> split <;> simp_all

/-! ## Execution of an ident that is not registered -/

/-- C7: for every registry and every ident that no registered definition
carries, `execute(ident, method)` returns the NotFound error `ENOENT` for every
method and leaves the whole state as it was: no head, body or cleanup has run,
nothing has been appended to the result sink, and the registry, the expectation
state and the execution context are unchanged. -/
theorem execute_unregistered (ident method : String) (s : State)
    (h : ∀ tc ∈ s.atf_tcs, tc._atf_ident ≠ ident) :
    latf_tc_execute ident method s = .ret ENOENT s ∧
    latf_execute ident method s = .ret ENOENT s ∧
    appended s s "" := by
  have hget : latf_tc_get ident s.atf_tcs = none := (latf_tc_get_none_iff ident s.atf_tcs).2 h
  have h1 : latf_tc_execute ident method s = .ret ENOENT s := by
    simp [latf_tc_execute, hget]
  refine ⟨h1, ?_, appended_nothing rfl⟩
  simp [latf_execute, h1, Outcome.bind, ENOENT]

theorem execute_unregistered_witness :
    (∀ tc ∈ (sample_state .TCE_PASS none 1).atf_tcs, tc._atf_ident ≠ "case") ∧
    (latf_tc_execute "case" "body" (sample_state .TCE_PASS none 1) =
        .ret ENOENT (sample_state .TCE_PASS none 1) ∧
      latf_execute "case" "body" (sample_state .TCE_PASS none 1) =
        .ret ENOENT (sample_state .TCE_PASS none 1) ∧
      appended (sample_state .TCE_PASS none 1) (sample_state .TCE_PASS none 1) "") :=
  ⟨by decide,
    execute_unregistered "case" "body" (sample_state .TCE_PASS none 1) (by decide)⟩

/-! ## The procedures that do not return -/

theorem finish_is_bail {α : Type} (exitcode : Int) (s : State) :
    ∃ e msg s', (_latf_finish exitcode s : Outcome α) = .bail e msg s' := by
  obtain ⟨s', h, -⟩ := @finish_spec α exitcode s
  exact ⟨_, _, s', h⟩

theorem fail_is_bail {α : Type} (m : String) (s : State) :
    ∃ e msg s', (_latf_fail m s : Outcome α) = .bail e msg s' := by
  unfold _latf_fail
  split
  · exact finish_is_bail _ _
  · exact finish_is_bail _ _
  · exact ⟨_, _, _, rfl⟩

theorem pass_is_bail {α : Type} (s : State) :
    ∃ e msg s', (_latf_pass s : Outcome α) = .bail e msg s' := by
  unfold _latf_pass
  split
  · exact fail_is_bail _ _
  · exact finish_is_bail _ _
  · exact ⟨_, _, _, rfl⟩

theorem skip_is_bail {α : Type} (m : String) (s : State) :
    ∃ e msg s', (_latf_skip m s : Outcome α) = .bail e msg s' :=
  finish_is_bail _ _

theorem fail_not_ret {α : Type} (m : String) (s s' : State) (v : α)
    (h : (_latf_fail m s : Outcome α) = .ret v s') : False := by
  obtain ⟨e, msg, s'', hb⟩ := @fail_is_bail α m s
  rw [hb] at h
  cases h

theorem skip_not_ret {α : Type} (m : String) (s s' : State) (v : α)
    (h : (_latf_skip m s : Outcome α) = .ret v s') : False := by
  obtain ⟨e, msg, s'', hb⟩ := @skip_is_bail α m s
  rw [hb] at h
  cases h

theorem pass_not_ret {α : Type} (s s' : State) (v : α)
    (h : (_latf_pass s : Outcome α) = .ret v s') : False := by
  obtain ⟨e, msg, s'', hb⟩ := @pass_is_bail α s
  rw [hb] at h
  cases h

/-- Validation returns only when nothing is expected, and then changes nothing. -/
theorem validate_ret (s s' : State) (u : Unit) (h : _latf_validate_expect s = .ret u s') :
    s' = s ∧ s.latf_tc_expected = .TCE_PASS := by
  unfold _latf_validate_expect at h
  split at h
  · rename_i hp
    simp only [Outcome.ret.injEq] at h
    exact ⟨h.2.symm, hp⟩
  · obtain ⟨e, msg, s'', hb⟩ := @fail_is_bail Unit
      (fmt_s (latf_tc_expected_msg s.latf_tc_expected))
      { s with latf_tc_expected := .TCE_PASS }
    rw [hb] at h
    cases h

/-- A declaration that returns has kept the descriptor of the result sink. -/
theorem declare_ret_fd {f : Unit → State → Outcome (List LuaVal)} (s s' : State)
    (v : List LuaVal) (h : (_latf_validate_expect s).bind f = .ret v s')
    (hf : ∀ v' s'', f () s = .ret v' s'' → s''.tc_resfile_fd = s.tc_resfile_fd) :
    s'.tc_resfile_fd = s.tc_resfile_fd := by
  cases hv : _latf_validate_expect s with
  | ret u s1 =>
      obtain ⟨h1, -⟩ := validate_ret s s1 u hv
      subst h1
      rw [hv] at h
      exact hf v s' h
  | bail e m s1 => rw [hv] at h; cases h
  | lua_error m s1 => rw [hv] at h; cases h
  | undefined => rw [hv] at h; cases h

/-- A native call that returns has kept the descriptor of the result sink. -/
theorem run_call_ret_fd (c : Call) (s s' : State) (v : List LuaVal)
    (h : run_call c s = .ret v s') : s'.tc_resfile_fd = s.tc_resfile_fd := by
  cases c with
  | get key =>
      simp only [run_call, latf_get, _latf_error, _latf_bail] at h
      split at h
      · split at h <;> cases h
      · split at h
        · cases h
        · cases h; rfl
  | set args =>
      simp only [run_call, latf_set, _latf_error, _latf_bail, luaL_error] at h
      repeat' split at h
      all_goals (cases h <;> rfl)
  | check_equal args src line =>
      simp only [run_call, latf_check_equal, _latf_error, _latf_bail] at h
      split at h
      · split at h
        · exact (fail_not_ret _ _ _ _ h).elim
        · cases h; rfl
      · cases h
  | config_get key rest =>
      simp only [run_call, latf_config_get, _latf_error, _latf_bail] at h
      repeat' split at h
      all_goals (cases h <;> rfl)
  | config_has key =>
      simp only [run_call, latf_config_has] at h
      cases h; rfl
  | get_srcdir =>
      simp only [run_call, latf_get_srcdir, latf_config_get, _latf_error, _latf_bail] at h
      repeat' split at h
      all_goals (cases h <;> rfl)
  | expect_death reason =>
      refine declare_ret_fd s s' v h ?_
      intro v' s'' h'
      cases h'
      rw [write_fd]
  | expect_exit reason exitcode =>
      refine declare_ret_fd s s' v h ?_
      intro v' s'' h'
      cases exitcode with
      | none => cases h'; rw [write_fd]
      | some n =>
          cases hc : lua_Number_to_int n with
          | none => simp only [hc] at h'; cases h'
          | some c => simp only [hc] at h'; cases h'; rw [write_fd]
  | expect_fail reason =>
      refine declare_ret_fd s s' v h ?_
      intro v' s'' h'
      cases h'
      rfl
  | expect_pass =>
      refine declare_ret_fd s s' v h ?_
      intro v' s'' h'
      cases h'
      rfl
  | expect_signal reason signo =>
      refine declare_ret_fd s s' v h ?_
      intro v' s'' h'
      cases signo with
      | none => cases h'; rw [write_fd]
      | some n =>
          cases hc : lua_Number_to_int n with
          | none => simp only [hc] at h'; cases h'
          | some c => simp only [hc] at h'; cases h'; rw [write_fd]
  | expect_timeout reason =>
      refine declare_ret_fd s s' v h ?_
      intro v' s'' h'
      cases h'
      rw [write_fd]
  | fail reason =>
      obtain ⟨e, msg, s'', hb⟩ := @fail_is_bail (List LuaVal) reason s
      simp only [run_call, latf_fail, hb] at h
      cases h
  | pass =>
      obtain ⟨e, msg, s'', hb⟩ := @pass_is_bail (List LuaVal) s
      simp only [run_call, latf_pass, hb] at h
      cases h
  | skip reason =>
      obtain ⟨e, msg, s'', hb⟩ := @skip_is_bail (List LuaVal) reason s
      simp only [run_call, latf_skip, hb] at h
      cases h
  | require_prog prog =>
      simp only [run_call, latf_require_prog] at h
      split at h
      · obtain ⟨e, msg, s'', hb⟩ := @fail_is_bail (List LuaVal)
          ("atf_require_prog does not accept relative path name `" ++ prog ++ "'") s
        rw [hb] at h
        cases h
      · split at h
        · split at h
          · obtain ⟨e, msg, s'', hb⟩ := @skip_is_bail (List LuaVal)
              ("The required program " ++ prog ++ " could not be found") s
            rw [hb] at h
            cases h
          · cases h; rfl
        · split at h
          · obtain ⟨e, msg, s'', hb⟩ := @skip_is_bail (List LuaVal)
              ("The required program " ++ prog ++ " could not be found in PATH") s
            rw [hb] at h
            cases h
          · cases h; rfl

theorem run_calls_ret_fd (cs : List Call) (s s' : State) (u : Unit)
    (h : run_calls cs s = .ret u s') : s'.tc_resfile_fd = s.tc_resfile_fd := by
  induction cs generalizing s with
  | nil =>
      simp only [run_calls, Outcome.ret.injEq] at h
      rw [h.2]
  | cons c rest ih =>
      simp only [run_calls] at h
      cases hc : run_call c s with
      | ret v s1 =>
          rw [hc] at h
          simp only [Outcome.bind] at h
          rw [ih s1 h, run_call_ret_fd c s s1 v hc]
      | bail e m s1 => rw [hc] at h; cases h
      | lua_error m s1 => rw [hc] at h; cases h
      | undefined => rw [hc] at h; cases h

theorem lua_call_ret_fd (f : LuaField) (s s' : State) (u : Unit)
    (h : lua_call f s = .ret u s') : s'.tc_resfile_fd = s.tc_resfile_fd := by
  unfold lua_call at h
  split at h
  · simp only [latf_tc_stub_head, Outcome.ret.injEq] at h
    rw [h.2]
  · unfold latf_tc_stub_body at h
    obtain ⟨e, msg, s'', hb⟩ := @fail_is_bail Unit "Test case not implemented" s
    rw [hb] at h
    cases h
  · exact run_calls_ret_fd _ s s' u h
  · cases h
  · cases h

/-- A method that returns has kept the descriptor of the result sink. -/
theorem latf_tc_method_ret_fd (tc : TestCase) (tc_ident method : String) (s s' : State)
    (u : Unit) (h : latf_tc_method tc tc_ident method s = .ret u s') :
    s'.tc_resfile_fd = s.tc_resfile_fd := by
  unfold latf_tc_method at h
  simp only at h
  split at h
  · split at h
    · cases h; rfl
    · unfold latf_tc_stub_body at h
      obtain ⟨e, msg, s'', hb⟩ := @fail_is_bail Unit "Test case not implemented"
        { s with tc_executing := none, tc_method_executing := none }
      rw [hb] at h
      cases h
  · cases hc : lua_call (tc.gettable method)
        { s with tc_executing := some tc_ident, tc_method_executing := some method } with
    | ret v s1 =>
        rw [hc] at h
        simp only [Outcome.bind, Outcome.ret.injEq] at h
        have := lua_call_ret_fd _ _ s1 v hc
        rw [← h.2]
        exact this
    | bail e m s1 => rw [hc] at h; cases h
    | lua_error m s1 => rw [hc] at h; cases h
    | undefined => rw [hc] at h; cases h

/-! ## Execution of a registered test case -/

/-- C6: for a registered ident, when head returns normally and the requested
method returns normally, `execute` finishes through `validate()`.  If the
expectation state is then Pass, it appends exactly `passed` and a newline and
returns success (0).  If the state is Death, Exit, Fail, Signal or Timeout, it
resets the state to Pass and leaves with exit code 1 after appending exactly
`failed: `, the violation message of that state and a newline; `passed` is not
written.  A requested cleanup that the definition does not have returns
normally and runs nothing. -/
theorem execute_finishes_through_validate (test method : String) (s s1 s2 : State)
    (i : Nat) (tc : TestCase)
    (hopen : 0 ≤ s.tc_resfile_fd)
    (hreg : latf_tc_get test s.atf_tcs = some (i, tc))
    (hhead : latf_tc_method tc test "head" s = .ret () s1)
    (hmeth : latf_tc_method tc test method s1 = .ret () s2) :
    (s2.latf_tc_expected = .TCE_PASS →
      ∃ s', latf_execute test method s = .ret 0 s' ∧
        appended s2 s' "passed\n" ∧ s'.latf_tc_expected = .TCE_PASS) ∧
    (s2.latf_tc_expected ≠ .TCE_PASS →
      ∃ s' msg, latf_execute test method s = .bail 1 none s' ∧
        atf_lua_panic (latf_execute test method s) = some 1 ∧
        latf_tc_expected_msg s2.latf_tc_expected = some msg ∧
        appended s2 s' ("failed: " ++ msg ++ "\n") ∧
        s'.latf_tc_expected = .TCE_PASS) ∧
    (tc.cleanup = .nil → ∀ st : State,
      latf_tc_method tc test "cleanup" st =
        .ret () { st with tc_executing := none, tc_method_executing := none }) := by
  have hfd : 0 ≤ s2.tc_resfile_fd := by
    rw [latf_tc_method_ret_fd tc test method s1 s2 () hmeth,
      latf_tc_method_ret_fd tc test "head" s s1 () hhead]
    exact hopen
  have hexec : latf_tc_execute test method s = .ret 0 s2 := by
    simp [latf_tc_execute, hreg, hhead, hmeth, Outcome.bind]
  refine ⟨?_, ?_, ?_⟩
  · intro hp
    refine ⟨_latf_write_result "passed\n" s2, ?_, ?_, ?_⟩
    · simp [latf_execute, hexec, Outcome.bind, validate_in_pass s2 hp]
    · have := @appended_of_written s2 (_latf_write_result "passed\n" s2) ["passed\n"]
        (by simp [write_written, hfd])
      simpa using this
    · rw [write_expected, hp]
  · intro hnp
    obtain ⟨s', msg, h1, h2, h3, h4, -⟩ := validate_violation s2 hfd hnp
    have hrun : latf_execute test method s = .bail 1 none s' := by
      simp [latf_execute, hexec, Outcome.bind, h1]
    exact ⟨s', msg, hrun, by simp [hrun, atf_lua_panic], h2, h3, h4⟩
  · intro hc st
    simp [latf_tc_method, gettable_cleanup, hc]

theorem execute_finishes_through_validate_witness :
    ((0 : Int) ≤ sample_registered.tc_resfile_fd ∧
      latf_tc_get "case" sample_registered.atf_tcs = some (0, sample_built) ∧
      latf_tc_method sample_built "case" "head" sample_registered =
        .ret () sample_after_head ∧
      latf_tc_method sample_built "case" "body" sample_after_head =
        .ret () sample_after_body ∧
      sample_after_body.latf_tc_expected ≠ .TCE_PASS) ∧
    ∃ s' msg, latf_execute "case" "body" sample_registered = .bail 1 none s' ∧
      atf_lua_panic (latf_execute "case" "body" sample_registered) = some 1 ∧
      latf_tc_expected_msg sample_after_body.latf_tc_expected = some msg ∧
      appended sample_after_body s' ("failed: " ++ msg ++ "\n") ∧
      s'.latf_tc_expected = .TCE_PASS :=
  ⟨⟨by decide, by decide, by decide, by decide, by decide⟩,
    (execute_finishes_through_validate "case" "body" sample_registered sample_after_head
      sample_after_body 0 sample_built (by decide) (by decide) (by decide)
      (by decide)).2.1 (by decide)⟩

/-! ## Field resolution and vars at build time -/

/-- The table that a build with a parent produces, field by field. -/
theorem new_table_eq (ident : String) (p t : TestCase) :
    (latf_tc_new_table ident (some p) t).1 =
      { addr := t.addr
        _atf_ident := ident
        head := if t.head = .nil then p.head else t.head
        body := if t.body = .nil then p.body else t.body
        cleanup := if t.cleanup = .nil then p.cleanup else t.cleanup
        atf_auto := if t.atf_auto = .nil then .boolean true else t.atf_auto
        _atf_vars :=
          if lua_isfunction (if t.cleanup = .nil then p.cleanup else t.cleanup) then
            [(LuaVal.string "has.cleanup", LuaVal.string "true")]
          else [] } := by
  unfold latf_tc_new_table
  simp only [inherit_fields_eq]
  by_cases h : t.atf_auto = .nil <;> simp [h]

/-- The table that a build without a parent produces. -/
theorem new_table_eq_none (ident : String) (t : TestCase) :
    (latf_tc_new_table ident none t).1 =
      { addr := t.addr
        _atf_ident := ident
        head := t.head
        body := t.body
        cleanup := t.cleanup
        atf_auto := if t.atf_auto = .nil then .boolean true else t.atf_auto
        _atf_vars :=
          if lua_isfunction t.cleanup then [(LuaVal.string "has.cleanup", LuaVal.string "true")]
          else [] } := by
  unfold latf_tc_new_table
  by_cases h : t.atf_auto = .nil <;> simp [h]

/-- Whenever `latf_tc_new` returns, it returns the table of `latf_tc_new_table`. -/
theorem latf_tc_new_ret (ident : String) (inherit : Option TestCase) (t : TestCase)
    (s s' : State) (d : TestCase) (h : latf_tc_new ident inherit t s = .ret d s') :
    d = (latf_tc_new_table ident inherit t).1 ∧
      (s' = { s with atf_tcs := store_table d s.atf_tcs } ∨
        s' = { s with atf_tcs := store_table d s.atf_tcs ++ [d] }) := by
  unfold latf_tc_new at h
  simp only at h
  split at h
  · split at h
    · cases h
    · cases h
      exact ⟨rfl, Or.inr rfl⟩
  · cases h
    exact ⟨rfl, Or.inl rfl⟩

/-- C11: field resolution at build time.  For every parent, every definition
table and each of `head`, `body`, `cleanup`, the built definition has the
author-supplied value when the table provides one (a value that is not nil) and
the value of the parent otherwise, absent when the parent has none.  A child that
provides `body` keeps its own body, a child that omits `body` gets the body of
the parent.  The table that `latf_tc_new` returns, and registers, is this one
(the function writes it in place, so an entry of the registry that is the
same table shows it too). -/
theorem field_resolution (ident : String) (p t : TestCase) (s : State) :
    (latf_tc_new_table ident (some p) t).1.head = (if t.head = .nil then p.head else t.head) ∧
    (latf_tc_new_table ident (some p) t).1.body = (if t.body = .nil then p.body else t.body) ∧
    (latf_tc_new_table ident (some p) t).1.cleanup =
      (if t.cleanup = .nil then p.cleanup else t.cleanup) ∧
    (t.body ≠ .nil → (latf_tc_new_table ident (some p) t).1.body = t.body) ∧
    (t.body = .nil → (latf_tc_new_table ident (some p) t).1.body = p.body) ∧
    (∀ (d : TestCase) (s' : State), latf_tc_new ident (some p) t s = .ret d s' →
      d = (latf_tc_new_table ident (some p) t).1 ∧
        (s' = { s with atf_tcs := store_table d s.atf_tcs } ∨
          s' = { s with atf_tcs := store_table d s.atf_tcs ++ [d] })) := by
  rw [new_table_eq]
  refine ⟨rfl, rfl, rfl, ?_, ?_, ?_⟩
  · intro h
    simp [h]
  · intro h
    simp [h]
  · intro d s' h
    have := latf_tc_new_ret ident (some p) t s s' d h
    rw [new_table_eq] at this
    exact this

theorem field_resolution_witness :
    (latf_tc_new_table "case" (some latf_tc_obj) sample_case).1.body = sample_case.body ∧
    (latf_tc_new_table "child" (some sample_built)
      { sample_case with body := .nil }).1.body = sample_built.body :=
  ⟨(field_resolution "case" latf_tc_obj sample_case sample_registered).2.2.2.1 (by decide),
    (field_resolution "child" sample_built { sample_case with body := .nil }
      sample_registered).2.2.2.2.1 rfl⟩

/-- C12: the vars of a freshly built definition are a new map made from the
resolved `cleanup` alone (the definition's own one or the one inherited from
the parent): exactly the single entry `has.cleanup` = `true` when that cleanup
is a function, and empty when it is absent (a value that is neither gives no
entry either).  Nothing comes from the vars of the parent or from a `_atf_vars`
that the definition table carried: with other vars in their place the built
vars are the same. -/
theorem fresh_vars (ident : String) (p t : TestCase) (pv tv : List (LuaVal × LuaVal)) :
    (latf_tc_new_table ident (some p) t).1.cleanup =
      (if t.cleanup = .nil then p.cleanup else t.cleanup) ∧
    (∀ f : LuaFn, (latf_tc_new_table ident (some p) t).1.cleanup = .fn f →
      (latf_tc_new_table ident (some p) t).1._atf_vars =
        [(LuaVal.string "has.cleanup", LuaVal.string "true")]) ∧
    ((latf_tc_new_table ident (some p) t).1.cleanup = .nil →
      (latf_tc_new_table ident (some p) t).1._atf_vars = []) ∧
    ((latf_tc_new_table ident (some p) t).1.cleanup = .other →
      (latf_tc_new_table ident (some p) t).1._atf_vars = []) ∧
    (latf_tc_new_table ident (some { p with _atf_vars := pv })
        { t with _atf_vars := tv }).1._atf_vars =
      (latf_tc_new_table ident (some p) t).1._atf_vars ∧
    (∀ f : LuaFn, t.cleanup = .fn f →
      (latf_tc_new_table ident none t).1._atf_vars =
        [(LuaVal.string "has.cleanup", LuaVal.string "true")]) ∧
    (t.cleanup = .nil → (latf_tc_new_table ident none t).1._atf_vars = []) := by
  rw [new_table_eq, new_table_eq, new_table_eq_none]
  refine ⟨rfl, ?_, ?_, ?_, rfl, ?_, ?_⟩
  · intro f h
    simp only at h
    simp [h, lua_isfunction]
  · intro h
    simp only at h
    simp [h, lua_isfunction]
  · intro h
    simp only at h
    simp [h, lua_isfunction]
  · intro f h
    simp [h, lua_isfunction]
  · intro h
    simp [h, lua_isfunction]

theorem fresh_vars_witness :
    (latf_tc_new_table "case" (some { latf_tc_obj with cleanup := .fn (.script []) })
        sample_case).1._atf_vars = [(LuaVal.string "has.cleanup", LuaVal.string "true")] ∧
    (latf_tc_new_table "case" (some latf_tc_obj) sample_case).1._atf_vars = [] :=
  ⟨(fresh_vars "case" { latf_tc_obj with cleanup := .fn (.script []) } sample_case
      [] []).2.1 (.script []) (by decide),
    (fresh_vars "case" latf_tc_obj sample_case [] []).2.2.1 (by decide)⟩

/-! ## The configuration store -/

theorem config_get_none_iff (k : String) (s : State) :
    _latf_config_get k s = none ↔ ∀ v : String, (k, v) ∉ s.atf_vars := by
  unfold _latf_config_get
  simp only [Option.map_eq_none', List.find?_eq_none, decide_eq_true_eq]
  constructor
  · intro h v hv
    exact h (k, v) hv rfl
  · intro h e he hk
    apply h e.2
    have : e = (k, e.2) := by rw [← hk]
    rw [← this]
    exact he

theorem config_get_some_mem (k v : String) (s : State) (h : _latf_config_get k s = some v) :
    (k, v) ∈ s.atf_vars := by
  unfold _latf_config_get at h
  simp only [Option.map_eq_some'] at h
  obtain ⟨e, he, hv⟩ := h
  have hmem := List.mem_of_find?_eq_some he
  have hk := List.find?_some he
  simp only [decide_eq_true_eq] at hk
  have : e = (k, v) := by rw [← hk, ← hv]
  rw [← this]
  exact hmem

theorem find_upd_same {α β : Type} [DecidableEq α] (k : α) (v : β) (l : List (α × β))
    (h : ∃ e ∈ l, e.1 = k) :
    ((l.map fun e => if e.1 = k then (k, v) else e).find? fun e => decide (e.1 = k)).map
      Prod.snd = some v := by
  induction l with
  | nil => simp at h
  | cons e rest ih =>
      rw [List.map_cons, List.find?_cons]
      by_cases he : e.1 = k
      · rw [if_pos he]
        simp
      · rw [if_neg he]
        have hd : decide (e.1 = k) = false := by simp [he]
        rw [hd]
        apply ih
        obtain ⟨x, hx, hxk⟩ := h
        rcases List.mem_cons.1 hx with hxe | hxr
        · exact absurd (hxe ▸ hxk) he
        · exact ⟨x, hxr, hxk⟩

theorem find_upd_other {α β : Type} [DecidableEq α] (k k' : α) (v : β) (hne : k' ≠ k)
    (l : List (α × β)) :
    ((l.map fun e => if e.1 = k then (k, v) else e).find? fun e => decide (e.1 = k')).map
      Prod.snd = (l.find? fun e => decide (e.1 = k')).map Prod.snd := by
  induction l with
  | nil => rfl
  | cons e rest ih =>
      rw [List.map_cons, List.find?_cons, List.find?_cons]
      by_cases he : e.1 = k
      · rw [if_pos he]
        have h1 : decide ((k, v).1 = k') = false := by
          simp only [decide_eq_false_iff_not]
          exact fun h => hne h.symm
        have h2 : decide (e.1 = k') = false := by
          simp only [decide_eq_false_iff_not]
          exact fun h => hne (h.symm.trans he)
        rw [h1, h2]
        exact ih
      · rw [if_neg he]
        by_cases hk : e.1 = k'
        · have h2 : decide (e.1 = k') = true := by simp [hk]
          rw [h2]
        · have h2 : decide (e.1 = k') = false := by simp [hk]
          rw [h2]
          exact ih

theorem find_append_same {α β : Type} [DecidableEq α] (k : α) (v : β) (l : List (α × β))
    (h : ∀ e ∈ l, ¬ e.1 = k) :
    ((l ++ [(k, v)]).find? fun e => decide (e.1 = k)).map Prod.snd = some v := by
  induction l with
  | nil => simp
  | cons e rest ih =>
      rw [List.cons_append, List.find?_cons]
      have hd : decide (e.1 = k) = false := by
        simp only [decide_eq_false_iff_not]
        exact h e (List.mem_cons_self e rest)
      rw [hd]
      exact ih fun x hx => h x (List.mem_cons_of_mem e hx)

theorem find_append_other {α β : Type} [DecidableEq α] (k k' : α) (v : β) (hne : k' ≠ k)
    (l : List (α × β)) :
    ((l ++ [(k, v)]).find? fun e => decide (e.1 = k')).map Prod.snd =
      (l.find? fun e => decide (e.1 = k')).map Prod.snd := by
  induction l with
  | nil =>
      have h1 : decide ((k, v).1 = k') = false := by
        simp only [decide_eq_false_iff_not]
        exact fun h => hne h.symm
      simp [List.find?_cons, h1]
  | cons e rest ih =>
      rw [List.cons_append, List.find?_cons, List.find?_cons]
      by_cases hk : e.1 = k'
      · have h2 : decide (e.1 = k') = true := by simp [hk]
        rw [h2]
      · have h2 : decide (e.1 = k') = false := by simp [hk]
        rw [h2]
        exact ih

/-- After `latf_config_set` the key holds the new value and the other keys
hold what they held. -/
theorem config_set_get (k k' v : String) (s : State) :
    _latf_config_get k (latf_config_set k v s) = some v ∧
      (k' ≠ k → _latf_config_get k' (latf_config_set k v s) = _latf_config_get k' s) := by
  unfold _latf_config_get latf_config_set
  simp only
  by_cases hany : s.atf_vars.any (fun e => decide (e.1 = k)) = true
  · rw [if_pos hany]
    have hex : ∃ e ∈ s.atf_vars, e.1 = k := by
      simpa [List.any_eq_true] using hany
    exact ⟨find_upd_same k v s.atf_vars hex, fun hne => find_upd_other k k' v hne s.atf_vars⟩
  · rw [if_neg hany]
    have hall : ∀ e ∈ s.atf_vars, ¬ e.1 = k := by
      intro e he hk
      apply hany
      simp only [List.any_eq_true, decide_eq_true_eq]
      exact ⟨e, he, hk⟩
    exact ⟨find_append_same k v s.atf_vars hall,
      fun hne => find_append_other k k' v hne s.atf_vars⟩

/-- A format without any `%` is defined for an empty argument list. -/
theorem format_without_percent (l : List Char) (h : '%' ∉ l) :
    format_without_arguments l = true := by
  induction l with
  | nil => rfl
  | cons c rest ih =>
      have hc : c ≠ '%' := fun e => h (by rw [e]; exact List.mem_cons_self _ _)
      have hr : '%' ∉ rest := fun e => h (List.mem_cons_of_mem _ e)
      cases rest with
      | nil => simp [format_without_arguments, hc]
      | cons d rest' =>
          rw [format_without_arguments, if_neg hc]
          exact ih hr

/-- C19, as the code has it: the queries of the configuration store.
`config_has(k)` returns true iff `k` is set; `config_get(k)` returns the stored
value when `k` is set; `config_get(k, d)` returns the stored value when `k` is
set and the default `d` when it is not; `config_get(k)` with `k` unset raises
the error `Could not find configuration variable` naming `k` with exit code 1.
The panic handler ends the process with that exit code when `k` holds no `%`;
it hands the message to `runtime_error` as the printf format, so that for a
key with a conversion, such as `%s`, the message is not printed as it stands
and no exit code is determined.  Every one of these calls hands back the state
it was given: nothing is appended to the result sink and neither the store nor
the vars of any test case change.  The stored value of a key is the one that
`latf_config_set` put there last. -/
theorem config_queries (k : String) (d : LuaVal) (s : State) :
    ((∃ v : String, (k, v) ∈ s.atf_vars) → latf_config_has k s = .ret [.boolean true] s) ∧
    ((∀ v : String, (k, v) ∉ s.atf_vars) → latf_config_has k s = .ret [.boolean false] s) ∧
    (∀ v : String, _latf_config_get k s = some v →
      (k, v) ∈ s.atf_vars ∧
      latf_config_get k [] s = .ret [.string v] s ∧
      latf_config_get k [d] s = .ret [.string v] s) ∧
    ((∀ v : String, (k, v) ∉ s.atf_vars) →
      latf_config_get k [d] s = .ret [d] s ∧
      latf_config_get k [] s =
        .bail 1 (some ("Could not find configuration variable `" ++ k ++ "'")) s ∧
      ('%' ∉ k.data → atf_lua_panic (latf_config_get k [] s) = some 1) ∧
      (format_without_arguments
          ("Could not find configuration variable `" ++ k ++ "'").data = false →
        atf_lua_panic (latf_config_get k [] s) = none) ∧
      appended s s "") ∧
    (∀ v : String, _latf_config_get k (latf_config_set k v s) = some v) ∧
    (∀ k' v : String, k' ≠ k →
      _latf_config_get k' (latf_config_set k v s) = _latf_config_get k' s) := by
  refine ⟨?_, ?_, ?_, ?_, ?_, ?_⟩
  · intro hset
    have hsome : (_latf_config_get k s).isSome = true := by
      cases hg : _latf_config_get k s with
      | some v => rfl
      | none =>
          obtain ⟨v, hv⟩ := hset
          exact absurd hv ((config_get_none_iff k s).1 hg v)
    simp [latf_config_has, hsome]
  · intro hunset
    have hnone := (config_get_none_iff k s).2 hunset
    simp [latf_config_has, hnone]
  · intro v hv
    exact ⟨config_get_some_mem k v s hv, by simp [latf_config_get, hv],
      by simp [latf_config_get, hv]⟩
  · intro hunset
    have hnone := (config_get_none_iff k s).2 hunset
    have hb : latf_config_get k [] s =
        .bail 1 (some ("Could not find configuration variable `" ++ k ++ "'")) s := by
      simp [latf_config_get, hnone, _latf_error, _latf_bail]
    refine ⟨by simp [latf_config_get, hnone], hb, ?_, ?_, appended_nothing rfl⟩
    · intro hk
      have hf : format_without_arguments
          ("Could not find configuration variable `" ++ k ++ "'").data = true := by
        apply format_without_percent
        simp only [String.data_append, List.mem_append, not_or]
        exact ⟨⟨by decide, hk⟩, by decide⟩
      rw [hb]
      simp only [atf_lua_panic, hf, if_true]
    · intro hf
      rw [hb]
      simp only [atf_lua_panic, hf]
      rfl
  · intro v
    exact (config_set_get k k v s).1
  · intro k' v hne
    exact (config_set_get k k' v s).2 hne

theorem config_queries_witness :
    latf_config_get "srcdir" [] (latf_config_set "srcdir" "/tmp" (sample_state .TCE_PASS none 1)) =
        .ret [.string "/tmp"] (latf_config_set "srcdir" "/tmp" (sample_state .TCE_PASS none 1)) ∧
    latf_config_get "k" [] (sample_state .TCE_PASS none 1) =
      .bail 1 (some ("Could not find configuration variable `" ++ "k" ++ "'"))
        (sample_state .TCE_PASS none 1) ∧
    atf_lua_panic (latf_config_get "k" [] (sample_state .TCE_PASS none 1)) = some 1 ∧
    latf_config_get "%s" [] (sample_state .TCE_PASS none 1) =
      .bail 1 (some ("Could not find configuration variable `" ++ "%s" ++ "'"))
        (sample_state .TCE_PASS none 1) ∧
    atf_lua_panic (latf_config_get "%s" [] (sample_state .TCE_PASS none 1)) = none :=
  ⟨((config_queries "srcdir" .nil
      (latf_config_set "srcdir" "/tmp" (sample_state .TCE_PASS none 1))).2.2.1
      "/tmp" (by decide)).2.1,
    ((config_queries "k" .nil (sample_state .TCE_PASS none 1)).2.2.2.1
      (fun _ h => nomatch h)).2.1,
    ((config_queries "k" .nil (sample_state .TCE_PASS none 1)).2.2.2.1
      (fun _ h => nomatch h)).2.2.1 (by decide),
    ((config_queries "%s" .nil (sample_state .TCE_PASS none 1)).2.2.2.1
      (fun _ h => nomatch h)).2.1,
    ((config_queries "%s" .nil (sample_state .TCE_PASS none 1)).2.2.2.1
      (fun _ h => nomatch h)).2.2.2.1 (by decide)⟩

/-! ## require_prog -/

theorem sane_xaccess_exists (candidate : String) (s : State)
    (h : sane_xaccess candidate s = true) : ∃ f ∈ s.files, f.path = candidate := by
  unfold sane_xaccess at h
  cases hf : s.files.find? (fun f => decide (f.path = candidate)) with
  | none => rw [hf] at h; cases h
  | some f =>
      have hmem := List.mem_of_find?_eq_some hf
      have hp := List.find?_some hf
      simp only [decide_eq_true_eq] at hp
      exact ⟨f, hmem, hp⟩

/-- C20: `require_prog(p)`, with the file system check (`sane_xaccess`) and
`PATH` as given inputs.  If `p` does not start with `/` but contains `/`, it
acts as `Fail` with the message `atf_require_prog does not accept relative path
name` naming `p`, whatever the file system holds.  If `p` starts with `/`, it
returns with the state unchanged when `p` is an executable regular file and
otherwise acts as `Skip("The required program p could not be found")`.  If `p`
contains no `/`, it returns with the state unchanged when for some component
`d` of `PATH` split at `:` (an empty component standing for `.`) the file `d/p`
is an executable regular file, and otherwise, also with `PATH` unset, acts as
`Skip("The required program p could not be found in PATH")`.  The file system
holds no path of `PATH_MAX` bytes or more. -/
theorem require_prog_spec (p : String) (s : State)
    (hfs : ∀ f ∈ s.files, f.path.utf8ByteSize < PATH_MAX) :
    (p.data.head? ≠ some '/' → '/' ∈ p.data →
      ∀ (files : List FileInfo) (path : Option String),
        latf_require_prog p { s with files := files, env_PATH := path } =
          _latf_fail ("atf_require_prog does not accept relative path name `" ++ p ++ "'")
            { s with files := files, env_PATH := path }) ∧
    (p.data.head? = some '/' → sane_xaccess p s = true →
      latf_require_prog p s = .ret [] s) ∧
    (p.data.head? = some '/' → sane_xaccess p s = false →
      latf_require_prog p s =
        _latf_skip ("The required program " ++ p ++ " could not be found") s) ∧
    ('/' ∉ p.data →
      (∃ envpath, s.env_PATH = some envpath ∧ ∃ d ∈ path_components envpath,
        sane_xaccess ((if d = "" then "." else d) ++ "/" ++ p) s = true) →
      latf_require_prog p s = .ret [] s) ∧
    ('/' ∉ p.data →
      ¬ (∃ envpath, s.env_PATH = some envpath ∧ ∃ d ∈ path_components envpath,
        sane_xaccess ((if d = "" then "." else d) ++ "/" ++ p) s = true) →
      latf_require_prog p s =
        _latf_skip ("The required program " ++ p ++ " could not be found in PATH") s) := by
  have hhead : '/' ∉ p.data → p.data.head? ≠ some '/' := by
    intro hno hh
    apply hno
    cases hd : p.data with
    | nil => rw [hd] at hh; cases hh
    | cons c cs =>
        rw [hd] at hh
        simp only [List.head?_cons, Option.some.injEq] at hh
        rw [hh]
        exact List.mem_cons_self _ _
  have hsearch : path_search p s = true ↔
      ∃ envpath, s.env_PATH = some envpath ∧ ∃ d ∈ path_components envpath,
        sane_xaccess ((if d = "" then "." else d) ++ "/" ++ p) s = true := by
    unfold path_search
    cases hp : s.env_PATH with
    | none => simp
    | some envpath =>
        simp only [List.any_eq_true, Bool.and_eq_true, decide_eq_true_eq, Option.some.injEq,
          exists_eq_left']
        constructor
        · rintro ⟨d, hd, -, hx⟩
          exact ⟨d, hd, hx⟩
        · rintro ⟨d, hd, hx⟩
          obtain ⟨f, hf, hpath⟩ := sane_xaccess_exists _ s hx
          refine ⟨d, hd, ?_, hx⟩
          rw [← hpath]
          exact hfs f hf
  refine ⟨?_, ?_, ?_, ?_, ?_⟩
  · intro h1 h2 files path
    simp [latf_require_prog, h1, h2]
  · intro h1 h2
    simp [latf_require_prog, h1, h2]
  · intro h1 h2
    simp [latf_require_prog, h1, h2]
  · intro h1 h2
    have h3 := hhead h1
    have h4 := hsearch.2 h2
    simp [latf_require_prog, h1, h3, h4]
  · intro h1 h2
    have h3 := hhead h1
    have h4 : path_search p s = false := by
      cases hps : path_search p s with
      | false => rfl
      | true => exact absurd (hsearch.1 hps) h2
    simp [latf_require_prog, h1, h3, h4]

theorem require_prog_spec_witness :
    (∀ f ∈ sample_fs_state.files, f.path.utf8ByteSize < PATH_MAX) ∧
    latf_require_prog "true" sample_fs_state = .ret [] sample_fs_state ∧
    latf_require_prog "/bin/true" sample_fs_state = .ret [] sample_fs_state :=
  ⟨by decide,
    (require_prog_spec "true" sample_fs_state (by decide)).2.2.2.1 (by decide)
      ⟨"/bin:", rfl, "/bin", by decide, by decide⟩,
    (require_prog_spec "/bin/true" sample_fs_state (by decide)).2.1 (by decide) (by decide)⟩

/-! ## Setting a variable of a test case -/

theorem table_get_eq (t : List (LuaVal × LuaVal)) (k : LuaVal) :
    table_get t k = ((t.find? fun e => decide (e.1 = k)).map Prod.snd).getD .nil := by
  unfold table_get
  cases t.find? fun e => decide (e.1 = k) <;> rfl

theorem find_filter_same {α β : Type} [DecidableEq α] (k : α) (l : List (α × β)) :
    (l.filter fun e => decide (e.1 ≠ k)).find? (fun e => decide (e.1 = k)) = none := by
  rw [List.find?_eq_none]
  intro e he
  simp only [List.mem_filter, decide_eq_true_eq] at he
  simpa using he.2

theorem find_filter_other {α β : Type} [DecidableEq α] (k k' : α) (hne : k' ≠ k)
    (l : List (α × β)) :
    (l.filter fun e => decide (e.1 ≠ k)).find? (fun e => decide (e.1 = k')) =
      l.find? fun e => decide (e.1 = k') := by
  induction l with
  | nil => rfl
  | cons e rest ih =>
      rw [List.filter_cons]
      by_cases he : e.1 = k
      · have hk : decide (e.1 = k') = false := by
          simp only [decide_eq_false_iff_not]
          exact fun h => hne (h.symm.trans he)
        have hd : decide (e.1 ≠ k) = false := by simp [he]
        rw [hd, List.find?_cons, hk]
        exact ih
      · have hd : decide (e.1 ≠ k) = true := by simp [he]
        rw [hd, if_pos rfl, List.find?_cons, List.find?_cons]
        by_cases hk : e.1 = k'
        · have hk2 : decide (e.1 = k') = true := by simp [hk]
          rw [hk2]
        · have hk2 : decide (e.1 = k') = false := by simp [hk]
          rw [hk2]
          exact ih

/-- After `t[k] = v` the key reads as `v`, and every other key as before. -/
theorem table_get_set (t : List (LuaVal × LuaVal)) (k k' v : LuaVal) :
    table_get (table_set t k v) k = v ∧
      (k' ≠ k → table_get (table_set t k v) k' = table_get t k') := by
  simp only [table_get_eq]
  unfold table_set
  by_cases hv : v = .nil
  · rw [if_pos hv]
    constructor
    · rw [find_filter_same]
      simp [hv]
    · intro hne
      rw [find_filter_other k k' hne]
  · rw [if_neg hv]
    by_cases hany : t.any (fun e => decide (e.1 = k)) = true
    · rw [if_pos hany]
      have hex : ∃ e ∈ t, e.1 = k := by simpa [List.any_eq_true] using hany
      constructor
      · rw [find_upd_same k v t hex]
        rfl
      · intro hne
        rw [find_upd_other k k' v hne t]
    · rw [if_neg hany]
      have hall : ∀ e ∈ t, ¬ e.1 = k := by
        intro e he hk
        apply hany
        simp only [List.any_eq_true, decide_eq_true_eq]
        exact ⟨e, he, hk⟩
      constructor
      · rw [find_append_same k v t hall]
        rfl
      · intro hne
        rw [find_append_other k k' v hne t]

theorem set_vars_at_idents (tcs : List TestCase) (i : Nat) (vars : List (LuaVal × LuaVal)) :
    (set_vars_at tcs i vars).map (fun tc => tc._atf_ident) = tcs.map fun tc => tc._atf_ident := by
  unfold set_vars_at
  induction tcs generalizing i with
  | nil => simp
  | cons tc rest ih =>
      cases i with
      | zero => simp
      | succ i => simp [ih i]

/-- C14: `set(key, value)` is legal exactly while the executing method is
`head`.  Called with two arguments (the key not nil) while the context is
`(ident, "head")` for a registered ident, it returns normally and the vars of
that definition then hold `value` under `key` and are otherwise as before; the
vars of every other definition, the order of the registry and the rest of the
state are unchanged.  Called while any other method is executing (`body`,
`cleanup`), with whatever arguments, it leaves with a fatal error of exit code
128, not a test outcome, and the state, hence the result sink and every vars
map, is as it was. -/
theorem set_legal_in_head (k v : LuaVal) (s : State) :
    (∀ (ident : String) (i : Nat) (tc : TestCase),
      s.tc_method_executing = some "head" → s.tc_executing = some ident →
      latf_tc_get ident s.atf_tcs = some (i, tc) → k ≠ .nil →
      ∃ s' tc', latf_set [k, v] s = .ret [] s' ∧
        s'.atf_tcs[i]? = some tc' ∧
        tc' = { tc with _atf_vars := tc'._atf_vars } ∧
        table_get tc'._atf_vars k = v ∧
        (∀ k' : LuaVal, k' ≠ k → table_get tc'._atf_vars k' = table_get tc._atf_vars k') ∧
        (∀ j : Nat, j ≠ i → s'.atf_tcs[j]? = s.atf_tcs[j]?) ∧
        s'.atf_tcs.length = s.atf_tcs.length ∧
        s'.idents = s.idents ∧
        s' = { s with atf_tcs := s'.atf_tcs } ∧
        appended s s' "") ∧
    (∀ (method : String) (args : List LuaVal),
      s.tc_method_executing = some method → method ≠ "head" →
      latf_set args s = .bail 128 (some "atf.set called from the test case's body") s ∧
        atf_lua_panic (latf_set args s) = some 128 ∧
        appended s s "") := by
  constructor
  · intro ident i tc hm hx hreg hk
    obtain ⟨hget, -, -⟩ := latf_tc_get_some ident s.atf_tcs i tc hreg
    refine ⟨{ s with atf_tcs := set_vars_at s.atf_tcs i (table_set tc._atf_vars k v) },
      { tc with _atf_vars := table_set tc._atf_vars k v }, ?_, ?_, rfl,
      (table_get_set tc._atf_vars k k v).1,
      fun k' hne => (table_get_set tc._atf_vars k k' v).2 hne, ?_, ?_, ?_, rfl,
      appended_nothing rfl⟩
    · simp [latf_set, hm, hx, hreg, hk]
    · simp [set_vars_at, hget]
    · intro j hj
      simp only [set_vars_at]
      exact List.getElem?_modify_ne _ _ (Ne.symm hj)
    · simp [set_vars_at]
    · simp only [State.idents]
      exact set_vars_at_idents _ _ _
  · intro method args hm hne
    have hb : latf_set args s =
        .bail 128 (some "atf.set called from the test case's body") s := by
      simp [latf_set, hm, hne, _latf_error, _latf_bail]
    exact ⟨hb, by rw [hb]; rfl, appended_nothing rfl⟩

theorem set_legal_in_head_witness :
    (∃ s' tc', latf_set [.string "descr", .string "x"]
        { sample_registered with
          tc_executing := some "case", tc_method_executing := some "head" } = .ret [] s' ∧
      s'.atf_tcs[0]? = some tc' ∧
      tc' = { sample_built with _atf_vars := tc'._atf_vars } ∧
      table_get tc'._atf_vars (.string "descr") = .string "x") ∧
    latf_set [.string "descr", .string "x"]
        { sample_registered with
          tc_executing := some "case", tc_method_executing := some "body" } =
      .bail 128 (some "atf.set called from the test case's body")
        { sample_registered with
          tc_executing := some "case", tc_method_executing := some "body" } :=
  ⟨by
      obtain ⟨s', tc', h1, h2, h3, h4, -⟩ :=
        (set_legal_in_head (.string "descr") (.string "x")
          { sample_registered with
            tc_executing := some "case", tc_method_executing := some "head" }).1
          "case" 0 sample_built rfl rfl (by decide) (by decide)
      exact ⟨s', tc', h1, h2, h3, h4⟩,
    ((set_legal_in_head (.string "descr") (.string "x")
        { sample_registered with
          tc_executing := some "case", tc_method_executing := some "body" }).2
      "body" [.string "descr", .string "x"] rfl (by decide)).1⟩

/-! ## The terminal line of a skip -/

theorem append_left_cancel (a b c : String) (h : a ++ b = a ++ c) : b = c := by
  have hd := congrArg String.data h
  simp only [String.data_append] at hd
  exact String.ext (List.append_cancel_left hd)

/-- The text appended between two states is determined by them. -/
theorem appended_unique (s s' : State) (a b : String) (ha : appended s s' a)
    (hb : appended s s' b) : a = b := by
  have h1 := ha s.tc_resfile_fd
  have h2 := hb s.tc_resfile_fd
  simp only [if_true] at h1 h2
  rw [h1] at h2
  exact append_left_cancel _ _ _ h2

/-- C17, as the code has it: `Skip(reason)` appends `skipped: ` and the reason
and nothing more, so its terminal output is not a complete line: the newline
that ends `passed`, `failed: ...` and `expected_failure: ...` is missing, and
the bytes appended are not `skipped: <reason>` followed by a newline. -/
theorem skip_line_lacks_newline (reason : String) (s : State)
    (hopen : 0 ≤ s.tc_resfile_fd) :
    ∃ s', latf_skip reason s = .bail 0 none s' ∧
      appended s s' ("skipped: " ++ reason) ∧
      ¬ appended s s' ("skipped: " ++ reason ++ "\n") := by
  obtain ⟨s', h1, h2, -⟩ := @finish_spec (List LuaVal) 0
    (_latf_write_result reason (_latf_write_result "skipped: " s))
  have happ : appended s s' ("skipped: " ++ reason) := by
    have := @appended_of_written s s' ["skipped: ", reason]
      (by simp [h2, write_written, write_fd, hopen])
    simpa using this
  refine ⟨s', h1, happ, ?_⟩
  intro hbad
  have heq := appended_unique s s' _ _ happ hbad
  have hlen := congrArg String.length heq
  simp only [String.length_append] at hlen
  have hnl : "\n".length = 1 := by decide
  omega

theorem skip_line_lacks_newline_witness :
    (0 : Int) ≤ (sample_state .TCE_PASS none 1).tc_resfile_fd ∧
    ∃ s', latf_skip "no dep" (sample_state .TCE_PASS none 1) = .bail 0 none s' ∧
      appended (sample_state .TCE_PASS none 1) s' ("skipped: " ++ "no dep") ∧
      ¬ appended (sample_state .TCE_PASS none 1) s' ("skipped: " ++ "no dep" ++ "\n") :=
  ⟨by decide, skip_line_lacks_newline "no dep" (sample_state .TCE_PASS none 1) (by decide)⟩

/-! ## The expectation state at the start of a run -/

/-- A build does not touch the expectation state. -/
theorem run_builds_expected (bs : List Build) (s : State) :
    (run_builds bs s).latf_tc_expected = s.latf_tc_expected := by
  induction bs generalizing s with
  | nil => rfl
  | cons b rest ih =>
      simp only [run_builds, List.foldl_cons]
      have hstep : (run_build s b).latf_tc_expected = s.latf_tc_expected := by
        unfold run_build latf_tc_new
        simp only
        split
        · split <;> rfl
        · rfl
      have := ih (run_build s b)
      simp only [run_builds] at this
      rw [this, hstep]

/-- C18 fails on the code: with the expectation Fail (reason `r`) in force when
`execute` is called, as a call of `expect_fail("r")` made while the script was
loading leaves it, a head that calls `fail("x")` at once ends the run with
the expected failure `expected_failure: r: x` and exit code 0, so it has found
the state Fail, not Pass; called in state Pass the same run ends with
`failed: x` and exit code 1. -/
theorem execute_does_not_reset_counterexample :
    run_call (.expect_fail "r") (probe_registered .TCE_PASS none) =
        .ret [] (probe_registered .TCE_FAIL (some "r")) ∧
      atf_lua_panic (latf_execute "probe" "body" (probe_registered .TCE_FAIL (some "r"))) =
        some 0 ∧
      ((latf_execute "probe" "body" (probe_registered .TCE_FAIL (some "r"))).final_state
          (probe_registered .TCE_FAIL (some "r"))).sink 1 = "expected_failure: r: x\n" ∧
      atf_lua_panic (latf_execute "probe" "body" (probe_registered .TCE_PASS none)) =
        some 1 ∧
      ((latf_execute "probe" "body" (probe_registered .TCE_PASS none)).final_state
          (probe_registered .TCE_PASS none)).sink 1 = "failed: x\n" := by
  decide

/-- C18, amended: `execute` does not reset the expectation state.  For a
registered ident whose definition has a head, the head starts executing in the
state in which `execute` was called, with only the execution context set, so
with the expectation state that is in force at the call.  That state is Pass
when no `expect_*` call was made before: the variable is initialised to Pass
and builds do not touch it. -/
theorem execute_keeps_expectation (test method : String) (s : State) (i : Nat)
    (tc : TestCase) (hreg : latf_tc_get test s.atf_tcs = some (i, tc))
    (hhead : tc.head ≠ .nil) :
    latf_tc_execute test method s =
      (lua_call tc.head
        { s with tc_executing := some test, tc_method_executing := some "head" }).bind
        (fun _ s1 =>
          (latf_tc_method tc test method
            { s1 with tc_executing := none, tc_method_executing := none }).bind
            fun _ s2 => .ret 0 s2) ∧
    ({ s with tc_executing := some test, tc_method_executing := some "head" } :
        State).latf_tc_expected = s.latf_tc_expected ∧
    (∀ (bs : List Build) (env_PATH : Option String) (uid : Nat) (files : List FileInfo),
      (run_builds bs (initial_state env_PATH uid files)).latf_tc_expected = .TCE_PASS) := by
  refine ⟨?_, rfl, ?_⟩
  · unfold latf_tc_execute
    rw [hreg]
    simp only [latf_tc_method, gettable_head, hhead, if_false]
    cases lua_call tc.head
        { s with tc_executing := some test, tc_method_executing := some "head" } <;>
      simp [Outcome.bind]
  · intro bs env_PATH uid files
    rw [run_builds_expected]
    rfl

theorem execute_keeps_expectation_witness :
    (latf_tc_get "probe" (probe_registered .TCE_FAIL (some "r")).atf_tcs =
        some (0, (latf_tc_new_table "probe" (some latf_tc_obj) probe_case).1) ∧
      (latf_tc_new_table "probe" (some latf_tc_obj) probe_case).1.head ≠ .nil) ∧
    ({ probe_registered .TCE_FAIL (some "r") with
        tc_executing := some "probe", tc_method_executing := some "head" } :
        State).latf_tc_expected = (probe_registered .TCE_FAIL (some "r")).latf_tc_expected :=
  ⟨⟨by decide, by decide⟩,
    (execute_keeps_expectation "probe" "body" (probe_registered .TCE_FAIL (some "r")) 0
      (latf_tc_new_table "probe" (some latf_tc_obj) probe_case).1
      (by decide) (by decide)).2.1⟩

theorem appended_congr (s t s' : State) (text : String) (hw : t.written = s.written)
    (hfd : t.tc_resfile_fd = s.tc_resfile_fd) (h : appended s s' text) :
    appended t s' text := by
  intro fd
  have := h fd
  unfold State.sink at this ⊢
  rw [hw, hfd]
  exact this

/-! ## The shape of what a run appends to the result sink -/

theorem write_stdout (t : String) (s : State) :
    (_latf_write_result t s).stdout = s.stdout := by
  unfold _latf_write_result; split <;> rfl

theorem concat_lines_append (a b : List String) :
    concat_lines (a ++ b) = concat_lines a ++ concat_lines b := by
  induction a with
  | nil => simp [concat_lines]
  | cons t ts ih => simp [concat_lines, ih, String.append_assoc]

theorem appended_trans (s s1 s2 : State) (a b : String) (h1 : appended s s1 a)
    (hfd : s1.tc_resfile_fd = s.tc_resfile_fd) (h2 : appended s1 s2 b) :
    appended s s2 (a ++ b) := by
  intro fd
  have e1 := h1 fd
  have e2 := h2 fd
  rw [hfd] at e2
  rw [e2, e1]
  by_cases h : fd = s.tc_resfile_fd
  · simp [h, String.append_assoc]
  · simp [h]

/-- One write appends its text when the sink is open and nothing otherwise. -/
theorem appended_write (t : String) (s : State) :
    appended s (_latf_write_result t s) (if 0 ≤ s.tc_resfile_fd then t else "") := by
  by_cases h : 0 ≤ s.tc_resfile_fd
  · rw [if_pos h]
    have := @appended_of_written s (_latf_write_result t s) [t] (by simp [write_written, h])
    simpa using this
  · rw [if_neg h]
    exact appended_nothing (by simp [_latf_write_result, h])

theorem only_declared_refl (s : State) : only_declared s s :=
  ⟨rfl, rfl, rfl, [], appended_nothing rfl, fun _ h => nomatch h⟩

theorem only_declared_trans (s s1 s2 : State) (h1 : only_declared s s1)
    (h2 : only_declared s1 s2) : only_declared s s2 := by
  obtain ⟨a1, a2, a3, d1, a4, a5⟩ := h1
  obtain ⟨b1, b2, b3, d2, b4, b5⟩ := h2
  refine ⟨b1.trans a1, b2.trans a2, b3.trans a3, d1 ++ d2, ?_, ?_⟩
  · rw [concat_lines_append]
    exact appended_trans s s1 s2 _ _ a4 a1 b4
  · intro d hd
    rcases List.mem_append.1 hd with h | h
    · exact a5 d h
    · exact b5 d h

/-- A change of fields that the sink does not depend on keeps `only_declared`. -/
theorem only_declared_of_same (s s' : State) (hfd : s'.tc_resfile_fd = s.tc_resfile_fd)
    (hout : s'.stdout = s.stdout) (hcl : s'.closed = s.closed)
    (hw : s'.written = s.written) : only_declared s s' :=
  ⟨hfd, hout, hcl, [], appended_nothing hw, fun _ h => nomatch h⟩

/-- Installing an expectation and writing its declaration line. -/
theorem declared_write (line : String) (e : latf_tc_expect) (s : State)
    (hd : is_declaration line) :
    only_declared s (_latf_write_result line { s with latf_tc_expected := e }) := by
  refine ⟨by rw [write_fd], by rw [write_stdout], by rw [write_closed], ?_⟩
  have hw := appended_write line { s with latf_tc_expected := e }
  have hw' := appended_congr _ s _ _ rfl rfl hw
  by_cases h : 0 ≤ s.tc_resfile_fd
  · refine ⟨[line], ?_, ?_⟩
    · simpa [concat_lines, h] using hw'
    · intro d hmem
      simp only [List.mem_singleton] at hmem
      rw [hmem]
      exact hd
  · refine ⟨[], ?_, ?_⟩
    · simpa [concat_lines, h] using hw'
    · intro d hmem
      cases hmem

/-- A declaration that returns has appended declaration lines only. -/
theorem declare_ret {f : Unit → State → Outcome (List LuaVal)} (s s' : State)
    (v : List LuaVal) (h : (_latf_validate_expect s).bind f = .ret v s')
    (hf : ∀ v' s'', f () s = .ret v' s'' → only_declared s s'') :
    only_declared s s' := by
  cases hv : _latf_validate_expect s with
  | ret u s1 =>
      obtain ⟨h1, -⟩ := validate_ret s s1 u hv
      subst h1
      rw [hv] at h
      exact hf v s' h
  | bail e m s1 => rw [hv] at h; cases h
  | lua_error m s1 => rw [hv] at h; cases h
  | undefined => rw [hv] at h; cases h

/-- A native call that returns has appended declaration lines only. -/
theorem run_call_ret_declared (c : Call) (s s' : State) (v : List LuaVal)
    (h : run_call c s = .ret v s') : only_declared s s' := by
  cases c with
  | get key =>
      simp only [run_call, latf_get, _latf_error, _latf_bail] at h
      split at h
      · split at h <;> cases h
      · split at h
        · cases h
        · cases h; exact only_declared_refl s
  | set args =>
      simp only [run_call, latf_set, _latf_error, _latf_bail, luaL_error] at h
      repeat' split at h
      all_goals (cases h <;> exact only_declared_of_same _ _ rfl rfl rfl rfl)
  | check_equal args src line =>
      simp only [run_call, latf_check_equal, _latf_error, _latf_bail] at h
      split at h
      · split at h
        · exact (fail_not_ret _ _ _ _ h).elim
        · cases h; exact only_declared_refl s
      · cases h
  | config_get key rest =>
      simp only [run_call, latf_config_get, _latf_error, _latf_bail] at h
      repeat' split at h
      all_goals (cases h <;> exact only_declared_refl s)
  | config_has key =>
      simp only [run_call, latf_config_has] at h
      cases h; exact only_declared_refl s
  | get_srcdir =>
      simp only [run_call, latf_get_srcdir, latf_config_get, _latf_error, _latf_bail] at h
      repeat' split at h
      all_goals (cases h <;> exact only_declared_refl s)
  | expect_death reason =>
      refine declare_ret s s' v h ?_
      intro v' s'' h'
      cases h'
      exact declared_write _ _ s ⟨reason, Or.inl rfl⟩
  | expect_exit reason exitcode =>
      refine declare_ret s s' v h ?_
      intro v' s'' h'
      cases exitcode with
      | none =>
          cases h'
          exact declared_write _ _ s ⟨reason, Or.inr (Or.inl rfl)⟩
      | some n =>
          cases hc : lua_Number_to_int n with
          | none => simp only [hc] at h'; cases h'
          | some c =>
              simp only [hc] at h'
              cases h'
              exact declared_write _ _ s ⟨reason, Or.inr (Or.inr (Or.inl ⟨c, rfl⟩))⟩
  | expect_fail reason =>
      refine declare_ret s s' v h ?_
      intro v' s'' h'
      cases h'
      exact only_declared_of_same _ _ rfl rfl rfl rfl
  | expect_pass =>
      refine declare_ret s s' v h ?_
      intro v' s'' h'
      cases h'
      exact only_declared_of_same _ _ rfl rfl rfl rfl
  | expect_signal reason signo =>
      refine declare_ret s s' v h ?_
      intro v' s'' h'
      cases signo with
      | none =>
          cases h'
          exact declared_write _ _ s ⟨reason, Or.inr (Or.inr (Or.inr (Or.inl rfl)))⟩
      | some n =>
          cases hc : lua_Number_to_int n with
          | none => simp only [hc] at h'; cases h'
          | some c =>
              simp only [hc] at h'
              cases h'
              exact declared_write _ _ s
                ⟨reason, Or.inr (Or.inr (Or.inr (Or.inr (Or.inl ⟨c, rfl⟩))))⟩
  | expect_timeout reason =>
      refine declare_ret s s' v h ?_
      intro v' s'' h'
      cases h'
      exact declared_write _ _ s ⟨reason, Or.inr (Or.inr (Or.inr (Or.inr (Or.inr rfl))))⟩
  | fail reason => exact (fail_not_ret _ _ _ _ h).elim
  | pass => exact (pass_not_ret _ _ _ h).elim
  | skip reason => exact (skip_not_ret _ _ _ _ h).elim
  | require_prog prog =>
      simp only [run_call, latf_require_prog] at h
      split at h
      · exact (fail_not_ret _ _ _ _ h).elim
      · split at h
        · split at h
          · exact (skip_not_ret _ _ _ _ h).elim
          · cases h; exact only_declared_refl s
        · split at h
          · exact (skip_not_ret _ _ _ _ h).elim
          · cases h; exact only_declared_refl s

theorem run_calls_ret_declared (cs : List Call) (s s' : State) (u : Unit)
    (h : run_calls cs s = .ret u s') : only_declared s s' := by
  induction cs generalizing s with
  | nil =>
      simp only [run_calls, Outcome.ret.injEq] at h
      rw [← h.2]
      exact only_declared_refl s
  | cons c rest ih =>
      simp only [run_calls] at h
      cases hc : run_call c s with
      | ret v s1 =>
          rw [hc] at h
          exact only_declared_trans s s1 s' (run_call_ret_declared c s s1 v hc) (ih s1 h)
      | bail e m s1 => rw [hc] at h; cases h
      | lua_error m s1 => rw [hc] at h; cases h
      | undefined => rw [hc] at h; cases h

theorem stub_body_not_ret (s s' : State) (u : Unit) (h : latf_tc_stub_body s = .ret u s') :
    False := by
  unfold latf_tc_stub_body at h
  obtain ⟨e, msg, s'', hb⟩ := @fail_is_bail Unit "Test case not implemented" s
  rw [hb] at h
  cases h

theorem lua_call_ret_declared (f : LuaField) (s s' : State) (u : Unit)
    (h : lua_call f s = .ret u s') : only_declared s s' := by
  unfold lua_call at h
  split at h
  · simp only [latf_tc_stub_head, Outcome.ret.injEq] at h
    rw [← h.2]
    exact only_declared_refl s
  · exact (stub_body_not_ret s s' u h).elim
  · exact run_calls_ret_declared _ s s' u h
  · cases h
  · cases h

/-- A method that returns has appended declaration lines only. -/
theorem latf_tc_method_ret_declared (tc : TestCase) (tc_ident method : String)
    (s s' : State) (u : Unit) (h : latf_tc_method tc tc_ident method s = .ret u s') :
    only_declared s s' := by
  unfold latf_tc_method at h
  simp only at h
  split at h
  · split at h
    · cases h
      exact only_declared_of_same _ _ rfl rfl rfl rfl
    · cases hb : latf_tc_stub_body
          { s with tc_executing := none, tc_method_executing := none } with
      | ret v s1 => exact (stub_body_not_ret _ _ _ hb).elim
      | bail e m s1 => rw [hb] at h; cases h
      | lua_error m s1 => rw [hb] at h; cases h
      | undefined => rw [hb] at h; cases h
  · cases hc : lua_call (tc.gettable method)
        { s with tc_executing := some tc_ident, tc_method_executing := some method } with
    | ret v s1 =>
        rw [hc] at h
        simp only [Outcome.bind, Outcome.ret.injEq] at h
        have h1 := lua_call_ret_declared _ _ s1 v hc
        have h2 : only_declared s
            { s with tc_executing := some tc_ident, tc_method_executing := some method } :=
          only_declared_of_same _ _ rfl rfl rfl rfl
        have h3 : only_declared s1
            { s1 with tc_executing := none, tc_method_executing := none } :=
          only_declared_of_same _ _ rfl rfl rfl rfl
        rw [← h.2]
        exact only_declared_trans _ _ _ (only_declared_trans _ _ _ h2 h1) h3
    | bail e m s1 => rw [hc] at h; cases h
    | lua_error m s1 => rw [hc] at h; cases h
    | undefined => rw [hc] at h; cases h

theorem latf_tc_execute_ret_declared (test method : String) (s s' : State)
    (h : latf_tc_execute test method s = .ret 0 s') : only_declared s s' := by
  unfold latf_tc_execute at h
  split at h
  · simp [ENOENT] at h
  · rename_i i tc hreg
    cases hh : latf_tc_method tc test "head" s with
    | ret u s1 =>
        rw [hh] at h
        simp only [Outcome.bind] at h
        cases hm : latf_tc_method tc test method s1 with
        | ret u2 s2 =>
            rw [hm] at h
            simp only [Outcome.bind, Outcome.ret.injEq, true_and] at h
            rw [← h]
            exact only_declared_trans s s1 s2
              (latf_tc_method_ret_declared tc test "head" s s1 u hh)
              (latf_tc_method_ret_declared tc test method s1 s2 u2 hm)
        | bail e m s2 => rw [hm] at h; cases h
        | lua_error m s2 => rw [hm] at h; cases h
        | undefined => rw [hm] at h; cases h
    | bail e m s1 => rw [hh] at h; cases h
    | lua_error m s1 => rw [hh] at h; cases h
    | undefined => rw [hh] at h; cases h

theorem latf_tc_execute_ret_zero (test method : String) (s s' : State) (error : Int)
    (h : latf_tc_execute test method s = .ret error s') : error = 0 ∨ error = ENOENT := by
  unfold latf_tc_execute at h
  split at h
  · cases h
    exact Or.inr rfl
  · rename_i i tc hreg
    cases hh : latf_tc_method tc test "head" s with
    | ret u s1 =>
        rw [hh] at h
        simp only [Outcome.bind] at h
        cases hm : latf_tc_method tc test method s1 with
        | ret u2 s2 =>
            rw [hm] at h
            simp only [Outcome.bind, Outcome.ret.injEq] at h
            exact Or.inl h.1.symm
        | bail e m s2 => rw [hm] at h; cases h
        | lua_error m s2 => rw [hm] at h; cases h
        | undefined => rw [hm] at h; cases h
    | bail e m s1 => rw [hh] at h; cases h
    | lua_error m s1 => rw [hh] at h; cases h
    | undefined => rw [hh] at h; cases h

/-! ## The listing -/

/-- A declaration that returns has kept the idents of the registry. -/
theorem declare_ret_idents {f : Unit → State → Outcome (List LuaVal)} (s s' : State)
    (v : List LuaVal) (h : (_latf_validate_expect s).bind f = .ret v s')
    (hf : ∀ v' s'', f () s = .ret v' s'' → s''.idents = s.idents) :
    s'.idents = s.idents := by
  cases hv : _latf_validate_expect s with
  | ret u s1 =>
      obtain ⟨h1, -⟩ := validate_ret s s1 u hv
      subst h1
      rw [hv] at h
      exact hf v s' h
  | bail e m s1 => rw [hv] at h; cases h
  | lua_error m s1 => rw [hv] at h; cases h
  | undefined => rw [hv] at h; cases h

theorem write_idents (t : String) (s : State) :
    (_latf_write_result t s).idents = s.idents := by
  unfold State.idents
  rw [write_tcs]

/-- A native call that returns has kept the idents of the registry, in order. -/
theorem run_call_ret_idents (c : Call) (s s' : State) (v : List LuaVal)
    (h : run_call c s = .ret v s') : s'.idents = s.idents := by
  cases c with
  | get key =>
      simp only [run_call, latf_get, _latf_error, _latf_bail] at h
      split at h
      · split at h <;> cases h
      · split at h
        · cases h
        · cases h; rfl
  | set args =>
      simp only [run_call, latf_set, _latf_error, _latf_bail, luaL_error] at h
      repeat' split at h
      all_goals first
        | (cases h; done)
        | (cases h; exact set_vars_at_idents _ _ _)
  | check_equal args src line =>
      simp only [run_call, latf_check_equal, _latf_error, _latf_bail] at h
      split at h
      · split at h
        · exact (fail_not_ret _ _ _ _ h).elim
        · cases h; rfl
      · cases h
  | config_get key rest =>
      simp only [run_call, latf_config_get, _latf_error, _latf_bail] at h
      repeat' split at h
      all_goals (cases h <;> rfl)
  | config_has key =>
      simp only [run_call, latf_config_has] at h
      cases h; rfl
  | get_srcdir =>
      simp only [run_call, latf_get_srcdir, latf_config_get, _latf_error, _latf_bail] at h
      repeat' split at h
      all_goals (cases h <;> rfl)
  | expect_death reason =>
      refine declare_ret_idents s s' v h ?_
      intro v' s'' h'
      cases h'
      rw [write_idents]; rfl
  | expect_exit reason exitcode =>
      refine declare_ret_idents s s' v h ?_
      intro v' s'' h'
      cases exitcode with
      | none => cases h'; rw [write_idents]; rfl
      | some n =>
          cases hc : lua_Number_to_int n with
          | none => simp only [hc] at h'; cases h'
          | some c => simp only [hc] at h'; cases h'; rw [write_idents]; rfl
  | expect_fail reason =>
      refine declare_ret_idents s s' v h ?_
      intro v' s'' h'
      cases h'
      rfl
  | expect_pass =>
      refine declare_ret_idents s s' v h ?_
      intro v' s'' h'
      cases h'
      rfl
  | expect_signal reason signo =>
      refine declare_ret_idents s s' v h ?_
      intro v' s'' h'
      cases signo with
      | none => cases h'; rw [write_idents]; rfl
      | some n =>
          cases hc : lua_Number_to_int n with
          | none => simp only [hc] at h'; cases h'
          | some c => simp only [hc] at h'; cases h'; rw [write_idents]; rfl
  | expect_timeout reason =>
      refine declare_ret_idents s s' v h ?_
      intro v' s'' h'
      cases h'
      rw [write_idents]; rfl
  | fail reason => exact (fail_not_ret _ _ _ _ h).elim
  | pass => exact (pass_not_ret _ _ _ h).elim
  | skip reason => exact (skip_not_ret _ _ _ _ h).elim
  | require_prog prog =>
      simp only [run_call, latf_require_prog] at h
      split at h
      · exact (fail_not_ret _ _ _ _ h).elim
      · split at h
        · split at h
          · exact (skip_not_ret _ _ _ _ h).elim
          · cases h; rfl
        · split at h
          · exact (skip_not_ret _ _ _ _ h).elim
          · cases h; rfl

theorem run_calls_ret_idents (cs : List Call) (s s' : State) (u : Unit)
    (h : run_calls cs s = .ret u s') : s'.idents = s.idents := by
  induction cs generalizing s with
  | nil =>
      simp only [run_calls, Outcome.ret.injEq] at h
      rw [h.2]
  | cons c rest ih =>
      simp only [run_calls] at h
      cases hc : run_call c s with
      | ret v s1 =>
          rw [hc] at h
          simp only [Outcome.bind] at h
          rw [ih s1 h, run_call_ret_idents c s s1 v hc]
      | bail e m s1 => rw [hc] at h; cases h
      | lua_error m s1 => rw [hc] at h; cases h
      | undefined => rw [hc] at h; cases h

theorem lua_call_ret_idents (f : LuaField) (s s' : State) (u : Unit)
    (h : lua_call f s = .ret u s') : s'.idents = s.idents := by
  unfold lua_call at h
  split at h
  · simp only [latf_tc_stub_head, Outcome.ret.injEq] at h
    rw [h.2]
  · exact (stub_body_not_ret s s' u h).elim
  · exact run_calls_ret_idents _ s s' u h
  · cases h
  · cases h

/-- A method that returns has kept the idents of the registry, in order. -/
theorem latf_tc_method_ret_idents (tc : TestCase) (tc_ident method : String) (s s' : State)
    (u : Unit) (h : latf_tc_method tc tc_ident method s = .ret u s') :
    s'.idents = s.idents := by
  unfold latf_tc_method at h
  simp only at h
  split at h
  · split at h
    · cases h; rfl
    · cases hb : latf_tc_stub_body
          { s with tc_executing := none, tc_method_executing := none } with
      | ret v s1 => exact (stub_body_not_ret _ _ _ hb).elim
      | bail e m s1 => rw [hb] at h; cases h
      | lua_error m s1 => rw [hb] at h; cases h
      | undefined => rw [hb] at h; cases h
  · cases hc : lua_call (tc.gettable method)
        { s with tc_executing := some tc_ident, tc_method_executing := some method } with
    | ret v s1 =>
        rw [hc] at h
        simp only [Outcome.bind, Outcome.ret.injEq] at h
        have := lua_call_ret_idents _ _ s1 v hc
        rw [← h.2]
        exact this
    | bail e m s1 => rw [hc] at h; cases h
    | lua_error m s1 => rw [hc] at h; cases h
    | undefined => rw [hc] at h; cases h

theorem printf_printf (a b : String) (s : State) :
    printf b (printf a s) = printf (a ++ b) s := by
  simp [printf, String.append_assoc]

/-- The loop over vars that can be printed prints their lines and returns. -/
theorem list_vars_strings (vars : List (LuaVal × LuaVal)) (s : State)
    (h : printable_vars vars = true) :
    list_vars vars s = .ret () (printf (vars_lines vars) s) := by
  induction vars generalizing s with
  | nil => simp [list_vars, vars_lines, printf]
  | cons e rest ih =>
      obtain ⟨k, v⟩ := e
      cases k <;> cases v <;> simp only [printable_vars] at h <;> try (cases h)
      · rename_i ks n
        simp only [list_vars, lua_tostring, fmt_s, vars_lines]
        rw [ih _ h, printf_printf]
      · rename_i ks vs
        simp only [list_vars, lua_tostring, fmt_s, vars_lines]
        rw [ih _ h, printf_printf]

theorem idents_drop (s : State) (i : Nat) (tc : TestCase) (h : s.atf_tcs[i]? = some tc) :
    s.idents.drop i = tc._atf_ident :: s.idents.drop (i + 1) := by
  unfold State.idents
  have hlt : i < s.atf_tcs.length := by
    rcases Nat.lt_or_ge i s.atf_tcs.length with hl | hl
    · exact hl
    · rw [List.getElem?_eq_none hl] at h
      cases h
  have hget : s.atf_tcs[i] = tc := by
    rw [List.getElem?_eq_getElem hlt] at h
    exact Option.some.inj h
  rw [← List.map_drop, ← List.map_drop, List.drop_eq_getElem_cons hlt, hget]
  rfl

/-- The loop of the listing follows the run of the heads. -/
theorem foreach_list_spec (remaining : Nat) :
    ∀ (i counter : Nat) (s s' : State) (varss : List (List (LuaVal × LuaVal))),
      heads_run remaining i s = some (varss, s') →
      latf_tc_foreach_list remaining i counter s = .ret (counter + remaining) s' ∧
        varss.length = remaining ∧
        s'.stdout =
          s.stdout ++ concat_lines (List.zipWith listing_entry (s.idents.drop i) varss) ∧
        s'.idents = s.idents := by
  induction remaining with
  | zero =>
      intro i counter s s' varss h
      simp only [heads_run, Option.some.injEq, Prod.mk.injEq] at h
      obtain ⟨h1, h2⟩ := h
      subst h1 h2
      simp [latf_tc_foreach_list, concat_lines]
  | succ n ih =>
      intro i counter s s' varss h
      simp only [heads_run] at h
      cases htc : s.atf_tcs[i]? with
      | none => rw [htc] at h; cases h
      | some tc =>
          rw [htc] at h
          simp only at h
          cases hh : latf_tc_method tc tc._atf_ident "head" s with
          | ret u s1 =>
              rw [hh] at h
              simp only at h
              cases htc1 : s1.atf_tcs[i]? with
              | none => rw [htc1] at h; cases h
              | some tc1 =>
                  rw [htc1] at h
                  simp only at h
                  by_cases hsv : printable_vars tc1._atf_vars = true
                  · rw [if_pos hsv] at h
                    cases hrest : heads_run n (i + 1)
                        (printf (listing_entry tc._atf_ident tc1._atf_vars) s1) with
                    | none => rw [hrest] at h; cases h
                    | some r =>
                        obtain ⟨vs, s2⟩ := r
                        rw [hrest] at h
                        simp only [Option.some.injEq, Prod.mk.injEq] at h
                        obtain ⟨h1, h2⟩ := h
                        subst h1 h2
                        obtain ⟨g1, g2, g3, g4⟩ := ih (i + 1) (counter + 1) _ _ _ hrest
                        have hid := latf_tc_method_ret_idents tc tc._atf_ident "head" s s1 u hh
                        have hdec := latf_tc_method_ret_declared tc tc._atf_ident "head" s s1 u hh
                        have hcb : latf_tc_list_cb i counter s =
                            .ret (0, counter + 1)
                              (printf (listing_entry tc._atf_ident tc1._atf_vars) s1) := by
                          have hp : (printf ("ident: " ++ tc._atf_ident ++ "\n")
                              (printf "\n" s1)).atf_tcs[i]? = some tc1 := htc1
                          unfold latf_tc_list_cb
                          rw [htc]
                          simp only [hh, Outcome.bind, hp]
                          rw [list_vars_strings _ _ hsv]
                          simp only [printf_printf, listing_entry, String.append_assoc]
                        refine ⟨?_, by simp [g2], ?_, ?_⟩
                        · simp only [latf_tc_foreach_list, hcb, Outcome.bind]
                          simp only [ne_eq, not_true_eq_false, if_false]
                          rw [g1]
                          congr 1
                          omega
                        · rw [g3]
                          have hid2 : (printf (listing_entry tc._atf_ident tc1._atf_vars)
                              s1).idents = s.idents := hid
                          rw [hid2, idents_drop s i tc htc]
                          simp only [printf, List.zipWith_cons_cons, concat_lines, hdec.2.1,
                            String.append_assoc]
                        · rw [g4]
                          exact hid
                  · rw [if_neg hsv] at h
                    cases h
          | bail e m s1 => rw [hh] at h; cases h
          | lua_error m s1 => rw [hh] at h; cases h
          | undefined => rw [hh] at h; cases h

/-- C15: when every head returns normally (and leaves vars that can be printed),
the text that `list()` writes is the header line followed, for each registered
definition in registry order, by a blank line, the line `ident: <ident>` and
one line `<key>: <value>` per entry of the vars of that definition as they
stand after its head has run.  With an empty registry the output is the header
followed by exactly one blank line; with a registry that is not empty nothing
follows the last entry. -/
theorem listing_output (s s' : State) (varss : List (List (LuaVal × LuaVal)))
    (h : heads_run s.atf_tcs.length 0 (printf listing_header s) = some (varss, s')) :
    ∃ sf, latf_list s = .ret () sf ∧
      varss.length = s.atf_tcs.length ∧
      sf.stdout =
        s.stdout ++ listing_header ++
          concat_lines (List.zipWith listing_entry s.idents varss) ++
          (if s.atf_tcs = [] then "\n" else "") ∧
      (s.atf_tcs = [] → sf.stdout = s.stdout ++ listing_header ++ "\n") := by
  obtain ⟨g1, g2, g3, -⟩ := foreach_list_spec s.atf_tcs.length 0 0 _ s' varss h
  have hid : (printf listing_header s).idents = s.idents := rfl
  rw [hid, List.drop_zero] at g3
  have hout : (printf listing_header s).stdout = s.stdout ++ listing_header := rfl
  rw [hout] at g3
  have key : latf_tc_foreach_list (printf listing_header s).atf_tcs.length 0 0
      (printf listing_header s) = .ret (0 + s.atf_tcs.length) s' := g1
  have hlist : latf_list s =
      (latf_tc_foreach_list (printf listing_header s).atf_tcs.length 0 0
        (printf listing_header s)).bind fun counter s2 =>
          if counter = 0 then .ret () (printf "\n" s2) else .ret () s2 := rfl
  by_cases hnil : s.atf_tcs = []
  · have hl0 : s.atf_tcs.length = 0 := by rw [hnil]; rfl
    have hsf : latf_list s = .ret () (printf "\n" s') := by
      rw [hlist, key]
      simp [Outcome.bind, hl0]
    have hvn : varss = [] := List.length_eq_zero.1 (by rw [g2, hl0])
    refine ⟨printf "\n" s', hsf, g2, ?_, ?_⟩
    · simp only [printf, g3, hnil, if_true]
    · intro _
      simp only [printf, g3, hvn, List.zipWith_nil_right, concat_lines, String.append_empty]
  · have hl0 : s.atf_tcs.length ≠ 0 := fun h0 => hnil (List.length_eq_zero.1 h0)
    have hsf : latf_list s = .ret () s' := by
      rw [hlist, key]
      simp [Outcome.bind, hl0]
    refine ⟨s', hsf, g2, ?_, ?_⟩
    · simp only [g3, hnil, if_false, String.append_empty]
    · intro h0
      exact absurd h0 hnil

theorem listing_output_witness :
    heads_run sample_registered.atf_tcs.length 0 (printf listing_header sample_registered) =
        some ([[(.string "descr", .string "x")]],
          (latf_list sample_registered).final_state sample_registered) ∧
    ∃ sf, latf_list sample_registered = .ret () sf ∧
      ([[(LuaVal.string "descr", LuaVal.string "x")]] : List (List (LuaVal × LuaVal))).length =
        sample_registered.atf_tcs.length ∧
      sf.stdout =
        sample_registered.stdout ++ listing_header ++
          concat_lines (List.zipWith listing_entry sample_registered.idents
            [[(.string "descr", .string "x")]]) ++
          (if sample_registered.atf_tcs = [] then "\n" else "") ∧
      (sample_registered.atf_tcs = [] →
        sf.stdout = sample_registered.stdout ++ listing_header ++ "\n") :=
  ⟨by decide,
    listing_output sample_registered
      ((latf_list sample_registered).final_state sample_registered)
      [[(.string "descr", .string "x")]] (by decide)⟩


/-! ## Closing the result sink -/

theorem finish_keeps {α : Type} (exitcode : Int) (s : State)
    (h : ¬(0 ≤ s.tc_resfile_fd ∧ s.tc_resfile_fd ≠ STDOUT_FILENO ∧
      s.tc_resfile_fd ≠ STDIN_FILENO)) :
    (_latf_finish exitcode s : Outcome α) = .bail exitcode none s := by
  unfold _latf_finish
  rw [if_neg h]
  rfl

theorem finish_closes {α : Type} (exitcode : Int) (s : State)
    (h : 0 ≤ s.tc_resfile_fd ∧ s.tc_resfile_fd ≠ STDOUT_FILENO ∧
      s.tc_resfile_fd ≠ STDIN_FILENO) :
    (_latf_finish exitcode s : Outcome α) = .bail exitcode none
      { s with closed := s.closed ++ [s.tc_resfile_fd], tc_resfile_fd := -1 } := by
  unfold _latf_finish
  rw [if_pos h]
  rfl

/-- C21, as the code has it: after `latf_set_resultfile` has selected the sink,
`_latf_finish` leaves standard output open and its descriptor unchanged, closes
a dedicated file (a descriptor above 2) and marks it -1, and closes standard
error as well, marking it -1: the test in `_latf_finish` exempts descriptor 0,
where `latf_set_resultfile` exempts descriptor 2. -/
theorem finish_closes_standard_error (exitcode open_result : Int) (resfile : String)
    (s0 s1 : State) (hset : latf_set_resultfile resfile open_result s0 = .ret () s1) :
    (resfile = "/dev/stdout" →
      s1.tc_resfile_fd = STDOUT_FILENO ∧
      (_latf_finish exitcode s1 : Outcome Unit) = .bail exitcode none s1) ∧
    (resfile = "/dev/stderr" →
      s1.tc_resfile_fd = STDERR_FILENO ∧
      (_latf_finish exitcode s1 : Outcome Unit) = .bail exitcode none
        { s1 with closed := s1.closed ++ [STDERR_FILENO], tc_resfile_fd := -1 }) ∧
    (resfile ≠ "/dev/stdout" → resfile ≠ "/dev/stderr" → 2 < open_result →
      s1.tc_resfile_fd = open_result ∧
      (_latf_finish exitcode s1 : Outcome Unit) = .bail exitcode none
        { s1 with closed := s1.closed ++ [open_result], tc_resfile_fd := -1 }) := by
  unfold latf_set_resultfile at hset
  simp only at hset
  refine ⟨?_, ?_, ?_⟩
  · intro hr
    rw [if_pos hr] at hset
    cases hset
    refine ⟨rfl, finish_keeps exitcode _ ?_⟩
    show ¬(0 ≤ STDOUT_FILENO ∧ STDOUT_FILENO ≠ STDOUT_FILENO ∧ STDOUT_FILENO ≠ STDIN_FILENO)
    decide
  · intro hr
    have hne : resfile ≠ "/dev/stdout" := by rw [hr]; decide
    rw [if_neg hne, if_pos hr] at hset
    cases hset
    refine ⟨rfl, finish_closes exitcode _ ?_⟩
    show 0 ≤ STDERR_FILENO ∧ STDERR_FILENO ≠ STDOUT_FILENO ∧ STDERR_FILENO ≠ STDIN_FILENO
    decide
  · intro h1 h2 h3
    have hne : open_result ≠ -1 := by omega
    rw [if_neg h1, if_neg h2, if_neg hne] at hset
    cases hset
    refine ⟨rfl, finish_closes exitcode _ ?_⟩
    show 0 ≤ open_result ∧ open_result ≠ STDOUT_FILENO ∧ open_result ≠ STDIN_FILENO
    unfold STDOUT_FILENO STDIN_FILENO
    omega

theorem finish_closes_standard_error_witness :
    latf_set_resultfile "/dev/stderr" 3 (sample_state .TCE_PASS none (-1)) =
        .ret () (sample_state .TCE_PASS none 2) ∧
      (_latf_finish 0 (sample_state .TCE_PASS none 2) : Outcome Unit) = .bail 0 none
        { sample_state .TCE_PASS none 2 with closed := [2], tc_resfile_fd := -1 } :=
  ⟨by decide,
    ((finish_closes_standard_error 0 3 "/dev/stderr" (sample_state .TCE_PASS none (-1))
      (sample_state .TCE_PASS none 2) (by decide)).2.1 rfl).2⟩


/-! ## Releasing the result sink -/

theorem finish_released {α : Type} (e e' : Int) (s0 s s' : State)
    (hfd : s.tc_resfile_fd = s0.tc_resfile_fd) (hcl : s.closed = s0.closed)
    (hded : 2 < s0.tc_resfile_fd)
    (h : (_latf_finish e s : Outcome α) = .bail e' none s') : released s0 s' := by
  have hc : 0 ≤ s.tc_resfile_fd ∧ s.tc_resfile_fd ≠ STDOUT_FILENO ∧
      s.tc_resfile_fd ≠ STDIN_FILENO := by
    rw [hfd]
    unfold STDOUT_FILENO STDIN_FILENO
    omega
  rw [finish_closes e s hc] at h
  cases h
  exact ⟨by show s.closed ++ [s.tc_resfile_fd] = _; rw [hcl, hfd], rfl⟩

theorem released_of_declared (s s1 s' : State) (h1 : only_declared s s1)
    (h2 : released s1 s') : released s s' := by
  obtain ⟨a1, -, a3, -⟩ := h1
  obtain ⟨b1, b2⟩ := h2
  exact ⟨by rw [b1, a3, a1], b2⟩

theorem fail_released {α : Type} (m : String) (s s' : State) (e : Int)
    (hded : 2 < s.tc_resfile_fd) (h : (_latf_fail m s : Outcome α) = .bail e none s') :
    released s s' := by
  cases he : s.latf_tc_expected with
  | TCE_PASS =>
      simp only [_latf_fail, he] at h
      exact finish_released _ _ s _ s' (by simp only [write_fd])
        (by simp only [write_closed]) hded h
  | TCE_FAIL =>
      simp only [_latf_fail, he] at h
      exact finish_released _ _ s _ s' (by simp only [write_fd])
        (by simp only [write_closed]) hded h
  | TCE_DEATH => simp [_latf_fail, he, _latf_error, _latf_bail] at h
  | TCE_EXIT => simp [_latf_fail, he, _latf_error, _latf_bail] at h
  | TCE_SIGNAL => simp [_latf_fail, he, _latf_error, _latf_bail] at h
  | TCE_TIMEOUT => simp [_latf_fail, he, _latf_error, _latf_bail] at h

theorem skip_released {α : Type} (m : String) (s s' : State) (e : Int)
    (hded : 2 < s.tc_resfile_fd) (h : (_latf_skip m s : Outcome α) = .bail e none s') :
    released s s' := by
  unfold _latf_skip at h
  exact finish_released _ _ s _ s' (by simp only [write_fd])
    (by simp only [write_closed]) hded h

theorem pass_released {α : Type} (s s' : State) (e : Int)
    (hded : 2 < s.tc_resfile_fd) (h : (_latf_pass s : Outcome α) = .bail e none s') :
    released s s' := by
  cases he : s.latf_tc_expected with
  | TCE_PASS =>
      simp only [_latf_pass, he] at h
      exact finish_released _ _ s _ s' (by simp only [write_fd])
        (by simp only [write_closed]) hded h
  | TCE_FAIL =>
      simp only [_latf_pass, he] at h
      exact @fail_released α _ { s with latf_tc_expected := .TCE_PASS } s' e hded h
  | TCE_DEATH => simp [_latf_pass, he, _latf_error, _latf_bail] at h
  | TCE_EXIT => simp [_latf_pass, he, _latf_error, _latf_bail] at h
  | TCE_SIGNAL => simp [_latf_pass, he, _latf_error, _latf_bail] at h
  | TCE_TIMEOUT => simp [_latf_pass, he, _latf_error, _latf_bail] at h

theorem validate_released (s s' : State) (e : Int) (hded : 2 < s.tc_resfile_fd)
    (h : _latf_validate_expect s = .bail e none s') : released s s' := by
  unfold _latf_validate_expect at h
  split at h
  · cases h
  · exact @fail_released Unit _ { s with latf_tc_expected := .TCE_PASS } s' e hded h

theorem declare_released {f : Unit → State → Outcome (List LuaVal)} (s s' : State) (e : Int)
    (hded : 2 < s.tc_resfile_fd)
    (h : (_latf_validate_expect s).bind f = .bail e none s')
    (hf : ∀ e' s'', f () s ≠ .bail e' none s'') :
    released s s' := by
  cases hv : _latf_validate_expect s with
  | ret u s1 =>
      obtain ⟨h1, -⟩ := validate_ret s s1 u hv
      subst h1
      rw [hv] at h
      exact absurd h (hf e s')
  | bail e1 m s1 =>
      rw [hv] at h
      simp only [Outcome.bind, Outcome.bail.injEq] at h
      obtain ⟨h1, h2, h3⟩ := h
      subst h1 h2 h3
      exact validate_released s s1 e1 hded hv
  | lua_error m s1 => rw [hv] at h; cases h
  | undefined => rw [hv] at h; cases h


theorem run_call_bail_released (c : Call) (s s' : State) (e : Int)
    (hded : 2 < s.tc_resfile_fd) (h : run_call c s = .bail e none s') :
    released s s' := by
  cases c with
  | get key =>
      simp only [run_call, latf_get, _latf_error, _latf_bail] at h
      repeat' split at h
      all_goals cases h
  | set args =>
      simp only [run_call, latf_set, _latf_error, _latf_bail, luaL_error] at h
      repeat' split at h
      all_goals cases h
  | check_equal args src line =>
      simp only [run_call, latf_check_equal, _latf_error, _latf_bail] at h
      split at h
      · split at h
        · exact fail_released _ s s' e hded h
        · cases h
      · cases h
  | config_get key rest =>
      simp only [run_call, latf_config_get, _latf_error, _latf_bail] at h
      repeat' split at h
      all_goals cases h
  | config_has key =>
      simp only [run_call, latf_config_has] at h
      cases h
  | get_srcdir =>
      simp only [run_call, latf_get_srcdir, latf_config_get, _latf_error, _latf_bail] at h
      repeat' split at h
      all_goals cases h
  | expect_death reason =>
      refine declare_released s s' e hded h ?_
      intro e' s'' h'
      cases h'
  | expect_exit reason exitcode =>
      refine declare_released s s' e hded h ?_
      intro e' s'' h'
      cases exitcode with
      | none => cases h'
      | some n => cases hc : lua_Number_to_int n <;> (simp only [hc] at h'; cases h')
  | expect_fail reason =>
      refine declare_released s s' e hded h ?_
      intro e' s'' h'
      cases h'
  | expect_pass =>
      refine declare_released s s' e hded h ?_
      intro e' s'' h'
      cases h'
  | expect_signal reason signo =>
      refine declare_released s s' e hded h ?_
      intro e' s'' h'
      cases signo with
      | none => cases h'
      | some n => cases hc : lua_Number_to_int n <;> (simp only [hc] at h'; cases h')
  | expect_timeout reason =>
      refine declare_released s s' e hded h ?_
      intro e' s'' h'
      cases h'
  | fail reason => exact fail_released reason s s' e hded h
  | pass => exact pass_released s s' e hded h
  | skip reason => exact skip_released reason s s' e hded h
  | require_prog prog =>
      simp only [run_call, latf_require_prog] at h
      split at h
      · exact fail_released _ s s' e hded h
      · split at h
        · split at h
          · exact skip_released _ s s' e hded h
          · cases h
        · split at h
          · exact skip_released _ s s' e hded h
          · cases h

theorem run_calls_bail_released (cs : List Call) (s s' : State) (e : Int)
    (hded : 2 < s.tc_resfile_fd) (h : run_calls cs s = .bail e none s') :
    released s s' := by
  induction cs generalizing s with
  | nil => simp [run_calls] at h
  | cons c rest ih =>
      simp only [run_calls] at h
      cases hc : run_call c s with
      | ret v s1 =>
          rw [hc] at h
          have hd := run_call_ret_declared c s s1 v hc
          exact released_of_declared s s1 s' hd (ih s1 (by rw [hd.1]; exact hded) h)
      | bail e1 m s1 =>
          rw [hc] at h
          simp only [Outcome.bind, Outcome.bail.injEq] at h
          obtain ⟨h1, h2, h3⟩ := h
          subst h1 h2 h3
          exact run_call_bail_released c s s1 e1 hded hc
      | lua_error m s1 => rw [hc] at h; cases h
      | undefined => rw [hc] at h; cases h

theorem stub_body_released (s s' : State) (e : Int) (hded : 2 < s.tc_resfile_fd)
    (h : latf_tc_stub_body s = .bail e none s') : released s s' := by
  unfold latf_tc_stub_body at h
  cases hf : (_latf_fail "Test case not implemented" s : Outcome Unit) with
  | ret v s1 => exact (fail_not_ret _ _ _ _ hf).elim
  | bail e1 m s1 =>
      rw [hf] at h
      simp only [Outcome.bind, Outcome.bail.injEq] at h
      obtain ⟨h1, h2, h3⟩ := h
      subst h1 h2 h3
      exact fail_released _ s s1 e1 hded hf
  | lua_error m s1 => rw [hf] at h; cases h
  | undefined => rw [hf] at h; cases h

theorem lua_call_bail_released (f : LuaField) (s s' : State) (e : Int)
    (hded : 2 < s.tc_resfile_fd) (h : lua_call f s = .bail e none s') :
    released s s' := by
  unfold lua_call at h
  split at h
  · cases h
  · exact stub_body_released s s' e hded h
  · exact run_calls_bail_released _ s s' e hded h
  · cases h
  · cases h

theorem latf_tc_method_bail_released (tc : TestCase) (tc_ident method : String)
    (s s' : State) (e : Int) (hded : 2 < s.tc_resfile_fd)
    (h : latf_tc_method tc tc_ident method s = .bail e none s') :
    released s s' := by
  unfold latf_tc_method at h
  simp only at h
  split at h
  · split at h
    · cases h
    · cases hb : latf_tc_stub_body
          { s with tc_executing := none, tc_method_executing := none } with
      | ret v s1 => exact (stub_body_not_ret _ _ _ hb).elim
      | bail e1 m s1 =>
          rw [hb] at h
          simp only [Outcome.bind, Outcome.bail.injEq] at h
          obtain ⟨h1, h2, h3⟩ := h
          subst h1 h2 h3
          exact stub_body_released
            { s with tc_executing := none, tc_method_executing := none } s1 e1 hded hb
      | lua_error m s1 => rw [hb] at h; cases h
      | undefined => rw [hb] at h; cases h
  · cases hc : lua_call (tc.gettable method)
        { s with tc_executing := some tc_ident, tc_method_executing := some method } with
    | ret v s1 => rw [hc] at h; cases h
    | bail e1 m s1 =>
        rw [hc] at h
        simp only [Outcome.bind, Outcome.bail.injEq] at h
        obtain ⟨h1, h2, h3⟩ := h
        subst h1 h2 h3
        exact lua_call_bail_released (tc.gettable method)
          { s with tc_executing := some tc_ident, tc_method_executing := some method }
          s1 e1 hded hc
    | lua_error m s1 => rw [hc] at h; cases h
    | undefined => rw [hc] at h; cases h

theorem latf_tc_execute_bail_released (test method : String) (s s' : State) (e : Int)
    (hded : 2 < s.tc_resfile_fd) (h : latf_tc_execute test method s = .bail e none s') :
    released s s' := by
  unfold latf_tc_execute at h
  split at h
  · cases h
  · rename_i i tc hreg
    cases hh : latf_tc_method tc test "head" s with
    | ret u s1 =>
        rw [hh] at h
        simp only [Outcome.bind] at h
        have hd := latf_tc_method_ret_declared tc test "head" s s1 u hh
        cases hm : latf_tc_method tc test method s1 with
        | ret u2 s2 => rw [hm] at h; cases h
        | bail e1 m s2 =>
            rw [hm] at h
            simp only [Outcome.bind, Outcome.bail.injEq] at h
            obtain ⟨h1, h2, h3⟩ := h
            subst h1 h2 h3
            exact released_of_declared s s1 s2 hd
              (latf_tc_method_bail_released tc test method s1 s2 e1
                (by rw [hd.1]; exact hded) hm)
        | lua_error m s2 => rw [hm] at h; cases h
        | undefined => rw [hm] at h; cases h
    | bail e1 m s1 =>
        rw [hh] at h
        simp only [Outcome.bind, Outcome.bail.injEq] at h
        obtain ⟨h1, h2, h3⟩ := h
        subst h1 h2 h3
        exact latf_tc_method_bail_released tc test "head" s s1 e1 hded hh
    | lua_error m s1 => rw [hh] at h; cases h
    | undefined => rw [hh] at h; cases h


/-- C22, as the code has it: with a dedicated file (a descriptor above 2) as
result sink, every execution that ends through `_latf_finish` (an explicit
pass, fail or skip, an expected failure, a violated expectation caught by
`_latf_validate_expect`) has closed the sink once and marked it -1; but when the
requested method returns normally, `latf_execute` writes `passed` itself and
returns 0 with no call of `close` and the descriptor still in place. -/
theorem passed_on_return_leaves_sink_open (test method : String) (s s' : State)
    (hded : 2 < s.tc_resfile_fd) :
    (∀ e : Int, latf_execute test method s = .bail e none s' → released s s') ∧
    (latf_execute test method s = .ret 0 s' →
      s'.closed = s.closed ∧ s'.tc_resfile_fd = s.tc_resfile_fd ∧
      ∃ s1, only_declared s s1 ∧ s' = _latf_write_result "passed\n" s1) := by
  cases hx : latf_tc_execute test method s with
  | ret error s1 =>
      have hz := latf_tc_execute_ret_zero test method s s1 error hx
      rcases hz with hz | hz
      · subst hz
        have hd := latf_tc_execute_ret_declared test method s s1 hx
        have hded1 : 2 < s1.tc_resfile_fd := by rw [hd.1]; exact hded
        by_cases hp : s1.latf_tc_expected = .TCE_PASS
        · have hrun : latf_execute test method s =
              .ret 0 (_latf_write_result "passed\n" s1) := by
            simp [latf_execute, hx, Outcome.bind, validate_in_pass s1 hp]
          rw [hrun]
          refine ⟨fun _ h => (nomatch h), fun h => ?_⟩
          simp only [Outcome.ret.injEq, true_and] at h
          subst h
          exact ⟨by rw [write_closed, hd.2.2.1], by rw [write_fd, hd.1], s1, hd, rfl⟩
        · obtain ⟨s2, m, h1, -⟩ := validate_violation s1 (by omega) hp
          have hrun : latf_execute test method s = .bail 1 none s2 := by
            simp [latf_execute, hx, Outcome.bind, h1]
          rw [hrun]
          refine ⟨fun e h => ?_, fun h => (nomatch h)⟩
          simp only [Outcome.bail.injEq, true_and] at h
          obtain ⟨-, h⟩ := h
          subst h
          exact released_of_declared s s1 s2 hd (validate_released s1 s2 1 hded1 h1)
      · have hrun : latf_execute test method s = .ret ENOENT s1 := by
          simp [latf_execute, hx, Outcome.bind, hz, ENOENT]
        rw [hrun]
        refine ⟨fun _ h => (nomatch h), fun h => ?_⟩
        simp [ENOENT] at h
  | bail e1 m s1 =>
      have hrun : latf_execute test method s = .bail e1 m s1 := by
        simp [latf_execute, hx, Outcome.bind]
      rw [hrun]
      refine ⟨fun e h => ?_, fun h => (nomatch h)⟩
      simp only [Outcome.bail.injEq] at h
      obtain ⟨h1, h2, h3⟩ := h
      subst h1 h2 h3
      exact latf_tc_execute_bail_released test method s s1 e1 hded hx
  | lua_error m s1 =>
      have hrun : latf_execute test method s = .lua_error m s1 := by
        simp [latf_execute, hx, Outcome.bind]
      rw [hrun]
      exact ⟨fun _ h => (nomatch h), fun h => (nomatch h)⟩
  | undefined =>
      have hrun : latf_execute test method s = .undefined := by
        simp [latf_execute, hx, Outcome.bind]
      rw [hrun]
      exact ⟨fun _ h => (nomatch h), fun h => (nomatch h)⟩

theorem passed_on_return_leaves_sink_open_witness :
    2 < (scripted_registered []).tc_resfile_fd ∧
      latf_execute "case" "body" (scripted_registered []) =
        .ret 0 (_latf_write_result "passed\n" (scripted_registered [])) ∧
      (_latf_write_result "passed\n" (scripted_registered [])).sink 3 = "passed\n" ∧
      (_latf_write_result "passed\n" (scripted_registered [])).closed = [] ∧
      (_latf_write_result "passed\n" (scripted_registered [])).tc_resfile_fd = 3 :=
  ⟨by decide, by decide, by decide,
    ((passed_on_return_leaves_sink_open "case" "body" (scripted_registered [])
      (_latf_write_result "passed\n" (scripted_registered [])) (by decide)).2
        (by decide)).1,
    ((passed_on_return_leaves_sink_open "case" "body" (scripted_registered [])
      (_latf_write_result "passed\n" (scripted_registered [])) (by decide)).2
        (by decide)).2.1⟩


/-! ## The branch labelled unreachable -/

/-- C23, as the code has it: a body that declares an expected death, exit,
signal or timeout and then calls `fail`, `pass`, a `check_equal` of unequal
values or a `require_prog` of a relative path, run by `latf_execute` from state
`Pass`, enters `_latf_fail` or `_latf_pass` with that expectation pending and
ends with the fatal error `Unreachable` of exit code 128, after the declaration
line and without a terminal line. -/
theorem unreachable_branch_is_reached :
    (atf_lua_panic (run_scripted [.expect_death "r", .fail "x"]) = some 128 ∧
      (run_scripted [.expect_death "r", .fail "x"]).err_msg = some "Unreachable" ∧
      ((run_scripted [.expect_death "r", .fail "x"]).final_state
        (scripted_registered [.expect_death "r", .fail "x"])).latf_tc_expected = .TCE_DEATH ∧
      ((run_scripted [.expect_death "r", .fail "x"]).final_state
        (scripted_registered [.expect_death "r", .fail "x"])).sink 3 = "expected_death: r\n") ∧
    (atf_lua_panic (run_scripted [.expect_exit "r" (some 1), .fail "x"]) = some 128 ∧
      (run_scripted [.expect_exit "r" (some 1), .fail "x"]).err_msg = some "Unreachable") ∧
    (atf_lua_panic (run_scripted [.expect_signal "r" none, .fail "x"]) = some 128 ∧
      (run_scripted [.expect_signal "r" none, .fail "x"]).err_msg = some "Unreachable") ∧
    (atf_lua_panic (run_scripted [.expect_timeout "r", .fail "x"]) = some 128 ∧
      (run_scripted [.expect_timeout "r", .fail "x"]).err_msg = some "Unreachable") ∧
    (atf_lua_panic (run_scripted [.expect_death "r", .pass]) = some 128 ∧
      (run_scripted [.expect_death "r", .pass]).err_msg = some "Unreachable") ∧
    (atf_lua_panic (run_scripted
        [.expect_death "r", .check_equal [.integer 1, .integer 2] "t.lua" 7]) = some 128 ∧
      (run_scripted
        [.expect_death "r", .check_equal [.integer 1, .integer 2] "t.lua" 7]).err_msg =
          some "Unreachable") ∧
    (atf_lua_panic (run_scripted [.expect_death "r", .require_prog "bin/ls"]) = some 128 ∧
      (run_scripted [.expect_death "r", .require_prog "bin/ls"]).err_msg =
        some "Unreachable") := by
  decide


/-! ## The writes of a run, one by one -/

theorem wrote_nil (s s' : State) (h : s'.written = s.written) : wrote s s' [] := by
  simp [wrote, h]

theorem wrote_trans (s s1 s2 : State) (a b : List String) (h1 : wrote s s1 a)
    (hfd : s1.tc_resfile_fd = s.tc_resfile_fd) (h2 : wrote s1 s2 b) :
    wrote s s2 (a ++ b) := by
  unfold wrote at *
  rw [h2, h1, hfd]
  simp [List.append_assoc]

theorem concat_lines_foldr (ws : List String) :
    concat_lines ws = ws.foldr (fun t acc => t ++ acc) "" := by
  induction ws with
  | nil => rfl
  | cons w ws ih => simp [concat_lines, ih]

theorem appended_of_wrote (s s' : State) (ws : List String) (h : wrote s s' ws) :
    appended s s' (concat_lines ws) := by
  rw [concat_lines_foldr]
  exact appended_of_written ws h

theorem declared_writes_refl (s : State) : declared_writes s s :=
  ⟨rfl, [], wrote_nil s s rfl, fun _ h => nomatch h⟩

theorem declared_writes_of_same (s s' : State) (hfd : s'.tc_resfile_fd = s.tc_resfile_fd)
    (hw : s'.written = s.written) : declared_writes s s' :=
  ⟨hfd, [], wrote_nil s s' hw, fun _ h => nomatch h⟩

theorem declared_writes_trans (s s1 s2 : State) (h1 : declared_writes s s1)
    (h2 : declared_writes s1 s2) : declared_writes s s2 := by
  obtain ⟨a1, d1, a2, a3⟩ := h1
  obtain ⟨b1, d2, b2, b3⟩ := h2
  refine ⟨by rw [b1, a1], d1 ++ d2, wrote_trans s s1 s2 d1 d2 a2 a1 b2, ?_⟩
  intro d hd
  rcases List.mem_append.1 hd with h | h
  · exact a3 d h
  · exact b3 d h

theorem declared_then_terminal (s s1 s2 : State) (h1 : declared_writes s s1)
    (h2 : terminal_after_declarations s1 s2) : terminal_after_declarations s s2 := by
  obtain ⟨a1, d1, a2, a3⟩ := h1
  obtain ⟨d2, tw, b1, b2, b3⟩ := h2
  refine ⟨d1 ++ d2, tw, ?_, ?_, b3⟩
  · rw [List.append_assoc]
    exact wrote_trans s s1 s2 d1 (d2 ++ tw) a2 a1 b1
  · intro d hd
    rcases List.mem_append.1 hd with h | h
    · exact a3 d h
    · exact b2 d h

theorem terminal_writes_alone (s s' : State) (tw : List String) (h : wrote s s' tw)
    (ht : terminal_writes tw) : terminal_after_declarations s s' :=
  ⟨[], tw, by simpa using h, fun _ hd => (nomatch hd), ht⟩

theorem finish_written {α : Type} (e e' : Int) (m : Option String) (s s' : State)
    (h : (_latf_finish e s : Outcome α) = .bail e' m s') : s'.written = s.written := by
  obtain ⟨s'', h1, h2, -⟩ := @finish_spec α e s
  rw [h1] at h
  cases h
  exact h2

theorem fail_wrote {α : Type} (m : String) (s s' : State) (e : Int)
    (hopen : 0 ≤ s.tc_resfile_fd) (h : (_latf_fail m s : Outcome α) = .bail e none s') :
    terminal_after_declarations s s' := by
  cases he : s.latf_tc_expected with
  | TCE_PASS =>
      simp only [_latf_fail, he] at h
      have hw := finish_written _ _ _ _ _ h
      refine terminal_writes_alone s s' ["failed: ", m, "\n"] ?_ (Or.inr (Or.inl ⟨m, rfl⟩))
      unfold wrote
      simp [hw, write_written, write_fd, hopen]
  | TCE_FAIL =>
      simp only [_latf_fail, he] at h
      have hw := finish_written _ _ _ _ _ h
      refine terminal_writes_alone s s'
        ["expected_failure: " ++ fmt_s s.latf_tc_expected_reason ++ ": ", m, "\n"] ?_
        (Or.inr (Or.inr (Or.inl ⟨_, m, rfl⟩)))
      unfold wrote
      simp [hw, write_written, write_fd, hopen]
  | TCE_DEATH => simp [_latf_fail, he, _latf_error, _latf_bail] at h
  | TCE_EXIT => simp [_latf_fail, he, _latf_error, _latf_bail] at h
  | TCE_SIGNAL => simp [_latf_fail, he, _latf_error, _latf_bail] at h
  | TCE_TIMEOUT => simp [_latf_fail, he, _latf_error, _latf_bail] at h

theorem skip_wrote {α : Type} (m : String) (s s' : State) (e : Int)
    (hopen : 0 ≤ s.tc_resfile_fd) (h : (_latf_skip m s : Outcome α) = .bail e none s') :
    terminal_after_declarations s s' := by
  unfold _latf_skip at h
  have hw := finish_written _ _ _ _ _ h
  refine terminal_writes_alone s s' ["skipped: ", m] ?_ (Or.inr (Or.inr (Or.inr ⟨m, rfl⟩)))
  unfold wrote
  simp [hw, write_written, write_fd, hopen]

theorem pass_wrote {α : Type} (s s' : State) (e : Int)
    (hopen : 0 ≤ s.tc_resfile_fd) (h : (_latf_pass s : Outcome α) = .bail e none s') :
    terminal_after_declarations s s' := by
  cases he : s.latf_tc_expected with
  | TCE_PASS =>
      simp only [_latf_pass, he] at h
      have hw := finish_written _ _ _ _ _ h
      refine terminal_writes_alone s s' ["passed\n"] ?_ (Or.inl rfl)
      unfold wrote
      simp [hw, write_written, hopen]
  | TCE_FAIL =>
      simp only [_latf_pass, he] at h
      exact @fail_wrote α _ { s with latf_tc_expected := .TCE_PASS } s' e hopen h
  | TCE_DEATH => simp [_latf_pass, he, _latf_error, _latf_bail] at h
  | TCE_EXIT => simp [_latf_pass, he, _latf_error, _latf_bail] at h
  | TCE_SIGNAL => simp [_latf_pass, he, _latf_error, _latf_bail] at h
  | TCE_TIMEOUT => simp [_latf_pass, he, _latf_error, _latf_bail] at h

theorem validate_wrote (s s' : State) (e : Int) (msg : Option String)
    (hopen : 0 ≤ s.tc_resfile_fd) (h : _latf_validate_expect s = .bail e msg s') :
    msg = none ∧ terminal_after_declarations s s' := by
  by_cases hp : s.latf_tc_expected = .TCE_PASS
  · rw [validate_in_pass s hp] at h
    cases h
  · obtain ⟨s'', m, h1, -⟩ := validate_violation s hopen hp
    have h0 := h
    rw [h1] at h
    simp only [Outcome.bail.injEq] at h
    obtain ⟨-, hm, -⟩ := h
    subst hm
    refine ⟨rfl, ?_⟩
    unfold _latf_validate_expect at h0
    rw [if_neg hp] at h0
    exact @fail_wrote Unit _ { s with latf_tc_expected := .TCE_PASS } s' e hopen h0

theorem declared_write_one (line : String) (e : latf_tc_expect) (s : State)
    (hd : is_declaration line) :
    declared_writes s (_latf_write_result line { s with latf_tc_expected := e }) := by
  refine ⟨by rw [write_fd], ?_⟩
  by_cases h : 0 ≤ s.tc_resfile_fd
  · refine ⟨[line], ?_, ?_⟩
    · unfold wrote
      simp [_latf_write_result, h]
    · intro d hmem
      simp only [List.mem_singleton] at hmem
      rw [hmem]
      exact hd
  · refine ⟨[], ?_, fun _ hmem => nomatch hmem⟩
    unfold wrote
    simp [_latf_write_result, h]

theorem declare_ret_wrote {f : Unit → State → Outcome (List LuaVal)} (s s' : State)
    (v : List LuaVal) (h : (_latf_validate_expect s).bind f = .ret v s')
    (hf : ∀ v' s'', f () s = .ret v' s'' → declared_writes s s'') :
    declared_writes s s' := by
  cases hv : _latf_validate_expect s with
  | ret u s1 =>
      obtain ⟨h1, -⟩ := validate_ret s s1 u hv
      subst h1
      rw [hv] at h
      exact hf v s' h
  | bail e m s1 => rw [hv] at h; cases h
  | lua_error m s1 => rw [hv] at h; cases h
  | undefined => rw [hv] at h; cases h

theorem declare_bail_wrote {f : Unit → State → Outcome (List LuaVal)} (s s' : State)
    (e : Int) (hopen : 0 ≤ s.tc_resfile_fd)
    (h : (_latf_validate_expect s).bind f = .bail e none s')
    (hf : ∀ e' s'', f () s ≠ .bail e' none s'') :
    terminal_after_declarations s s' := by
  cases hv : _latf_validate_expect s with
  | ret u s1 =>
      obtain ⟨h1, -⟩ := validate_ret s s1 u hv
      subst h1
      rw [hv] at h
      exact absurd h (hf e s')
  | bail e1 m s1 =>
      rw [hv] at h
      simp only [Outcome.bind, Outcome.bail.injEq] at h
      obtain ⟨h1, h2, h3⟩ := h
      subst h1 h2 h3
      exact (validate_wrote s s1 e1 none hopen hv).2
  | lua_error m s1 => rw [hv] at h; cases h
  | undefined => rw [hv] at h; cases h


/-- A native call that returns has written declaration lines only. -/
theorem run_call_ret_wrote (c : Call) (s s' : State) (v : List LuaVal)
    (h : run_call c s = .ret v s') : declared_writes s s' := by
  cases c with
  | get key =>
      simp only [run_call, latf_get, _latf_error, _latf_bail] at h
      split at h
      · split at h <;> cases h
      · split at h
        · cases h
        · cases h; exact declared_writes_refl s
  | set args =>
      simp only [run_call, latf_set, _latf_error, _latf_bail, luaL_error] at h
      repeat' split at h
      all_goals (cases h <;> exact declared_writes_of_same _ _ rfl rfl)
  | check_equal args src line =>
      simp only [run_call, latf_check_equal, _latf_error, _latf_bail] at h
      split at h
      · split at h
        · exact (fail_not_ret _ _ _ _ h).elim
        · cases h; exact declared_writes_refl s
      · cases h
  | config_get key rest =>
      simp only [run_call, latf_config_get, _latf_error, _latf_bail] at h
      repeat' split at h
      all_goals (cases h <;> exact declared_writes_refl s)
  | config_has key =>
      simp only [run_call, latf_config_has] at h
      cases h; exact declared_writes_refl s
  | get_srcdir =>
      simp only [run_call, latf_get_srcdir, latf_config_get, _latf_error, _latf_bail] at h
      repeat' split at h
      all_goals (cases h <;> exact declared_writes_refl s)
  | expect_death reason =>
      refine declare_ret_wrote s s' v h ?_
      intro v' s'' h'
      cases h'
      exact declared_write_one _ _ s ⟨reason, Or.inl rfl⟩
  | expect_exit reason exitcode =>
      refine declare_ret_wrote s s' v h ?_
      intro v' s'' h'
      cases exitcode with
      | none =>
          cases h'
          exact declared_write_one _ _ s ⟨reason, Or.inr (Or.inl rfl)⟩
      | some n =>
          cases hc : lua_Number_to_int n with
          | none => simp only [hc] at h'; cases h'
          | some c =>
              simp only [hc] at h'
              cases h'
              exact declared_write_one _ _ s ⟨reason, Or.inr (Or.inr (Or.inl ⟨c, rfl⟩))⟩
  | expect_fail reason =>
      refine declare_ret_wrote s s' v h ?_
      intro v' s'' h'
      cases h'
      exact declared_writes_of_same _ _ rfl rfl
  | expect_pass =>
      refine declare_ret_wrote s s' v h ?_
      intro v' s'' h'
      cases h'
      exact declared_writes_of_same _ _ rfl rfl
  | expect_signal reason signo =>
      refine declare_ret_wrote s s' v h ?_
      intro v' s'' h'
      cases signo with
      | none =>
          cases h'
          exact declared_write_one _ _ s ⟨reason, Or.inr (Or.inr (Or.inr (Or.inl rfl)))⟩
      | some n =>
          cases hc : lua_Number_to_int n with
          | none => simp only [hc] at h'; cases h'
          | some c =>
              simp only [hc] at h'
              cases h'
              exact declared_write_one _ _ s
                ⟨reason, Or.inr (Or.inr (Or.inr (Or.inr (Or.inl ⟨c, rfl⟩))))⟩
  | expect_timeout reason =>
      refine declare_ret_wrote s s' v h ?_
      intro v' s'' h'
      cases h'
      exact declared_write_one _ _ s ⟨reason, Or.inr (Or.inr (Or.inr (Or.inr (Or.inr rfl))))⟩
  | fail reason => exact (fail_not_ret _ _ _ _ h).elim
  | pass => exact (pass_not_ret _ _ _ h).elim
  | skip reason => exact (skip_not_ret _ _ _ _ h).elim
  | require_prog prog =>
      simp only [run_call, latf_require_prog] at h
      split at h
      · exact (fail_not_ret _ _ _ _ h).elim
      · split at h
        · split at h
          · exact (skip_not_ret _ _ _ _ h).elim
          · cases h; exact declared_writes_refl s
        · split at h
          · exact (skip_not_ret _ _ _ _ h).elim
          · cases h; exact declared_writes_refl s

/-- A native call that ends as a test outcome has made the writes of one terminal output. -/
theorem run_call_bail_wrote (c : Call) (s s' : State) (e : Int)
    (hopen : 0 ≤ s.tc_resfile_fd) (h : run_call c s = .bail e none s') :
    terminal_after_declarations s s' := by
  cases c with
  | get key =>
      simp only [run_call, latf_get, _latf_error, _latf_bail] at h
      repeat' split at h
      all_goals cases h
  | set args =>
      simp only [run_call, latf_set, _latf_error, _latf_bail, luaL_error] at h
      repeat' split at h
      all_goals cases h
  | check_equal args src line =>
      simp only [run_call, latf_check_equal, _latf_error, _latf_bail] at h
      split at h
      · split at h
        · exact fail_wrote _ s s' e hopen h
        · cases h
      · cases h
  | config_get key rest =>
      simp only [run_call, latf_config_get, _latf_error, _latf_bail] at h
      repeat' split at h
      all_goals cases h
  | config_has key =>
      simp only [run_call, latf_config_has] at h
      cases h
  | get_srcdir =>
      simp only [run_call, latf_get_srcdir, latf_config_get, _latf_error, _latf_bail] at h
      repeat' split at h
      all_goals cases h
  | expect_death reason =>
      refine declare_bail_wrote s s' e hopen h ?_
      intro e' s'' h'
      cases h'
  | expect_exit reason exitcode =>
      refine declare_bail_wrote s s' e hopen h ?_
      intro e' s'' h'
      cases exitcode with
      | none => cases h'
      | some n => cases hc : lua_Number_to_int n <;> (simp only [hc] at h'; cases h')
  | expect_fail reason =>
      refine declare_bail_wrote s s' e hopen h ?_
      intro e' s'' h'
      cases h'
  | expect_pass =>
      refine declare_bail_wrote s s' e hopen h ?_
      intro e' s'' h'
      cases h'
  | expect_signal reason signo =>
      refine declare_bail_wrote s s' e hopen h ?_
      intro e' s'' h'
      cases signo with
      | none => cases h'
      | some n => cases hc : lua_Number_to_int n <;> (simp only [hc] at h'; cases h')
  | expect_timeout reason =>
      refine declare_bail_wrote s s' e hopen h ?_
      intro e' s'' h'
      cases h'
  | fail reason => exact fail_wrote reason s s' e hopen h
  | pass => exact pass_wrote s s' e hopen h
  | skip reason => exact skip_wrote reason s s' e hopen h
  | require_prog prog =>
      simp only [run_call, latf_require_prog] at h
      split at h
      · exact fail_wrote _ s s' e hopen h
      · split at h
        · split at h
          · exact skip_wrote _ s s' e hopen h
          · cases h
        · split at h
          · exact skip_wrote _ s s' e hopen h
          · cases h

theorem run_calls_ret_wrote (cs : List Call) (s s' : State) (u : Unit)
    (h : run_calls cs s = .ret u s') : declared_writes s s' := by
  induction cs generalizing s with
  | nil =>
      simp only [run_calls, Outcome.ret.injEq] at h
      rw [← h.2]
      exact declared_writes_refl s
  | cons c rest ih =>
      simp only [run_calls] at h
      cases hc : run_call c s with
      | ret v s1 =>
          rw [hc] at h
          exact declared_writes_trans s s1 s' (run_call_ret_wrote c s s1 v hc) (ih s1 h)
      | bail e m s1 => rw [hc] at h; cases h
      | lua_error m s1 => rw [hc] at h; cases h
      | undefined => rw [hc] at h; cases h

theorem run_calls_bail_wrote (cs : List Call) (s s' : State) (e : Int)
    (hopen : 0 ≤ s.tc_resfile_fd) (h : run_calls cs s = .bail e none s') :
    terminal_after_declarations s s' := by
  induction cs generalizing s with
  | nil => simp [run_calls] at h
  | cons c rest ih =>
      simp only [run_calls] at h
      cases hc : run_call c s with
      | ret v s1 =>
          rw [hc] at h
          have hd := run_call_ret_wrote c s s1 v hc
          exact declared_then_terminal s s1 s' hd
            (ih s1 (by rw [hd.1]; exact hopen) h)
      | bail e1 m s1 =>
          rw [hc] at h
          simp only [Outcome.bind, Outcome.bail.injEq] at h
          obtain ⟨h1, h2, h3⟩ := h
          subst h1 h2 h3
          exact run_call_bail_wrote c s s1 e1 hopen hc
      | lua_error m s1 => rw [hc] at h; cases h
      | undefined => rw [hc] at h; cases h

theorem stub_body_wrote (s s' : State) (e : Int) (hopen : 0 ≤ s.tc_resfile_fd)
    (h : latf_tc_stub_body s = .bail e none s') : terminal_after_declarations s s' := by
  unfold latf_tc_stub_body at h
  cases hf : (_latf_fail "Test case not implemented" s : Outcome Unit) with
  | ret v s1 => exact (fail_not_ret _ _ _ _ hf).elim
  | bail e1 m s1 =>
      rw [hf] at h
      simp only [Outcome.bind, Outcome.bail.injEq] at h
      obtain ⟨h1, h2, h3⟩ := h
      subst h1 h2 h3
      exact fail_wrote _ s s1 e1 hopen hf
  | lua_error m s1 => rw [hf] at h; cases h
  | undefined => rw [hf] at h; cases h

theorem lua_call_ret_wrote (f : LuaField) (s s' : State) (u : Unit)
    (h : lua_call f s = .ret u s') : declared_writes s s' := by
  unfold lua_call at h
  split at h
  · simp only [latf_tc_stub_head, Outcome.ret.injEq] at h
    rw [← h.2]
    exact declared_writes_refl s
  · exact (stub_body_not_ret s s' u h).elim
  · exact run_calls_ret_wrote _ s s' u h
  · cases h
  · cases h

theorem lua_call_bail_wrote (f : LuaField) (s s' : State) (e : Int)
    (hopen : 0 ≤ s.tc_resfile_fd) (h : lua_call f s = .bail e none s') :
    terminal_after_declarations s s' := by
  unfold lua_call at h
  split at h
  · cases h
  · exact stub_body_wrote s s' e hopen h
  · exact run_calls_bail_wrote _ s s' e hopen h
  · cases h
  · cases h

/-- A method that returns has written declaration lines only. -/
theorem latf_tc_method_ret_wrote (tc : TestCase) (tc_ident method : String)
    (s s' : State) (u : Unit) (h : latf_tc_method tc tc_ident method s = .ret u s') :
    declared_writes s s' := by
  unfold latf_tc_method at h
  simp only at h
  split at h
  · split at h
    · cases h
      exact declared_writes_of_same _ _ rfl rfl
    · cases hb : latf_tc_stub_body
          { s with tc_executing := none, tc_method_executing := none } with
      | ret v s1 => exact (stub_body_not_ret _ _ _ hb).elim
      | bail e m s1 => rw [hb] at h; cases h
      | lua_error m s1 => rw [hb] at h; cases h
      | undefined => rw [hb] at h; cases h
  · cases hc : lua_call (tc.gettable method)
        { s with tc_executing := some tc_ident, tc_method_executing := some method } with
    | ret v s1 =>
        rw [hc] at h
        simp only [Outcome.bind, Outcome.ret.injEq] at h
        have h1 := lua_call_ret_wrote _ _ s1 v hc
        have h2 : declared_writes s
            { s with tc_executing := some tc_ident, tc_method_executing := some method } :=
          declared_writes_of_same _ _ rfl rfl
        have h3 : declared_writes s1
            { s1 with tc_executing := none, tc_method_executing := none } :=
          declared_writes_of_same _ _ rfl rfl
        rw [← h.2]
        exact declared_writes_trans _ _ _ (declared_writes_trans _ _ _ h2 h1) h3
    | bail e m s1 => rw [hc] at h; cases h
    | lua_error m s1 => rw [hc] at h; cases h
    | undefined => rw [hc] at h; cases h

/-- A method that ends as a test outcome has written declaration lines and
one terminal output. -/
theorem latf_tc_method_bail_wrote (tc : TestCase) (tc_ident method : String)
    (s s' : State) (e : Int) (hopen : 0 ≤ s.tc_resfile_fd)
    (h : latf_tc_method tc tc_ident method s = .bail e none s') :
    terminal_after_declarations s s' := by
  unfold latf_tc_method at h
  simp only at h
  split at h
  · split at h
    · cases h
    · cases hb : latf_tc_stub_body
          { s with tc_executing := none, tc_method_executing := none } with
      | ret v s1 => exact (stub_body_not_ret _ _ _ hb).elim
      | bail e1 m s1 =>
          rw [hb] at h
          simp only [Outcome.bind, Outcome.bail.injEq] at h
          obtain ⟨h1, h2, h3⟩ := h
          subst h1 h2 h3
          have := stub_body_wrote
            { s with tc_executing := none, tc_method_executing := none } s1 e1 hopen hb
          exact declared_then_terminal s _ s1
            (declared_writes_of_same _ _ rfl rfl) this
      | lua_error m s1 => rw [hb] at h; cases h
      | undefined => rw [hb] at h; cases h
  · cases hc : lua_call (tc.gettable method)
        { s with tc_executing := some tc_ident, tc_method_executing := some method } with
    | ret v s1 => rw [hc] at h; cases h
    | bail e1 m s1 =>
        rw [hc] at h
        simp only [Outcome.bind, Outcome.bail.injEq] at h
        obtain ⟨h1, h2, h3⟩ := h
        subst h1 h2 h3
        have := lua_call_bail_wrote (tc.gettable method)
          { s with tc_executing := some tc_ident, tc_method_executing := some method }
          s1 e1 hopen hc
        exact declared_then_terminal s _ s1
          (declared_writes_of_same _ _ rfl rfl) this
    | lua_error m s1 => rw [hc] at h; cases h
    | undefined => rw [hc] at h; cases h

theorem latf_tc_execute_ret_wrote (test method : String) (s s' : State)
    (h : latf_tc_execute test method s = .ret 0 s') : declared_writes s s' := by
  unfold latf_tc_execute at h
  split at h
  · simp [ENOENT] at h
  · rename_i i tc hreg
    cases hh : latf_tc_method tc test "head" s with
    | ret u s1 =>
        rw [hh] at h
        simp only [Outcome.bind] at h
        cases hm : latf_tc_method tc test method s1 with
        | ret u2 s2 =>
            rw [hm] at h
            simp only [Outcome.bind, Outcome.ret.injEq, true_and] at h
            rw [← h]
            exact declared_writes_trans s s1 s2
              (latf_tc_method_ret_wrote tc test "head" s s1 u hh)
              (latf_tc_method_ret_wrote tc test method s1 s2 u2 hm)
        | bail e m s2 => rw [hm] at h; cases h
        | lua_error m s2 => rw [hm] at h; cases h
        | undefined => rw [hm] at h; cases h
    | bail e m s1 => rw [hh] at h; cases h
    | lua_error m s1 => rw [hh] at h; cases h
    | undefined => rw [hh] at h; cases h

theorem latf_tc_execute_bail_wrote (test method : String) (s s' : State) (e : Int)
    (hopen : 0 ≤ s.tc_resfile_fd) (h : latf_tc_execute test method s = .bail e none s') :
    terminal_after_declarations s s' := by
  unfold latf_tc_execute at h
  split at h
  · cases h
  · rename_i i tc hreg
    cases hh : latf_tc_method tc test "head" s with
    | ret u s1 =>
        rw [hh] at h
        simp only [Outcome.bind] at h
        have hd := latf_tc_method_ret_wrote tc test "head" s s1 u hh
        cases hm : latf_tc_method tc test method s1 with
        | ret u2 s2 => rw [hm] at h; cases h
        | bail e1 m s2 =>
            rw [hm] at h
            simp only [Outcome.bind, Outcome.bail.injEq] at h
            obtain ⟨h1, h2, h3⟩ := h
            subst h1 h2 h3
            exact declared_then_terminal s s1 s2 hd
              (latf_tc_method_bail_wrote tc test method s1 s2 e1
                (by rw [hd.1]; exact hopen) hm)
        | lua_error m s2 => rw [hm] at h; cases h
        | undefined => rw [hm] at h; cases h
    | bail e1 m s1 =>
        rw [hh] at h
        simp only [Outcome.bind, Outcome.bail.injEq] at h
        obtain ⟨h1, h2, h3⟩ := h
        subst h1 h2 h3
        exact latf_tc_method_bail_wrote tc test "head" s s1 e1 hopen hh
    | lua_error m s1 => rw [hh] at h; cases h
    | undefined => rw [hh] at h; cases h


theorem head_of_left (a b : String) (c : Char) (h : a.data.head? = some c) :
    (a ++ b).data.head? = some c := by
  rw [String.data_append]
  cases hd : a.data with
  | nil => simp [hd] at h
  | cons x xs =>
      simp only [hd, List.head?_cons, Option.some.injEq] at h
      simp [h]

theorem last_of_right (a b : String) (c : Char) (h : b.data.getLast? = some c) :
    (a ++ b).data.getLast? = some c := by
  rw [String.data_append, List.getLast?_append, h]
  rfl

theorem declaration_head (d : String) (h : is_declaration d) :
    d.data.head? = "e".data.head? := by
  obtain ⟨r, h | h | ⟨c, h⟩ | h | ⟨n, h⟩ | h⟩ := h <;> subst h
  · exact head_of_left _ _ _ (head_of_left _ _ _ rfl)
  · exact head_of_left _ _ _ (head_of_left _ _ _ rfl)
  · exact head_of_left _ _ _
      (head_of_left _ _ _ (head_of_left _ _ _ (head_of_left _ _ _ rfl)))
  · exact head_of_left _ _ _ (head_of_left _ _ _ rfl)
  · exact head_of_left _ _ _
      (head_of_left _ _ _ (head_of_left _ _ _ (head_of_left _ _ _ rfl)))
  · exact head_of_left _ _ _ (head_of_left _ _ _ rfl)

theorem declaration_last (d : String) (h : is_declaration d) :
    d.data.getLast? = "\n".data.getLast? := by
  obtain ⟨r, h | h | ⟨c, h⟩ | h | ⟨n, h⟩ | h⟩ := h <;> subst h <;>
    exact last_of_right _ _ _ rfl

/-- The write of a declaration line is not the first write of a terminal
output: it starts with `expected_` and ends with a newline. -/
theorem declaration_not_opening (d : String) (h : is_declaration d) : ¬ opens_terminal d := by
  have hh := declaration_head d h
  have hl := declaration_last d h
  rintro (e | e | e | ⟨r, e⟩)
  · rw [e] at hh; revert hh; decide
  · rw [e] at hh; revert hh; decide
  · rw [e] at hh; revert hh; decide
  · rw [e, last_of_right _ ": " _ rfl] at hl
    revert hl; decide

theorem terminal_writes_output (tw : List String) (h : terminal_writes tw) :
    is_terminal_output (concat_lines tw) := by
  rcases h with h | ⟨m, h⟩ | ⟨r, m, h⟩ | ⟨m, h⟩ <;> subst h
  · exact Or.inl rfl
  · exact Or.inr (Or.inl ⟨m, by simp [concat_lines, String.append_assoc]⟩)
  · exact Or.inr (Or.inr (Or.inl ⟨r, m, by simp [concat_lines, String.append_assoc]⟩))
  · exact Or.inr (Or.inr (Or.inr ⟨m, by simp [concat_lines]⟩))

theorem execute_wrote (test method : String) (s s' : State)
    (hopen : 0 ≤ s.tc_resfile_fd)
    (hout : is_test_outcome (latf_execute test method s) s') :
    terminal_after_declarations s s' := by
  cases hx : latf_tc_execute test method s with
  | ret error s1 =>
      have hz := latf_tc_execute_ret_zero test method s s1 error hx
      rcases hz with hz | hz
      · subst hz
        have hd := latf_tc_execute_ret_wrote test method s s1 hx
        have hopen1 : 0 ≤ s1.tc_resfile_fd := by rw [hd.1]; exact hopen
        by_cases hp : s1.latf_tc_expected = .TCE_PASS
        · have hrun : latf_execute test method s =
              .ret 0 (_latf_write_result "passed\n" s1) := by
            simp [latf_execute, hx, Outcome.bind, validate_in_pass s1 hp]
          have hs' : s' = _latf_write_result "passed\n" s1 := by
            rcases hout with h | ⟨e, h⟩
            · rw [hrun] at h
              simp only [Outcome.ret.injEq, true_and] at h
              exact h.symm
            · rw [hrun] at h
              cases h
          rw [hs']
          refine declared_then_terminal s s1 _ hd
            (terminal_writes_alone s1 _ ["passed\n"] ?_ (Or.inl rfl))
          unfold wrote
          simp [write_written, hopen1]
        · obtain ⟨s2, m, h1, -⟩ := validate_violation s1 hopen1 hp
          have hrun : latf_execute test method s = .bail 1 none s2 := by
            simp [latf_execute, hx, Outcome.bind, h1]
          have hs' : s' = s2 := by
            rcases hout with h | ⟨e, h⟩
            · rw [hrun] at h
              cases h
            · rw [hrun] at h
              simp only [Outcome.bail.injEq, true_and] at h
              exact h.2.symm
          rw [hs']
          exact declared_then_terminal s s1 s2 hd (validate_wrote s1 s2 1 none hopen1 h1).2
      · have hrun : latf_execute test method s = .ret ENOENT s1 := by
          simp [latf_execute, hx, Outcome.bind, hz, ENOENT]
        rcases hout with h | ⟨e, h⟩
        · rw [hrun] at h
          simp [ENOENT] at h
        · rw [hrun] at h
          cases h
  | bail e1 m s1 =>
      have hrun : latf_execute test method s = .bail e1 m s1 := by
        simp [latf_execute, hx, Outcome.bind]
      rcases hout with h | ⟨e, h⟩
      · rw [hrun] at h
        cases h
      · rw [hrun] at h
        simp only [Outcome.bail.injEq] at h
        obtain ⟨h1, h2, h3⟩ := h
        subst h1 h2 h3
        exact latf_tc_execute_bail_wrote test method s s1 e1 hopen hx
  | lua_error m s1 =>
      have hrun : latf_execute test method s = .lua_error m s1 := by
        simp [latf_execute, hx, Outcome.bind]
      rcases hout with h | ⟨e, h⟩ <;> (rw [hrun] at h; cases h)
  | undefined =>
      have hrun : latf_execute test method s = .undefined := by
        simp [latf_execute, hx, Outcome.bind]
      rcases hout with h | ⟨e, h⟩ <;> (rw [hrun] at h; cases h)

/-- C16: for every test case whose head and requested method are scripts of
native calls (or the stubs), if `execute` ends with a test outcome, a return
of 0 or an exit through `_latf_finish`, not a fatal error, then the writes made
to the result sink during the execution are, in this order and with no other
write before, between or after them: zero or more writes of one
expectation-declaration line each, none of which opens a terminal output, and
then the writes of exactly one terminal output (the one write of `passed`, the
three writes of `failed: ...` or `expected_failure: ...`, the two writes of
`skipped: ...`).  Hence the bytes appended are the declaration lines followed
by that terminal output. -/
theorem one_terminal_output (test method : String) (s s' : State)
    (hopen : 0 ≤ s.tc_resfile_fd)
    (hout : is_test_outcome (latf_execute test method s) s') :
    ∃ decls tw : List String,
      wrote s s' (decls ++ tw) ∧
      (∀ d ∈ decls, is_declaration d ∧ ¬ opens_terminal d) ∧
      terminal_writes tw ∧
      appended s s' (concat_lines decls ++ concat_lines tw) ∧
      is_terminal_output (concat_lines tw) := by
  obtain ⟨decls, tw, h1, h2, h3⟩ := execute_wrote test method s s' hopen hout
  refine ⟨decls, tw, h1, fun d hd => ⟨h2 d hd, declaration_not_opening d (h2 d hd)⟩, h3, ?_,
    terminal_writes_output tw h3⟩
  rw [← concat_lines_append]
  exact appended_of_wrote s s' _ h1

theorem one_terminal_output_witness :
    ((0 : Int) ≤ sample_registered.tc_resfile_fd ∧
      is_test_outcome (latf_execute "case" "body" sample_registered)
        ((latf_execute "case" "body" sample_registered).final_state sample_registered)) ∧
    ∃ decls tw : List String,
      wrote sample_registered
        ((latf_execute "case" "body" sample_registered).final_state sample_registered)
        (decls ++ tw) ∧
      (∀ d ∈ decls, is_declaration d ∧ ¬ opens_terminal d) ∧
      terminal_writes tw ∧
      appended sample_registered
        ((latf_execute "case" "body" sample_registered).final_state sample_registered)
        (concat_lines decls ++ concat_lines tw) ∧
      is_terminal_output (concat_lines tw) :=
  ⟨⟨by decide, Or.inr ⟨1, by decide⟩⟩,
    one_terminal_output "case" "body" sample_registered
      ((latf_execute "case" "body" sample_registered).final_state sample_registered)
      (by decide) (Or.inr ⟨1, by decide⟩)⟩


/-! ## Registration -/

theorem store_table_own (built : TestCase) (tcs : List TestCase)
    (h : ∀ tc ∈ tcs, tc.addr ≠ built.addr) : store_table built tcs = tcs := by
  unfold store_table
  induction tcs with
  | nil => rfl
  | cons tc rest ih =>
      have h1 : tc.addr ≠ built.addr := h tc (List.mem_cons_self tc rest)
      have h2 := ih fun x hx => h x (List.mem_cons_of_mem tc hx)
      simp only [List.map_cons, if_neg h1, h2]

theorem new_table_addr (ident : String) (inherit : Option TestCase) (t : TestCase) :
    (latf_tc_new_table ident inherit t).1.addr = t.addr := by
  cases inherit with
  | none => rw [new_table_eq_none]
  | some p => rw [new_table_eq]

/-- On a definition table that is not in the registry, `latf_tc_new` changes
the registry by the registration alone. -/
theorem latf_tc_new_own (ident : String) (inherit : Option TestCase) (t : TestCase)
    (s : State) (hown : ∀ tc ∈ s.atf_tcs, tc.addr ≠ t.addr) :
    latf_tc_new ident inherit t s =
      if (latf_tc_new_table ident inherit t).2 then
        if (latf_tc_get ident s.atf_tcs).isSome then
          luaL_error ("double registered '" ++ ident ++ "'") s
        else
          .ret (latf_tc_new_table ident inherit t).1
            { s with atf_tcs := s.atf_tcs ++ [(latf_tc_new_table ident inherit t).1] }
      else
        .ret (latf_tc_new_table ident inherit t).1 s := by
  have hst : store_table (latf_tc_new_table ident inherit t).1 s.atf_tcs = s.atf_tcs :=
    store_table_own _ _ (by rw [new_table_addr]; exact hown)
  unfold latf_tc_new
  simp only [hst]

/-- C8 fails on the code: the table at address 1 is registered as `a` and no
entry has the ident `b`; building it again as `b`, with `atf_auto` true, does
not succeed but raises `double registered 'b'`, and the registry is not as it
was: its entry, the same table, now has the ident `b`. -/
theorem register_with_auto_counterexample :
    lua_toboolean table_a.atf_auto = true ∧
    registered_a.atf_tcs = [table_a] ∧
    registered_a.idents = ["a"] ∧
    latf_tc_get "b" registered_a.atf_tcs = none ∧
    latf_tc_new "b" (some latf_tc_obj) table_a registered_a =
      .lua_error "double registered 'b'"
        { registered_a with atf_tcs := [{ table_a with _atf_ident := "b" }] } ∧
    [{ table_a with _atf_ident := "b" }] ≠ registered_a.atf_tcs := by
  decide

/-- C8, amended: registering with auto true (the field `atf_auto` unset or
true) a definition table that is not itself an entry of the registry.  If some
definition in the registry already has the same ident, the build fails with
the error `double registered '<ident>'` and the state, hence the registry with
its entries and their order, is exactly as it was; otherwise the build succeeds
and the new registry is the old one with the new definition appended at the
end. -/
theorem register_with_auto (ident : String) (inherit : Option TestCase) (t : TestCase)
    (s : State) (hauto : t.atf_auto = .nil ∨ lua_toboolean t.atf_auto = true)
    (hown : ∀ tc ∈ s.atf_tcs, tc.addr ≠ t.addr) :
    ((∃ tc ∈ s.atf_tcs, tc._atf_ident = ident) →
      latf_tc_new ident inherit t s =
        .lua_error ("double registered '" ++ ident ++ "'") s) ∧
    ((∀ tc ∈ s.atf_tcs, tc._atf_ident ≠ ident) →
      ∃ tc', latf_tc_new ident inherit t s =
          .ret tc' { s with atf_tcs := s.atf_tcs ++ [tc'] } ∧
        tc'._atf_ident = ident ∧ tc' = (latf_tc_new_table ident inherit t).1) := by
  have hreg : (latf_tc_new_table ident inherit t).2 = true := by
    rw [new_table_doreg]
    rcases hauto with h | h
    · simp [h]
    · simp [h]
  rw [latf_tc_new_own ident inherit t s hown]
  constructor
  · intro hdup
    have hsome : (latf_tc_get ident s.atf_tcs).isSome = true := by
      cases hg : latf_tc_get ident s.atf_tcs with
      | some p => rfl
      | none =>
          obtain ⟨tc, hmem, hid⟩ := hdup
          exact absurd hid ((latf_tc_get_none_iff ident s.atf_tcs).1 hg tc hmem)
    simp [hreg, hsome, luaL_error]
  · intro hnew
    have hget : latf_tc_get ident s.atf_tcs = none :=
      (latf_tc_get_none_iff ident s.atf_tcs).2 hnew
    exact ⟨(latf_tc_new_table ident inherit t).1, by simp [hreg, hget],
      new_table_ident ident inherit t, rfl⟩

theorem register_with_auto_witness :
    (((own_table 2).atf_auto = .nil ∨ lua_toboolean (own_table 2).atf_auto = true) ∧
      (∀ tc ∈ registered_a.atf_tcs, tc.addr ≠ (own_table 2).addr) ∧
      ∃ tc ∈ registered_a.atf_tcs, tc._atf_ident = "a") ∧
    latf_tc_new "a" (some latf_tc_obj) (own_table 2) registered_a =
      .lua_error ("double registered '" ++ "a" ++ "'") registered_a :=
  ⟨⟨Or.inl rfl, by decide, by decide⟩,
    (register_with_auto "a" (some latf_tc_obj) (own_table 2) registered_a
      (Or.inl rfl) (by decide)).1 (by decide)⟩


/-- A build whose own `atf_auto` is false returns its table; it has written the
table in place and registered nothing. -/
theorem build_without_auto (ident : String) (inherit : Option TestCase) (t : TestCase)
    (s : State) (h : t.atf_auto = .boolean false) :
    latf_tc_new ident inherit t s =
      .ret (latf_tc_new_table ident inherit t).1
        { s with atf_tcs := store_table (latf_tc_new_table ident inherit t).1 s.atf_tcs } := by
  have hreg : (latf_tc_new_table ident inherit t).2 = false := by
    rw [new_table_doreg]
    simp [h, lua_toboolean]
  simp [latf_tc_new, hreg]

/-- C9 fails on the code: the table at address 1 is registered as `a` and the
script has then set its `atf_auto` to false; building it again as `b` succeeds,
but the registry is not left unchanged: its entry, the same table, now has the
ident `b`. -/
theorem registration_by_own_auto_counterexample :
    registered_a_opted_out.atf_tcs = [table_a_opted_out] ∧
    registered_a_opted_out.idents = ["a"] ∧
    table_a_opted_out.atf_auto = .boolean false ∧
    latf_tc_new "b" (some latf_tc_obj) table_a_opted_out registered_a_opted_out =
      .ret { table_a_opted_out with _atf_ident := "b" }
        { registered_a_opted_out with
          atf_tcs := [{ table_a_opted_out with _atf_ident := "b" }] } ∧
    [{ table_a_opted_out with _atf_ident := "b" }] ≠ registered_a_opted_out.atf_tcs := by
  decide

/-- C9, amended: whether a build registers its definition depends only on the
author's own `atf_auto` field: the local `doreg` is the supplied boolean, or
true when the field is unset, whatever the parent is, so a child that omits
`atf_auto` under a parent with `atf_auto = false` is registered.  When the
field is false the build succeeds without the duplicate-registration error,
for every ident, also one that is registered already; and it leaves the state
and with it the registry unchanged when the definition table is not itself an
entry of the registry, also for any number of such builds in a row. -/
theorem registration_by_own_auto (ident : String) (inherit inherit' : Option TestCase)
    (t : TestCase) (s : State) :
    (∀ b : Bool, t.atf_auto = .boolean b → (latf_tc_new_table ident inherit t).2 = b) ∧
    (t.atf_auto = .nil → (latf_tc_new_table ident inherit t).2 = true) ∧
    (latf_tc_new_table ident inherit t).2 = (latf_tc_new_table ident inherit' t).2 ∧
    (∀ p : TestCase, p.atf_auto = .boolean false → t.atf_auto = .nil →
      (∀ tc ∈ s.atf_tcs, tc.addr ≠ t.addr) →
      (∀ tc ∈ s.atf_tcs, tc._atf_ident ≠ ident) →
      ∃ tc', latf_tc_new ident (some p) t s =
          .ret tc' { s with atf_tcs := s.atf_tcs ++ [tc'] } ∧
        tc'._atf_ident = ident) ∧
    (t.atf_auto = .boolean false →
      ∃ tc' s', latf_tc_new ident inherit t s = .ret tc' s' ∧
        ((∀ tc ∈ s.atf_tcs, tc.addr ≠ t.addr) → s' = s)) ∧
    (∀ bs : List Build,
      (∀ b ∈ bs, b.t.atf_auto = .boolean false ∧ ∀ tc ∈ s.atf_tcs, tc.addr ≠ b.t.addr) →
      run_builds bs s = s) := by
  refine ⟨?_, ?_, ?_, ?_, ?_, ?_⟩
  · intro b hb
    rw [new_table_doreg]
    simp [hb, lua_toboolean]
  · intro hn
    rw [new_table_doreg]
    simp [hn]
  · rw [new_table_doreg, new_table_doreg]
  · intro p _ hn hown hnew
    have hreg : (latf_tc_new_table ident (some p) t).2 = true := by
      rw [new_table_doreg]
      simp [hn]
    have hget : latf_tc_get ident s.atf_tcs = none :=
      (latf_tc_get_none_iff ident s.atf_tcs).2 hnew
    exact ⟨(latf_tc_new_table ident (some p) t).1,
      by rw [latf_tc_new_own ident (some p) t s hown]; simp [hreg, hget],
      new_table_ident ident (some p) t⟩
  · intro hf
    refine ⟨_, _, build_without_auto ident inherit t s hf, ?_⟩
    intro hown
    rw [store_table_own _ _ (by rw [new_table_addr]; exact hown)]
  · intro bs
    induction bs with
    | nil => intro _; rfl
    | cons b rest ih =>
        intro hall
        obtain ⟨hb, hown⟩ := hall b (List.mem_cons_self b rest)
        have hstep : run_build s b = s := by
          rw [run_build, build_without_auto b.ident b.inherit b.t s hb,
            store_table_own _ _ (by rw [new_table_addr]; exact hown)]
          rfl
        have hrest := ih fun b' hb' => hall b' (List.mem_cons_of_mem b hb')
        simp only [run_builds, List.foldl_cons, hstep] at hrest ⊢
        exact hrest

theorem registration_by_own_auto_witness :
    (({ own_table 2 with atf_auto := .boolean false } : TestCase).atf_auto = .boolean false ∧
      ∀ tc ∈ registered_a.atf_tcs,
        tc.addr ≠ ({ own_table 2 with atf_auto := .boolean false } : TestCase).addr) ∧
    ∃ tc' s', latf_tc_new "a" (some latf_tc_obj) { own_table 2 with atf_auto := .boolean false }
        registered_a = .ret tc' s' ∧
      ((∀ tc ∈ registered_a.atf_tcs,
        tc.addr ≠ ({ own_table 2 with atf_auto := .boolean false } : TestCase).addr) →
          s' = registered_a) :=
  ⟨⟨rfl, by decide⟩,
    (registration_by_own_auto "a" (some latf_tc_obj) none
      { own_table 2 with atf_auto := .boolean false } registered_a).2.2.2.2.1 rfl⟩


/-- One build on a table that the registry does not hold leaves the state as
it is, or appends the built table under an ident that no entry had. -/
theorem run_build_own (s : State) (b : Build)
    (hown : ∀ tc ∈ s.atf_tcs, tc.addr ≠ b.t.addr) :
    run_build s b = s ∨
      (latf_tc_get b.ident s.atf_tcs = none ∧
        run_build s b =
          { s with atf_tcs := s.atf_tcs ++ [(latf_tc_new_table b.ident b.inherit b.t).1] }) := by
  unfold run_build
  rw [latf_tc_new_own b.ident b.inherit b.t s hown]
  by_cases hreg : (latf_tc_new_table b.ident b.inherit b.t).2 = true
  · cases hg : latf_tc_get b.ident s.atf_tcs with
    | some p =>
        left
        simp [hreg, luaL_error, Outcome.final_state]
    | none =>
        right
        exact ⟨rfl, by simp [hreg, Outcome.final_state]⟩
  · left
    simp [hreg, Outcome.final_state]

/-- Builds on tables of their own, none of them in the registry and no two of
them the same table, keep the idents of the registry pairwise distinct. -/
theorem run_builds_nodup (bs : List Build) (s : State) (h : s.idents.Nodup)
    (hown : ∀ b ∈ bs, ∀ tc ∈ s.atf_tcs, tc.addr ≠ b.t.addr)
    (hnd : (bs.map fun b => b.t.addr).Nodup) :
    (run_builds bs s).idents.Nodup := by
  induction bs generalizing s with
  | nil => simpa [run_builds] using h
  | cons b rest ih =>
      simp only [run_builds, List.foldl_cons]
      simp only [List.map_cons, List.nodup_cons, List.mem_map, not_exists, not_and] at hnd
      obtain ⟨hb, hrest⟩ := hnd
      have hownb := hown b (List.mem_cons_self b rest)
      rcases run_build_own s b hownb with hs | ⟨hget, hs⟩
      · rw [hs]
        exact ih s h (fun b' hb' => hown b' (List.mem_cons_of_mem b hb')) hrest
      · rw [hs]
        refine ih _ ?_ ?_ hrest
        · have hnew := (latf_tc_get_none_iff b.ident s.atf_tcs).1 hget
          simp only [State.idents, List.map_append, List.map_cons, List.map_nil,
            new_table_ident]
          rw [List.nodup_append]
          refine ⟨h, List.nodup_singleton _, ?_⟩
          intro x hx hx'
          simp only [List.mem_singleton] at hx'
          subst hx'
          simp only [List.mem_map] at hx
          obtain ⟨tc, hmem, hid⟩ := hx
          exact hnew tc hmem hid
        · intro b' hb' tc htc
          simp only [List.mem_append, List.mem_singleton] at htc
          rcases htc with htc | htc
          · exact hown b' (List.mem_cons_of_mem b hb') tc htc
          · rw [htc, new_table_addr]
            intro hbad
            exact hb b' hb' hbad.symm

/-- With pairwise distinct idents at most one entry matches a name. -/
theorem at_most_one_match (name : String) (tcs : List TestCase)
    (h : (tcs.map fun tc => tc._atf_ident).Nodup) :
    (tcs.filter fun tc => latf_tc_get_cb name tc).length ≤ 1 := by
  induction tcs with
  | nil => simp
  | cons tc rest ih =>
      simp only [List.map_cons, List.nodup_cons, List.mem_map, not_exists, not_and] at h
      obtain ⟨hnot, hrest⟩ := h
      by_cases hc : tc._atf_ident = name
      · have hnone : rest.filter (fun tc => latf_tc_get_cb name tc) = [] := by
          rw [List.filter_eq_nil_iff]
          intro x hx
          simp only [latf_tc_get_cb, decide_eq_true_eq]
          intro hxn
          exact hnot x hx (by rw [hxn, hc])
        simp [List.filter_cons, latf_tc_get_cb, hc]
        simpa [latf_tc_get_cb] using hnone
      · simpa [List.filter_cons, latf_tc_get_cb, hc] using ih hrest

/-- C10 fails on the code: from the empty registry, the script builds the table
at address 1 as `a` and the table at address 2 as `b`, both registered, and
then builds the table at address 1 again as `b`.  With its `atf_auto` set to
false that build succeeds, with `atf_auto` true it raises `double registered`;
either way the table, which the registry holds, has taken the ident `b`, so
two entries have the ident `b` and a lookup of `b` matches both. -/
theorem registry_idents_unique_counterexample :
    (run_builds
        [⟨"a", some latf_tc_obj, own_table 1⟩, ⟨"b", some latf_tc_obj, own_table 2⟩,
          ⟨"b", some latf_tc_obj, table_a_opted_out⟩]
        (luaopen_atf (sample_state .TCE_PASS none 1))).idents = ["b", "b"] ∧
    (run_builds
        [⟨"a", some latf_tc_obj, own_table 1⟩, ⟨"b", some latf_tc_obj, own_table 2⟩,
          ⟨"b", some latf_tc_obj, table_a⟩]
        (luaopen_atf (sample_state .TCE_PASS none 1))).idents = ["b", "b"] ∧
    ((run_builds
        [⟨"a", some latf_tc_obj, own_table 1⟩, ⟨"b", some latf_tc_obj, own_table 2⟩,
          ⟨"b", some latf_tc_obj, table_a⟩]
        (luaopen_atf (sample_state .TCE_PASS none 1))).atf_tcs.filter
      fun tc => latf_tc_get_cb "b" tc).length = 2 := by
  decide

/-- C10, amended: registry uniqueness.  Starting from the empty registry that
`luaopen_atf` creates, after every finite sequence of builds, each on a
definition table of its own that no other build of the sequence is given (any
idents, any parents, any auto values, each build made whether the ones before
it succeeded or failed), the idents of the registered definitions are pairwise
distinct, so at most one entry matches a lookup by ident. -/
theorem registry_idents_unique (bs : List Build) (s0 : State)
    (hown : (bs.map fun b => b.t.addr).Nodup) :
    (run_builds bs (luaopen_atf s0)).idents.Nodup ∧
    ∀ name : String,
      ((run_builds bs (luaopen_atf s0)).atf_tcs.filter
        fun tc => latf_tc_get_cb name tc).length ≤ 1 := by
  have h : (run_builds bs (luaopen_atf s0)).idents.Nodup :=
    run_builds_nodup bs (luaopen_atf s0) (by simp [luaopen_atf, State.idents])
      (fun _ _ tc htc => by simp [luaopen_atf] at htc) hown
  exact ⟨h, fun name => at_most_one_match name _ h⟩

theorem registry_idents_unique_witness :
    (([⟨"a", some latf_tc_obj, own_table 1⟩, ⟨"a", some latf_tc_obj, own_table 2⟩,
        ⟨"b", none, own_table 3⟩] : List Build).map fun b => b.t.addr).Nodup ∧
    (run_builds
        [⟨"a", some latf_tc_obj, own_table 1⟩, ⟨"a", some latf_tc_obj, own_table 2⟩,
          ⟨"b", none, own_table 3⟩]
        (luaopen_atf (sample_state .TCE_PASS none 1))).idents.Nodup :=
  ⟨by decide,
    (registry_idents_unique
      [⟨"a", some latf_tc_obj, own_table 1⟩, ⟨"a", some latf_tc_obj, own_table 2⟩,
        ⟨"b", none, own_table 3⟩]
      (sample_state .TCE_PASS none 1) (by decide)).1⟩


/-! ## Lineages of the default test case -/

theorem latf_tc_get_append_new (name : String) (tcs : List TestCase) (d : TestCase)
    (hfresh : ∀ tc ∈ tcs, tc._atf_ident ≠ name) (hd : d._atf_ident = name) :
    latf_tc_get name (tcs ++ [d]) = some (tcs.length, d) := by
  induction tcs with
  | nil => simp [latf_tc_get, latf_tc_get_cb, hd]
  | cons tc rest ih =>
      have h1 : ¬ tc._atf_ident = name := hfresh tc (List.mem_cons_self tc rest)
      have h2 := ih fun x hx => hfresh x (List.mem_cons_of_mem tc hx)
      simp [latf_tc_get, latf_tc_get_cb, h1, h2]

/-- Running the body of a registered definition that has the two stubs. -/
theorem execute_stubs (name : String) (s : State) (i : Nat) (d : TestCase)
    (hopen : 0 ≤ s.tc_resfile_fd) (hpass : s.latf_tc_expected = .TCE_PASS)
    (hreg : latf_tc_get name s.atf_tcs = some (i, d))
    (hhead : d.head = .fn .latf_tc_stub_head) (hbody : d.body = .fn .latf_tc_stub_body) :
    ∃ s', latf_execute name "body" s = .bail 1 none s' ∧
      appended s s' "failed: Test case not implemented\n" := by
  obtain ⟨s', h1, h2, -⟩ := @fail_in_pass Unit "Test case not implemented"
    { s with tc_executing := some name, tc_method_executing := some "body" } hopen hpass
  refine ⟨s', ?_, appended_congr _ s s' _ rfl rfl h2⟩
  simp [latf_execute, latf_tc_execute, hreg, latf_tc_method, gettable_head, gettable_body,
    hhead, hbody, lua_call, latf_tc_stub_head, latf_tc_stub_body, Outcome.bind, h1]

/-- A build that registers and returns has put its table last in the registry,
where a lookup of its ident finds it. -/
theorem registered_build_found (ident : String) (inherit : Option TestCase) (t d : TestCase)
    (s s1 : State) (hreg : (latf_tc_new_table ident inherit t).2 = true)
    (h : latf_tc_new ident inherit t s = .ret d s1) :
    ∃ i, latf_tc_get ident s1.atf_tcs = some (i, d) := by
  unfold latf_tc_new at h
  simp only [hreg, if_true] at h
  cases hg : latf_tc_get ident
      (store_table (latf_tc_new_table ident inherit t).1 s.atf_tcs) with
  | some p =>
      rw [hg] at h
      simp [luaL_error] at h
  | none =>
      rw [hg] at h
      simp only [Option.isSome_none, Bool.false_eq_true, if_false, Outcome.ret.injEq] at h
      obtain ⟨hd, hs⟩ := h
      subst hd hs
      exact ⟨_, latf_tc_get_append_new ident _ _
        ((latf_tc_get_none_iff ident _).1 hg) (new_table_ident ident inherit t)⟩

/-- The lineage invariant: every table built has the head and the body of the
table the lineage starts from, and the last table, which registers itself, is
what a lookup of its ident finds. -/
theorem lineage_aux (l : List (String × TestCase)) (last : String × TestCase)
    (parent d : TestCase) (s s1 : State)
    (hnone : ∀ x ∈ l ++ [last], x.2.head = .nil ∧ x.2.body = .nil)
    (hbuilt : build_lineage parent (l ++ [last]) s = .ret d s1)
    (hauto : last.2.atf_auto = .nil ∨ lua_toboolean last.2.atf_auto = true) :
    d.head = parent.head ∧ d.body = parent.body ∧
      ∃ i, latf_tc_get last.1 s1.atf_tcs = some (i, d) := by
  induction l generalizing parent s with
  | nil =>
      obtain ⟨ident, t⟩ := last
      have hx := hnone (ident, t) (by simp)
      simp only at hx hauto
      have hreg : (latf_tc_new_table ident (some parent) t).2 = true := by
        rw [new_table_doreg]
        rcases hauto with h | h <;> simp [h]
      simp only [List.nil_append, build_lineage, latf_tc_ident] at hbuilt
      cases hn : latf_tc_new ident (some parent) t s with
      | ret d0 s0 =>
          rw [hn] at hbuilt
          simp only [Outcome.bind, Outcome.ret.injEq] at hbuilt
          obtain ⟨hd, hs⟩ := hbuilt
          subst hd hs
          obtain ⟨hd0, -⟩ := latf_tc_new_ret ident (some parent) t s s0 d0 hn
          refine ⟨?_, ?_, registered_build_found ident (some parent) t d0 s s0 hreg hn⟩
          · rw [hd0, new_table_eq]
            simp [hx.1]
          · rw [hd0, new_table_eq]
            simp [hx.2]
      | bail e m s0 => rw [hn] at hbuilt; cases hbuilt
      | lua_error m s0 => rw [hn] at hbuilt; cases hbuilt
      | undefined => rw [hn] at hbuilt; cases hbuilt
  | cons x rest ih =>
      obtain ⟨ident, t⟩ := x
      have hx := hnone (ident, t) (by simp)
      simp only at hx
      simp only [List.cons_append, build_lineage, latf_tc_ident] at hbuilt
      cases hn : latf_tc_new ident (some parent) t s with
      | ret d0 s0 =>
          rw [hn] at hbuilt
          simp only [Outcome.bind] at hbuilt
          obtain ⟨hd0, -⟩ := latf_tc_new_ret ident (some parent) t s s0 d0 hn
          have hd : d0.head = parent.head ∧ d0.body = parent.body := by
            rw [hd0, new_table_eq]
            simp [hx.1, hx.2]
          obtain ⟨h1, h2, h3⟩ :=
            ih d0 s0 (fun y hy => hnone y (List.mem_cons_of_mem _ hy)) hbuilt
          exact ⟨h1.trans hd.1, h2.trans hd.2, h3⟩
      | bail e m s0 => rw [hn] at hbuilt; cases hbuilt
      | lua_error m s0 => rw [hn] at hbuilt; cases hbuilt
      | undefined => rw [hn] at hbuilt; cases hbuilt

/-- C13 fails on the code: the lineage of the one definition `a`, built from
the default `TestCase` with a table that supplies neither `head` nor `body`
and has `atf_auto = false`, is built but not registered, so
`execute("a", "body")` started in state Pass returns `ENOENT` with the state
as it was: nothing is appended and there is no exit with code 1. -/
theorem lineage_not_implemented_counterexample :
    (unregistered_table 1).head = .nil ∧ (unregistered_table 1).body = .nil ∧
    build_lineage latf_tc_obj [("a", unregistered_table 1)] (sample_state .TCE_PASS none 1) =
      .ret (latf_tc_new_table "a" (some latf_tc_obj) (unregistered_table 1)).1
        (sample_state .TCE_PASS none 1) ∧
    (sample_state .TCE_PASS none 1).latf_tc_expected = .TCE_PASS ∧
    latf_execute "a" "body" (sample_state .TCE_PASS none 1) =
      .ret ENOENT (sample_state .TCE_PASS none 1) ∧
    atf_lua_panic (latf_execute "a" "body" (sample_state .TCE_PASS none 1)) = none := by
  decide

/-- C13, amended: for every lineage of one or more definitions in which the
first is built from a table `p` and each further one by calling the one before
it, none of them supplying `head` or `body`, and the last of which registers
itself (`atf_auto` unset or true): the table built last has the head and the
body of `p`, inherited through the chain, and it is the entry that a lookup of
its ident finds.  With the default `TestCase` as `p` these are the no-op head
and the not-implemented body, and `execute(ident of the last, "body")` started
in state Pass appends exactly `failed: Test case not implemented` and a
newline to the result sink and leaves with exit code 1. -/
theorem lineage_not_implemented (p : TestCase) (l : List (String × TestCase))
    (last : String × TestCase) (s s1 : State) (d : TestCase)
    (hnone : ∀ x ∈ l ++ [last], x.2.head = .nil ∧ x.2.body = .nil)
    (hbuilt : build_lineage p (l ++ [last]) s = .ret d s1)
    (hauto : last.2.atf_auto = .nil ∨ lua_toboolean last.2.atf_auto = true)
    (hopen : 0 ≤ s1.tc_resfile_fd) (hpass : s1.latf_tc_expected = .TCE_PASS) :
    d.head = p.head ∧ d.body = p.body ∧
    (∃ i, latf_tc_get last.1 s1.atf_tcs = some (i, d)) ∧
    (p = latf_tc_obj →
      d.head = .fn .latf_tc_stub_head ∧ d.body = .fn .latf_tc_stub_body ∧
      ∃ s', latf_execute last.1 "body" s1 = .bail 1 none s' ∧
        atf_lua_panic (latf_execute last.1 "body" s1) = some 1 ∧
        appended s1 s' "failed: Test case not implemented\n") := by
  obtain ⟨h2, h3, i, h4⟩ := lineage_aux l last p d s s1 hnone hbuilt hauto
  refine ⟨h2, h3, ⟨i, h4⟩, ?_⟩
  intro hp
  subst hp
  obtain ⟨s', hrun, happ⟩ := execute_stubs last.1 s1 i d hopen hpass h4 h2 h3
  exact ⟨h2, h3, s', hrun, by rw [hrun]; rfl, happ⟩

theorem lineage_not_implemented_witness :
    ((∀ x ∈ [("a", own_table 1)] ++ [("b", own_table 2)], x.2.head = .nil ∧ x.2.body = .nil) ∧
      build_lineage latf_tc_obj ([("a", own_table 1)] ++ [("b", own_table 2)])
          (sample_state .TCE_PASS none 1) =
        .ret (latf_tc_new_table "b" (some table_a) (own_table 2)).1
          (sample_lineage.final_state (sample_state .TCE_PASS none 1)) ∧
      ((own_table 2).atf_auto = .nil ∨ lua_toboolean (own_table 2).atf_auto = true) ∧
      (0 : Int) ≤ (sample_lineage.final_state (sample_state .TCE_PASS none 1)).tc_resfile_fd ∧
      (sample_lineage.final_state (sample_state .TCE_PASS none 1)).latf_tc_expected =
        .TCE_PASS) ∧
    (latf_tc_new_table "b" (some table_a) (own_table 2)).1.body = .fn .latf_tc_stub_body ∧
    ∃ s', latf_execute "b" "body" (sample_lineage.final_state (sample_state .TCE_PASS none 1)) =
        .bail 1 none s' ∧
      atf_lua_panic (latf_execute "b" "body"
        (sample_lineage.final_state (sample_state .TCE_PASS none 1))) = some 1 ∧
      appended (sample_lineage.final_state (sample_state .TCE_PASS none 1)) s'
        "failed: Test case not implemented\n" :=
  ⟨⟨by decide, by decide, by decide, by decide, by decide⟩,
    ((lineage_not_implemented latf_tc_obj [("a", own_table 1)] ("b", own_table 2)
      (sample_state .TCE_PASS none 1)
      (sample_lineage.final_state (sample_state .TCE_PASS none 1))
      (latf_tc_new_table "b" (some table_a) (own_table 2)).1
      (by decide) (by decide) (by decide) (by decide) (by decide)).2.2.2 rfl).2.1,
    ((lineage_not_implemented latf_tc_obj [("a", own_table 1)] ("b", own_table 2)
      (sample_state .TCE_PASS none 1)
      (sample_lineage.final_state (sample_state .TCE_PASS none 1))
      (latf_tc_new_table "b" (some table_a) (own_table 2)).1
      (by decide) (by decide) (by decide) (by decide) (by decide)).2.2.2 rfl).2.2⟩

end Latf
